import Mathlib

/-!
# Verification of the A2A agent-orchestration engine

Shallow embedding of the backend run executor (`runEngine`), the routing
utilities (`routingUtils.ts`), the agent resolver (`spawnAgentsFromPlan` /
`findSimilarAgent`), the bootstrap-agent provisioning (`bootstrap.ts`) and
the `run.start` RPC handler (`rpc.ts`) of the orchestrator repository.

Modelling conventions, used throughout:
* MongoDB `ObjectId`s are `Nat`s drawn from a per-store counter; a
  collection is a Lean list in insertion order (`findOne` without a sort
  returns the first match, `insertOne` appends), which also models the
  `createdAt`-ascending sort used by `listAvailableAgents` since document
  timestamps are monotone in insertion order.
* Dynamic JSON payloads are values of the `Json` inductive; the JavaScript
  pair undefined/null is collapsed to `Json.null` where a value is stored
  and to `Option.none` at access sites (both behave identically under the
  `??` and `?.` operators that the source uses on them).
* JavaScript numbers are modelled as `Int`; the engine only ever computes
  with small integers (depths, counters, lengths).  `Date` fields
  (`createdAt`, `startedAt`, …) are omitted: no code path reads them back
  except for the sort modelled by insertion order.
* The network model caller (`callModel`) is an oracle parameter: the
  response is the JSON.parse of the returned assistant content, `none`
  standing for content that fails to parse.  SHA-256 (`buildPromptHash`)
  is likewise an uninterpreted function parameter of the semantics; both
  only flow into event payloads and the oracle input.
* Stateful TypeScript (async/await over MongoDB) becomes explicit state
  passing in the `M` monad `Store → Except String α × Store`; a thrown
  exception is `.error msg` and leaves already-performed writes in place,
  exactly like an awaited Mongo write followed by a later `throw`.
-/

/-- JSON document values (the dynamic payloads of the engine). -/
inductive Json where
  | null : Json
  | bool (b : Bool) : Json
  | num (n : Int) : Json
  | str (s : String) : Json
  | arr (elems : List Json) : Json
  | obj (fields : List (String × Json)) : Json
  deriving Repr

mutual

/-- Decidable structural equality for `Json` (deep equality of documents). -/
def Json.decEq : (a b : Json) → Decidable (a = b)
  | .null, .null => isTrue rfl
  | .bool a, .bool b =>
    match instDecidableEqBool a b with
    | isTrue h => isTrue (h ▸ rfl)
    | isFalse h => isFalse (fun heq => h (Json.bool.inj heq))
  | .num a, .num b =>
    match Int.instDecidableEq a b with
    | isTrue h => isTrue (h ▸ rfl)
    | isFalse h => isFalse (fun heq => h (Json.num.inj heq))
  | .str a, .str b =>
    match instDecidableEqString a b with
    | isTrue h => isTrue (h ▸ rfl)
    | isFalse h => isFalse (fun heq => h (Json.str.inj heq))
  | .arr xs, .arr ys =>
    match Json.decEqList xs ys with
    | isTrue h => isTrue (h ▸ rfl)
    | isFalse h => isFalse (fun heq => h (Json.arr.inj heq))
  | .obj xs, .obj ys =>
    match Json.decEqFields xs ys with
    | isTrue h => isTrue (h ▸ rfl)
    | isFalse h => isFalse (fun heq => h (Json.obj.inj heq))
  | .null, .bool _ => isFalse (fun h => Json.noConfusion h)
  | .null, .num _ => isFalse (fun h => Json.noConfusion h)
  | .null, .str _ => isFalse (fun h => Json.noConfusion h)
  | .null, .arr _ => isFalse (fun h => Json.noConfusion h)
  | .null, .obj _ => isFalse (fun h => Json.noConfusion h)
  | .bool _, .null => isFalse (fun h => Json.noConfusion h)
  | .bool _, .num _ => isFalse (fun h => Json.noConfusion h)
  | .bool _, .str _ => isFalse (fun h => Json.noConfusion h)
  | .bool _, .arr _ => isFalse (fun h => Json.noConfusion h)
  | .bool _, .obj _ => isFalse (fun h => Json.noConfusion h)
  | .num _, .null => isFalse (fun h => Json.noConfusion h)
  | .num _, .bool _ => isFalse (fun h => Json.noConfusion h)
  | .num _, .str _ => isFalse (fun h => Json.noConfusion h)
  | .num _, .arr _ => isFalse (fun h => Json.noConfusion h)
  | .num _, .obj _ => isFalse (fun h => Json.noConfusion h)
  | .str _, .null => isFalse (fun h => Json.noConfusion h)
  | .str _, .bool _ => isFalse (fun h => Json.noConfusion h)
  | .str _, .num _ => isFalse (fun h => Json.noConfusion h)
  | .str _, .arr _ => isFalse (fun h => Json.noConfusion h)
  | .str _, .obj _ => isFalse (fun h => Json.noConfusion h)
  | .arr _, .null => isFalse (fun h => Json.noConfusion h)
  | .arr _, .bool _ => isFalse (fun h => Json.noConfusion h)
  | .arr _, .num _ => isFalse (fun h => Json.noConfusion h)
  | .arr _, .str _ => isFalse (fun h => Json.noConfusion h)
  | .arr _, .obj _ => isFalse (fun h => Json.noConfusion h)
  | .obj _, .null => isFalse (fun h => Json.noConfusion h)
  | .obj _, .bool _ => isFalse (fun h => Json.noConfusion h)
  | .obj _, .num _ => isFalse (fun h => Json.noConfusion h)
  | .obj _, .str _ => isFalse (fun h => Json.noConfusion h)
  | .obj _, .arr _ => isFalse (fun h => Json.noConfusion h)

def Json.decEqList : (xs ys : List Json) → Decidable (xs = ys)
  | [], [] => isTrue rfl
  | [], _ :: _ => isFalse (fun h => List.noConfusion h)
  | _ :: _, [] => isFalse (fun h => List.noConfusion h)
  | x :: xs, y :: ys =>
    match Json.decEq x y with
    | isFalse h => isFalse (fun heq => h (List.cons.inj heq).1)
    | isTrue h1 =>
      match Json.decEqList xs ys with
      | isTrue h2 => isTrue (h1 ▸ h2 ▸ rfl)
      | isFalse h => isFalse (fun heq => h (List.cons.inj heq).2)

def Json.decEqFields : (xs ys : List (String × Json)) → Decidable (xs = ys)
  | [], [] => isTrue rfl
  | [], _ :: _ => isFalse (fun h => List.noConfusion h)
  | _ :: _, [] => isFalse (fun h => List.noConfusion h)
  | (k, v) :: xs, (k', v') :: ys =>
    match instDecidableEqString k k' with
    | isFalse h =>
      isFalse (fun heq => h (congrArg Prod.fst (List.cons.inj heq).1))
    | isTrue hk =>
      match Json.decEq v v' with
      | isFalse h =>
        isFalse (fun heq => h (congrArg Prod.snd (List.cons.inj heq).1))
      | isTrue hv =>
        match Json.decEqFields xs ys with
        | isTrue ht => isTrue (hk ▸ hv ▸ ht ▸ rfl)
        | isFalse h => isFalse (fun heq => h (List.cons.inj heq).2)

end

instance : DecidableEq Json := Json.decEq

namespace Json

/-- First binding of key `k` in an object; `none` for missing keys and
non-objects (JavaScript property access on the modelled values). -/
def getField : Json → String → Option Json
  | .obj fields, k => (fields.find? (fun p => p.1 == k)).map Prod.snd
  | _, _ => none

/-- JavaScript truthiness of a JSON value (`!x` in the source). -/
def truthy : Json → Bool
  | .null => false
  | .bool b => b
  | .num n => n != 0
  | .str s => s ≠ ""
  | .arr _ => true
  | .obj _ => true

/-- `Array.isArray`. -/
def isArray : Json → Bool
  | .arr _ => true
  | _ => false

def asArray : Json → Option (List Json)
  | .arr xs => some xs
  | _ => none

end Json

/-- `x?.k ?? d`-style access: missing key and `null` both fall through to
the default (JavaScript `??` treats undefined and null alike). -/
def jGetD (j : Json) (k : String) (d : Json) : Json :=
  match j.getField k with
  | some .null => d
  | some v => v
  | none => d

/-- Key lookup that treats a stored `null` like an absent key, matching the
undefined/null collapse of the embedding under `??` / truthiness tests. -/
def jGet? (j : Json) (k : String) : Option Json :=
  match j.getField k with
  | some .null => none
  | some v => some v
  | none => none

example : Json.truthy (.str "") = false := by decide
example : jGetD (.obj [("a", .null)]) "a" (.num 7) = .num 7 := by decide

/-! ## JavaScript string and object primitives -/

/-- `String.prototype.trim` (the core `String.trim` is not used because it
does not reduce in the kernel; this list-based version is equivalent). -/
def jsTrim (s : String) : String :=
  String.mk
    (((s.data.dropWhile Char.isWhitespace).reverse.dropWhile
        Char.isWhitespace).reverse)

/-- `String.prototype.toLowerCase`. -/
def jsToLower (s : String) : String := String.mk (s.data.map Char.toLower)

/-- `String.prototype.slice(0, n)` on the modelled (code-point) strings. -/
def jsSlice (s : String) (n : Nat) : String := String.mk (s.data.take n)

/-- Whether the first character list leads (is an initial segment of) the
second; helper for the substring test below. -/
def listLeads : List Char → List Char → Bool
  | [], _ => true
  | _ :: _, [] => false
  | x :: xs, y :: ys => x == y && listLeads xs ys

def listHasSegment (pat : List Char) : List Char → Bool
  | [] => listLeads pat []
  | c :: rest => listLeads pat (c :: rest) || listHasSegment pat rest

/-- `String.prototype.includes`. -/
def strIncludes (s pat : String) : Bool := listHasSegment pat.data s.data

/-- `String.prototype.endsWith`. -/
def jsEndsWith (s suffix : String) : Bool :=
  listLeads suffix.data.reverse s.data.reverse

/-- `String.prototype.startsWith`. -/
def jsStartsWith (s pre : String) : Bool := listLeads pre.data s.data

/-- One step of `.replace(/[-_]+/g, " ")`: the flag records whether we are
inside a run of `-`/`_` characters (a maximal run becomes one space). -/
def collapseDashRuns : Bool → List Char → List Char
  | _, [] => []
  | inRun, c :: rest =>
    if c == '-' || c == '_' then
      if inRun then collapseDashRuns true rest
      else ' ' :: collapseDashRuns true rest
    else c :: collapseDashRuns false rest

/-- JavaScript property assignment `o[k] = v` on a plain object: updates an
existing key in place, otherwise appends the key (insertion order). -/
def jsObjSet (fields : List (String × Json)) (k : String) (v : Json) :
    List (String × Json) :=
  if fields.any (fun p => p.1 == k) then
    fields.map (fun p => if p.1 == k then (k, v) else p)
  else fields ++ [(k, v)]

/-- Object spread `{...a, ...b}`: keys of `a` in order with `b`'s values
winning, then keys of `b` not in `a` appended in `b`'s order. -/
def jsSpread (a b : List (String × Json)) : List (String × Json) :=
  b.foldl (fun acc p => jsObjSet acc p.1 p.2) a

/-- `delete o[k]`. -/
def jsObjDelete (fields : List (String × Json)) (k : String) :
    List (String × Json) :=
  fields.filter (fun p => p.1 ≠ k)

/-- The fields of a value under object spread: non-objects contribute no
(string-keyed) enumerable own properties that the engine would read back. -/
def jsFieldsOf : Json → List (String × Json)
  | .obj fs => fs
  | _ => []

/-- JavaScript string coercion for the few places a dynamic value is used
as an object key or document field that the engine treats as a string. -/
def jsKeyString : Json → String
  | .str s => s
  | .num n => toString n
  | .bool b => if b then "true" else "false"
  | .null => "null"
  | .arr _ => ""
  | .obj _ => "[object Object]"

/-- `new Set(l)` / `Array.from(set)`: ordered deduplication. -/
def jsSetAdd (l : List String) (x : String) : List String :=
  if l.contains x then l else l ++ [x]

def jsSetOfList (l : List String) : List String := l.foldl jsSetAdd []

/-! ## `routingUtils.ts` -/

structure RoutingState where
  visitedSlugs : List String
  routingDepth : Int
  deriving Repr, DecidableEq

/-- `normalizeStringArray`: the string items whose trim is non-empty
(items are kept untrimmed). -/
def normalizeStringArray : Json → List String
  | .arr items =>
    items.filterMap fun it =>
      match it with
      | .str s => if (jsTrim s).length > 0 then some s else none
      | _ => none
  | _ => []

def normalizeDomainValue (value : String) : String := jsToLower (jsTrim value)

def normalizeDomains (values : List String) : List String :=
  (values.map normalizeDomainValue).filter (fun value => value.length > 0)

/-- `mergeStringArrays`: stable-order deduplicated union. -/
def mergeStringArrays (a b : List String) : List String :=
  jsSetOfList (a ++ b)

/-- `normalizeAgentRole` on an (optional) metadata object. -/
def normalizeAgentRole (metadata : Option Json) : Option String :=
  match metadata.bind (fun m => m.getField "role") with
  | some (.str role) =>
    if role == "system" || role == "router" || role == "specialist" then
      some role
    else none
  | _ => none

def inferRoleFromTags (tags : List String) : Option String :=
  if tags.contains "router" || tags.contains "domain-router" then some "router"
  else if tags.contains "specialist" then some "specialist"
  else none

def inferRoleFromLabel (label : String) : Option String :=
  let normalized := jsToLower label
  if strIncludes normalized "router" then some "router"
  else if strIncludes normalized "specialist" then some "specialist"
  else none

def domainSlugSuffixes : List String :=
  ["_router", "-router", "_specialist", "-specialist"]

def inferDomainFromSlug (slug : String) : Option String :=
  let normalized := jsToLower slug
  (domainSlugSuffixes.find? (fun suffix => jsEndsWith normalized suffix)).bind
    fun suffix =>
      let raw :=
        jsTrim (String.mk (collapseDashRuns false
          (jsSlice normalized (normalized.length - suffix.length)).data))
      if raw.length > 0 then some (normalizeDomainValue raw) else none

def domainNameSuffixes : List String := [" router", " specialist"]

def inferDomainFromName (name : String) : Option String :=
  let normalized := jsToLower name
  (domainNameSuffixes.find? (fun suffix => jsEndsWith normalized suffix)).bind
    fun suffix =>
      let raw := jsTrim (jsSlice normalized (normalized.length - suffix.length))
      if raw.length > 0 then some (normalizeDomainValue raw) else none

def inferDomainsFromLabels (name slug : String) : List String :=
  (inferDomainFromSlug slug).toList ++ (inferDomainFromName name).toList

def extractDomainsFromTags (tags : List String) : List String :=
  tags.filterMap fun tag =>
    if jsStartsWith tag "domain:" then
      let domain := normalizeDomainValue (String.mk (tag.data.drop 7))
      if domain.length > 0 then some domain else none
    else none

structure AgentSummaryItem where
  slug : String
  name : String
  description : Json
  tags : List String
  domains : List String
  capabilities : List String
  role : Option String
  system : Bool
  hidden : Bool
  deriving Repr, DecidableEq

/-- `buildAgentSummaryItem` over `{slug, name, description?, metadata?}`. -/
def buildAgentSummaryItem (slug name : String) (description : Option Json)
    (metadata : Option Json) : AgentSummaryItem :=
  let tags := normalizeStringArray
    ((metadata.bind (fun m => m.getField "tags")).getD .null)
  let domainFromTags := extractDomainsFromTags tags
  let domainsFromMeta := normalizeDomains (normalizeStringArray
    ((metadata.bind (fun m => m.getField "domains")).getD .null))
  let domains := mergeStringArrays domainsFromMeta domainFromTags
  let capabilities := normalizeStringArray
    ((metadata.bind (fun m => m.getField "capabilities")).getD .null)
  let inferredRole :=
    (inferRoleFromTags tags).orElse fun _ =>
      inferRoleFromLabel (name ++ " " ++ slug)
  let role := (normalizeAgentRole metadata).orElse fun _ => inferredRole
  let system := metadata.bind (fun m => m.getField "system") == some (.bool true)
  let hidden := metadata.bind (fun m => m.getField "hidden") == some (.bool true)
  let domains :=
    if domains.length = 0 then domains ++ inferDomainsFromLabels name slug
    else domains
  { slug := slug
    name := name
    description := match description with
      | some .null | none => .str name
      | some d => d
    tags := tags
    domains := domains
    capabilities := capabilities
    role := role.orElse fun _ => if system then some "system" else none
    system := system
    hidden := hidden }

structure RouterIndexItem where
  slug : String
  name : String
  description : Json
  domains : List String
  tags : List String
  deriving Repr, DecidableEq

def projectIndexItem (agent : AgentSummaryItem) : RouterIndexItem :=
  { slug := agent.slug, name := agent.name, description := agent.description
    domains := agent.domains, tags := agent.tags }

def buildRouterIndex (agents : List AgentSummaryItem) (limit : Nat) :
    List RouterIndexItem :=
  let routers := agents.filter fun agent =>
    agent.role == some "router" && !agent.hidden
  (routers.take limit).map projectIndexItem

def buildSpecialistIndex (agents : List AgentSummaryItem) (limit : Nat)
    (domains : List String) : List RouterIndexItem :=
  let normalizedDomains := normalizeDomains domains
  let specialists := agents.filter fun agent =>
    agent.role == some "specialist" && !agent.hidden
  let filtered :=
    if normalizedDomains.length = 0 then specialists
    else specialists.filter fun agent =>
      agent.domains.any (fun domain => normalizedDomains.contains domain)
  (filtered.take limit).map projectIndexItem

/-- Increment a counter in an insertion-ordered record of counts. -/
def bumpCount (counts : List (String × Nat)) (key : String) :
    List (String × Nat) :=
  if counts.any (fun p => p.1 == key) then
    counts.map (fun p => if p.1 == key then (p.1, p.2 + 1) else p)
  else counts ++ [(key, 1)]

/-- Stable insertion of an entry into a count-descending list (mirrors the
stable `sort((a, b) => b[1] - a[1])`). -/
def insertByCount (x : String × Nat) : List (String × Nat) → List (String × Nat)
  | [] => [x]
  | y :: ys => if y.2 < x.2 then x :: y :: ys else y :: insertByCount x ys

def sortByCountDesc : List (String × Nat) → List (String × Nat)
  | [] => []
  | x :: xs => insertByCount x (sortByCountDesc xs)

def topCounts (counts : List (String × Nat)) (limit : Nat) :
    List (String × Nat) :=
  (sortByCountDesc counts).take limit

def countsToJson (counts : List (String × Nat)) : Json :=
  .obj (counts.map fun p => (p.1, .num (p.2 : Int)))

/-- `summarizeAvailableAgents` as the JSON object it contributes to the
model context. -/
def summarizeAvailableAgents (agents : List AgentSummaryItem) : Json :=
  let step := fun (acc : List (String × Nat) × List (String × Nat) ×
      List (String × Nat)) (agent : AgentSummaryItem) =>
    let (byDomain, byRole, byTag) := acc
    let role := agent.role.getD (if agent.system then "system" else "unspecified")
    let byRole := bumpCount byRole role
    let domains := if agent.domains.length > 0 then agent.domains
      else ["unspecified"]
    let byDomain := domains.foldl bumpCount byDomain
    let byTag := agent.tags.foldl bumpCount byTag
    (byDomain, byRole, byTag)
  let (byDomain, byRole, byTag) := agents.foldl step ([], [], [])
  .obj [("total", .num (agents.length : Int)),
        ("byDomain", countsToJson byDomain),
        ("byRole", countsToJson byRole),
        ("topTags", countsToJson (topCounts byTag 12))]

/-- `readRoutingState`: defensive parse of `context.routingState`. -/
def readRoutingState (context : Option Json) : RoutingState :=
  let state := match context with
    | none => Json.obj []
    | some c => jGetD c "routingState" (.obj [])
  let visitedSlugs := normalizeStringArray ((state.getField "visitedSlugs").getD .null)
  let routingDepth : Int := match state.getField "routingDepth" with
    | some (.num n) => n
    | _ => 0
  { visitedSlugs := visitedSlugs
    routingDepth := if routingDepth < 0 then 0 else routingDepth }

/-- `summarizeResultForContext`: truncate long strings, flatten arrays and
objects to shape descriptors. -/
def summarizeResultForContext (value : Json) : Json :=
  match value with
  | .null => .null
  | .str s =>
    if s.length ≤ 200 then .str s
    else .str (jsSlice s 200 ++ "...(truncated)")
  | .num n => .num n
  | .bool b => .bool b
  | .arr elems => .obj [("type", .str "array"), ("length", .num (elems.length : Int))]
  | .obj fields =>
    let keys := fields.map Prod.fst
    .obj [("type", .str "object"),
          ("keys", .arr ((keys.take 20).map Json.str)),
          ("truncated", .bool (decide (keys.length > 20)))]

def summarizePreviousResults (results : List (String × Json)) :
    List (String × Json) :=
  results.map fun p => (p.1, summarizeResultForContext p.2)

example : inferRoleFromTags ["router", "specialist"] = some "router" := by decide
example : extractDomainsFromTags ["domain:backend", "domain: frontend", "misc"] =
    ["backend", "frontend"] := by decide
example :
    (buildAgentSummaryItem "marketing_specialist" "Marketing Specialist"
      none none).role = some "specialist" := by decide
example :
    (buildAgentSummaryItem "marketing_specialist" "Marketing Specialist"
      none none).domains = ["marketing", "marketing"] := by decide
example : readRoutingState (some (.obj [("routingState",
    .obj [("visitedSlugs", .arr [.str "a", .num 2]), ("routingDepth", .num (-1))])])) =
    { visitedSlugs := ["a"], routingDepth := 0 } := by decide

/-! ## Data model (`models.ts`) and store (`db.ts`)

`createdAt` / `updatedAt` / `startedAt` / `endedAt` and `createdBy` are
written by the engine but never read back (except the creation-order sort,
modelled by list order), so they are omitted from the document records;
`endedAt` is set exactly when a run becomes terminal. -/

inductive RunStatus where
  | queued | running | succeeded | failed
  deriving Repr, DecidableEq

def RunStatus.toStr : RunStatus → String
  | .queued => "queued"
  | .running => "running"
  | .succeeded => "succeeded"
  | .failed => "failed"

structure RunError where
  message : String
  lastEventSeq : Nat
  deriving Repr, DecidableEq

structure AgentDoc where
  _id : Nat
  slug : String
  name : String
  description : Option Json
  activeVersionId : Nat
  metadata : Option Json
  deriving Repr, DecidableEq

structure AgentVersionDoc where
  _id : Nat
  agentId : Nat
  version : Nat
  systemPrompt : Json
  resources : Json
  ioSchema : Json
  routingHints : Json
  deriving Repr, DecidableEq

/-- A run document; `userMessage`/`context` are the two components of
`input`, `output` holds `output.result` when present. -/
structure RunDoc where
  _id : Nat
  sessionId : Nat
  agentId : Option Nat
  agentVersionId : Option Nat
  status : RunStatus
  parentRunId : Option Nat
  rootRunId : Option Nat
  userMessage : String
  context : Option Json
  output : Option Json
  error : Option RunError
  deriving Repr, DecidableEq

inductive EventType where
  | RUN_STARTED | PROMPT_LOADED | MODEL_REQUEST | MODEL_RESPONSE
  | SPAWN_AGENT_REQUEST | SPAWN_AGENT_CREATED
  | CHILD_RUN_STARTED | CHILD_RUN_FINISHED
  | RUN_FINISHED | ERROR
  deriving Repr, DecidableEq

structure EventDoc where
  _id : Nat
  runId : Nat
  seq : Nat
  type : EventType
  payload : Json
  deriving Repr, DecidableEq

/-- The persistent store: one list per collection, in insertion order,
plus the ObjectId counter. -/
structure Store where
  agents : List AgentDoc
  agentVersions : List AgentVersionDoc
  runs : List RunDoc
  events : List EventDoc
  sessions : List Nat
  nextId : Nat
  deriving Repr, DecidableEq

def emptyStore : Store :=
  { agents := [], agentVersions := [], runs := [], events := [],
    sessions := [], nextId := 0 }

/-! ## The effect monad: explicit state passing with exceptions

A thrown JavaScript exception leaves all already-awaited writes in place,
hence the state is returned alongside the error. -/

def M (α : Type) : Type := Store → Except String α × Store

instance : Monad M where
  pure a := fun s => (.ok a, s)
  bind m k := fun s =>
    match m s with
    | (.ok a, s') => k a s'
    | (.error e, s') => (.error e, s')

def throwM {α : Type} (msg : String) : M α := fun s => (.error msg, s)

/-- `try { m } catch (err) { handler(err) }`. -/
def tryCatchM {α : Type} (m : M α) (handler : String → M α) : M α := fun s =>
  match m s with
  | (.ok a, s') => (.ok a, s')
  | (.error e, s') => handler e s'

def getStore : M Store := fun s => (.ok s, s)

def modifyStore (f : Store → Store) : M Unit := fun s => (.ok (), f s)

/-- `new ObjectId()`. -/
def freshId : M Nat := fun s => (.ok s.nextId, { s with nextId := s.nextId + 1 })

def liftEx {α : Type} : Except String α → M α
  | .ok a => pure a
  | .error e => throwM e

theorem M.bind_apply {α β : Type} (m : M α) (k : α → M β) (s : Store) :
    (m >>= k) s = match m s with
      | (.ok a, s') => k a s'
      | (.error e, s') => (.error e, s') := rfl

theorem M.pure_apply {α : Type} (a : α) (s : Store) :
    (pure a : M α) s = (.ok a, s) := rfl

/-! ## Store queries and updates (the `collections` gateway) -/

def findAgentById (s : Store) (id : Nat) : Option AgentDoc :=
  s.agents.find? (fun a => a._id == id)

def findAgentBySlugStr (s : Store) (slug : String) : Option AgentDoc :=
  s.agents.find? (fun a => a.slug == slug)

/-- `agents.findOne({slug: spec.slug})` with a dynamic query value: all
stored slugs are strings, so a non-string query matches nothing. -/
def findAgentBySlugJson (s : Store) (slug : Json) : Option AgentDoc :=
  match slug with
  | .str str => findAgentBySlugStr s str
  | _ => none

/-- `agents.findOne({name: {$regex: ^name$, i}})`: modelled as plain
case-insensitive equality (agent names contain no regex metacharacters
that the interpolation would activate). -/
def findAgentByNameCI (s : Store) (name : Json) : Option AgentDoc :=
  match name with
  | .str n => s.agents.find? (fun a => jsToLower a.name == jsToLower n)
  | _ => none

/-- `.trim()` on a dynamic value: a TypeError for non-strings, which the
run boundary catches like any other exception. -/
def jsTrimJ : Json → Except String String
  | .str s => .ok (jsTrim s)
  | _ => .error "TypeError: trim is not a function"

/-- `agents.findOne({"metadata.tags": {$in: tags}})`. -/
def findAgentByTagsIn (s : Store) (tags : List String) : Option AgentDoc :=
  s.agents.find? fun a =>
    match (a.metadata.bind (fun m => m.getField "tags")) with
    | some (.arr items) =>
      items.any fun it =>
        match it with
        | .str t => tags.contains t
        | _ => false
    | _ => false

def findVersionById (s : Store) (id : Nat) : Option AgentVersionDoc :=
  s.agentVersions.find? (fun v => v._id == id)

/-- `agent_versions.find({agentId}).sort({version: -1}).limit(1)`. -/
def latestVersionFor (s : Store) (agentId : Nat) : Option AgentVersionDoc :=
  (s.agentVersions.filter (fun v => v.agentId == agentId)).foldl
    (fun best v =>
      match best with
      | none => some v
      | some b => if v.version > b.version then some v else best)
    none

def findRunById (s : Store) (id : Nat) : Option RunDoc :=
  s.runs.find? (fun r => r._id == id)

/-- `runs.countDocuments({rootRunId: rootId})`. -/
def countRunsByRootId (s : Store) (rootId : Nat) : Nat :=
  (s.runs.filter (fun r => r.rootRunId == some rootId)).length

def insertAgent (a : AgentDoc) : M Unit :=
  modifyStore fun s => { s with agents := s.agents ++ [a] }

def insertVersion (v : AgentVersionDoc) : M Unit :=
  modifyStore fun s => { s with agentVersions := s.agentVersions ++ [v] }

def insertRun (r : RunDoc) : M Unit :=
  modifyStore fun s => { s with runs := s.runs ++ [r] }

def insertEvent (e : EventDoc) : M Unit :=
  modifyStore fun s => { s with events := s.events ++ [e] }

/-- `updateOne({_id}, {$set: ...})`: rewrite the first matching document. -/
def updateFirstAgent : List AgentDoc → Nat → (AgentDoc → AgentDoc) →
    List AgentDoc
  | [], _, _ => []
  | a :: rest, id, f =>
    if a._id == id then f a :: rest else a :: updateFirstAgent rest id f

def updateAgentById (id : Nat) (f : AgentDoc → AgentDoc) : M Unit :=
  modifyStore fun s => { s with agents := updateFirstAgent s.agents id f }

def updateFirstRun : List RunDoc → Nat → (RunDoc → RunDoc) → List RunDoc
  | [], _, _ => []
  | r :: rest, id, f =>
    if r._id == id then f r :: rest else r :: updateFirstRun rest id f

def updateRunById (id : Nat) (f : RunDoc → RunDoc) : M Unit :=
  modifyStore fun s => { s with runs := updateFirstRun s.runs id f }

/-! ## `bootstrap.ts` -/

def BOOTSTRAP_AGENT_SLUG : String := "bootstrap"
def DIRECTORY_AGENT_SLUG : String := "a2a_directory"

/-- `new Set` over dynamic tag values (used by the system-agent metadata
merge, where existing tags need not be strings). -/
def jsSetAddJ (l : List Json) (x : Json) : List Json :=
  if l.contains x then l else l ++ [x]

def jsSetOfListJ (l : List Json) : List Json := l.foldl jsSetAddJ []

/-- `SYSTEM_AGENT_METADATA(existing, tags)`. -/
def SYSTEM_AGENT_METADATA (existing : Option Json) (tags : List String) :
    Json :=
  let existingTags : List Json :=
    match existing.bind (fun m => m.getField "tags") with
    | some (.arr items) => items
    | _ => []
  let mergedTags := jsSetOfListJ (existingTags ++ tags.map Json.str)
  .obj (jsSpread (jsFieldsOf (existing.getD (.obj [])))
    [("hidden", .bool true), ("system", .bool true), ("role", .str "system"),
     ("tags", .arr mergedTags)])

/-- The bootstrap orchestrator system prompt (`BOOTSTRAP_PROMPT`); inert
prompt text, reproduced faithfully with `\x7b`/`\x7d` for braces. -/
def BOOTSTRAP_PROMPT : String := "
You are the orchestrator bootstrap agent. Your job is to output JSON ONLY.
Given a user request, output a PLAN that creates and runs helper agents to solve the task.
Primary goals:
- Solve the task with the fewest necessary agents, no circular delegation, and minimal context.
- Prefer existing agents when they can do the work.
- Route through domain routers when possible; specialists should not delegate unless essential.
Routing model:
- Use Context.availableRouters (list of router slugs/domains) to select a router.
- If you need exact candidates beyond availableRouters, call the directory agent (slug \"a2a_directory\") via runsToExecute.
- If a suitable domain router exists, run it and stop.
- If no router exists, create one with metadata.role=\"router\" and metadata.domains=[domain], then run it.
- Domain routers should select 1-2 specialists and avoid ping-pong.
A2A compliance:
- Every agent you create MUST be able to delegate by returning \x7b\"type\":\"plan\", ...\x7d, but delegation is a last resort.
- Each created agent's systemPrompt must explicitly say it can call other agents by slug using runsToExecute, and must include strict anti-loop rules.
- Agents receive Context.availableAgentsSummary and Context.availableRouters plus Context.a2a.directoryAgent for the directory helper; only the directory agent sees full Context.availableAgents.
- Before creating any new agent, you MUST check if an existing agent can do the task. Use Context.availableRouters and Context.availableAgentsSummary; if you need exact candidates, run the directory agent (slug \"a2a_directory\") via runsToExecute. If a suitable agent exists, use runsToExecute with its slug and DO NOT include it in agentsToCreate.
- Do not schedule the same agent twice in a plan. If Context.previousResults or Context.parentPlan.runsToExecute contain a slug, treat it as done.
System prompt quality bar for created agents:
- Write the systemPrompt as a seasoned expert in the requested domain with precise, actionable guidance.
- Include: role + scope, inputs to consider (userMessage + Context), required JSON output shape, step-by-step method, checks/edge cases, constraints, and completion criteria.
- Add an explicit \"Delegation\" section: delegate only if essential, never ping-pong, never call an agent twice for the same task, and use Context.previousResults before delegating.
- Add an explicit \"Metadata\" section: set metadata.role (\"router\" or \"specialist\"), metadata.domains (array), metadata.capabilities (array), metadata.tags (array).
- Add a \"Stop\" rule: when the task is complete, return \x7b\"type\":\"final\", ...\x7d and do not delegate further.
Rules:
- Always emit a JSON object with either \x7b\"type\":\"plan\", ...\x7d or \x7b\"type\":\"final\", ...\x7d.
- For plans, you MUST use the exact fields: \"agentsToCreate\" (array) and \"runsToExecute\" (array). Do NOT use \"agents\" or \"runs\".
- Prefer emitting a plan with up to 3-5 agents: planner, 1-2 specialists, optional merger.
- Each agent definition requires: slug, name, systemPrompt.
- Each run to execute requires: slug and userMessage (context optional). Order runs so later runs can use outputs from earlier runs.
- Use mergeStrategy \"compose\".
- Make sure system prompts instruct assistants to return JSON ONLY with either \x7b\"type\":\"final\", ...\x7d or \x7b\"type\":\"plan\", ...\x7d.
- When referencing existing agents, use runsToExecute with their slug. Do not invent slugs unless you also create them.
"

/-- `createSystemVersion`. -/
def createSystemVersion (agentId : Nat) (systemPrompt : String)
    (tags : List String) : M AgentVersionDoc := do
  let s ← getStore
  let latest := latestVersionFor s agentId
  let nextVersion := (match latest with
    | some l => l.version
    | none => 0) + 1
  let versionId ← freshId
  let versionDoc : AgentVersionDoc :=
    { _id := versionId, agentId := agentId, version := nextVersion,
      systemPrompt := .str (jsTrim systemPrompt), resources := .arr [],
      ioSchema := .obj [("output", .obj [])],
      routingHints := .obj [("tags", .arr (tags.map Json.str)),
                            ("preferredModel", .str "gpt-4o-mini")] }
  insertVersion versionDoc
  updateAgentById agentId (fun a => { a with activeVersionId := versionDoc._id })
  pure versionDoc

/-- `ensureBootstrapAgent`. -/
def ensureBootstrapAgent : M (AgentDoc × AgentVersionDoc) := do
  let s ← getStore
  match findAgentBySlugStr s BOOTSTRAP_AGENT_SLUG with
  | some existing => do
    let nextMetadata :=
      SYSTEM_AGENT_METADATA existing.metadata ["bootstrap", "system"]
    updateAgentById existing._id (fun a => { a with metadata := some nextMetadata })
    let s ← getStore
    match findVersionById s existing.activeVersionId with
    | none => do
      let versionDoc ← createSystemVersion existing._id BOOTSTRAP_PROMPT
        ["bootstrap"]
      pure ({ existing with activeVersionId := versionDoc._id }, versionDoc)
    | some version => do
      let storedPrompt ← liftEx (jsTrimJ version.systemPrompt)
      if storedPrompt ≠ jsTrim BOOTSTRAP_PROMPT then do
        let versionDoc ← createSystemVersion existing._id BOOTSTRAP_PROMPT
          ["bootstrap"]
        pure ({ existing with activeVersionId := versionDoc._id }, versionDoc)
      else
        pure (existing, version)
  | none => do
    let agentId ← freshId
    let versionId ← freshId
    let agent : AgentDoc :=
      { _id := agentId, slug := BOOTSTRAP_AGENT_SLUG,
        name := "Bootstrap Orchestrator",
        description := some (.str
          "Hardcoded orchestrator that plans and spawns helper agents."),
        activeVersionId := versionId,
        metadata := some (SYSTEM_AGENT_METADATA none ["bootstrap", "system"]) }
    let version : AgentVersionDoc :=
      { _id := versionId, agentId := agentId, version := 1,
        systemPrompt := .str (jsTrim BOOTSTRAP_PROMPT), resources := .arr [],
        ioSchema := .obj [("output", .obj [])],
        routingHints := .obj [("tags", .arr [.str "bootstrap"]),
                              ("preferredModel", .str "gpt-4o-mini")] }
    insertAgent agent
    insertVersion version
    pure (agent, version)

/-! ## `runEngine.ts`: constants, model caller boundary -/

def DEFAULT_MODEL : String := "gpt-4o"

structure RoutingPolicy where
  maxDepth : Int
  maxChildren : Nat
  deriving Repr, DecidableEq

/-- `ROUTING_POLICY` with the `parsePositiveInt` fallbacks (the
environment is modelled unset, so every limit takes its default). -/
def ROUTING_POLICY : RoutingPolicy := { maxDepth := 2, maxChildren := 3 }

def ROUTER_INDEX_LIMIT : Nat := 50
def SPECIALIST_INDEX_LIMIT : Nat := 50

def routingPolicyJson : Json :=
  .obj [("maxDepth", .num ROUTING_POLICY.maxDepth),
        ("maxChildren", .num (ROUTING_POLICY.maxChildren : Int))]

/-- The fixed A2A policy instruction appended to every system prompt. -/
def a2aInstruction : String := String.intercalate "\n"
  ["You are an agent in an A2A (agent-to-agent) system.",
   "All responses must be JSON only with type \"final\" or \"plan\".",
   "You may delegate by returning \x7b\"type\":\"plan\",...\x7d with runsToExecute referencing existing agents by slug.",
   "Delegate only when essential for missing expertise or missing data; do not delegate for work you can do.",
   "If you are a specialist and the request is out of your domain, delegate to a router from Context.availableRouters.",
   "Never delegate to any slug already present in Context.routingState.visitedSlugs or Context.parentPlan.runsToExecute; use those results instead.",
   "Avoid ping-pong: do not re-run the same task through multiple agents. If blocked, return a final response with questions or assumptions instead of delegating.",
   "Only create new agents when necessary and include them in agentsToCreate.",
   "Context.availableAgentsSummary is provided for scale; only the directory agent sees full Context.availableAgents.",
   "Context.availableRouters lists router slugs/domains; routers receive Context.availableSpecialists.",
   "Context.self includes your inferred role/domains/tags; use it to decide if a task is in-scope.",
   "If you need exact candidates beyond those lists, call Context.a2a.directoryAgent.slug.",
   "Respect Context.routingPolicy (maxDepth, maxChildren)."]

/-- The chat request observed by the model caller.  The source
concatenates `userMessage + "\n\nContext:\n" + JSON.stringify(contextData,
null, 2)` into the single user message; the request here carries the same
information structurally.  The constant temperature 0.2 is omitted
(floating point). -/
structure ModelCall where
  model : String
  systemPrompt : String
  userMessage : String
  context : Json

/-- The environment of a run: `callModel` behaviour (`respond` is the
JSON.parse of the returned assistant content, `none` when parsing fails
or the provider errs) and the SHA-256 of `buildPromptHash`, both
uninterpreted functions. -/
structure Oracle where
  respond : ModelCall → Option Json
  hash : String → String → String

/-! ## `runEngine.ts`: events, loading, parsing -/

def eventsForRun (s : Store) (runId : Nat) : List EventDoc :=
  s.events.filter (fun e => e.runId == runId)

def maxSeq (events : List EventDoc) : Nat :=
  events.foldl (fun m e => max m e.seq) 0

/-- `nextSeq`: 1 + the largest stored `seq` for the run (the source reads
the first event sorted by `seq` descending). -/
def nextSeq (runId : Nat) : M Nat := fun s =>
  (.ok (maxSeq (eventsForRun s runId) + 1), s)

def emit (runId : Nat) (type : EventType) (payload : Json) : M Nat := do
  let seq ← nextSeq runId
  let id ← freshId
  insertEvent
    { _id := id, runId := runId, seq := seq, type := type,
      payload := payload }
  pure seq

def loadRun (runId : Nat) : M RunDoc := fun s =>
  match findRunById s runId with
  | some run => (.ok run, s)
  | none => (.error "Run not found", s)

structure ResolvedAgent where
  agent : AgentDoc
  versionId : Nat
  systemPrompt : Json

def resolveAgentVersion (run : RunDoc) : M ResolvedAgent := do
  match run.agentId with
  | none => do
    let (agent, version) ← ensureBootstrapAgent
    pure { agent := agent, versionId := version._id,
           systemPrompt := version.systemPrompt }
  | some agentId => do
    let s ← getStore
    match findAgentById s agentId with
    | none => throwM "Agent not found for run"
    | some agent =>
      match findVersionById s (run.agentVersionId.getD agent.activeVersionId) with
      | none => throwM "Agent version not found"
      | some version =>
        pure { agent := agent, versionId := version._id,
               systemPrompt := version.systemPrompt }

/-- `parseJsonStrict`; the argument is the JSON.parse of the model content
(`none` models content that fails to parse, whose SyntaxError the run
boundary catches). -/
def parseJsonStrict (content : Option Json) : M Json :=
  match content with
  | none => throwM "Unexpected token in JSON"
  | some parsed =>
    if !parsed.truthy ||
        (parsed.getField "type" != some (.str "plan") &&
         parsed.getField "type" != some (.str "final")) then
      throwM "Model response missing type plan/final"
    else
      pure parsed

/-- `listAvailableAgents`: all agents in `createdAt` order (= insertion
order), as summary items. -/
def listAvailableAgents : M (List AgentSummaryItem) := fun s =>
  (.ok (s.agents.map (fun a =>
    buildAgentSummaryItem a.slug a.name a.description a.metadata)), s)

/-! ## `runEngine.ts`: agent resolver (`findSimilarAgent`,
`spawnAgentsFromPlan`) -/

structure AgentResolution where
  requestedSlug : String
  slug : String
  agentId : Nat
  agentVersionId : Nat
  reused : Bool
  matchedOn : String
  createdNewAgent : Option Bool := none
  createdNewVersion : Option Bool := none
  deriving Repr, DecidableEq

/-- The resolution as a raw event payload (optional flags appear only when
set, like absent JS properties). -/
def AgentResolution.toJson (r : AgentResolution) : Json :=
  .obj ([("requestedSlug", .str r.requestedSlug),
         ("slug", .str r.slug),
         ("agentId", .num (r.agentId : Int)),
         ("agentVersionId", .num (r.agentVersionId : Int)),
         ("reused", .bool r.reused),
         ("matchedOn", .str r.matchedOn)] ++
        (match r.createdNewAgent with
         | some b => [("createdNewAgent", Json.bool b)]
         | none => []) ++
        (match r.createdNewVersion with
         | some b => [("createdNewVersion", Json.bool b)]
         | none => []))

/-- `findSimilarAgent`: exact slug, then case-insensitive name, then tag
overlap; returns the match together with `matchedOn` and the (unused
downstream) `latestVersionId`. -/
def findSimilarAgent (s : Store) (spec : Json) :
    Option (AgentDoc × String × Nat) :=
  match findAgentBySlugJson s (jGetD spec "slug" .null) with
  | some bySlug => some (bySlug, "slug", bySlug.activeVersionId)
  | none =>
    match findAgentByNameCI s (jGetD spec "name" .null) with
    | some byName => some (byName, "name", byName.activeVersionId)
    | none =>
      let tags := mergeStringArrays
        (normalizeStringArray
          (((jGet? spec "routingHints").bind
            (fun rh => rh.getField "tags")).getD .null))
        (normalizeStringArray
          (((jGet? spec "metadata").bind
            (fun md => md.getField "tags")).getD .null))
      if tags.length > 0 then
        match findAgentByTagsIn s tags with
        | some byTags => some (byTags, "tags", byTags.activeVersionId)
        | none => none
      else none

/-- `o[k] = v` on a whole `Json` object value. -/
def jSetKey (j : Json) (k : String) (v : Json) : Json :=
  .obj (jsObjSet (jsFieldsOf j) k v)

/-- `normalizeStringArray` applied to an in-memory string array (the
re-normalization of `originMetadata.tags`). -/
def normalizeStringList (l : List String) : List String :=
  l.filter (fun s => (jsTrim s).length > 0)

/-- The A2A card synthesized by `spawnAgentsFromPlan`.  The source first
sets `skills[0].tags = spec.routingHints?.tags ?? []` and immediately
overwrites the same mutable field with the merged tags before the card is
ever read, so the card is built here directly with the final skill tags. -/
def buildCard (spec : Json) (skillTags : Json) : Json :=
  let descriptionOrName := jGetD spec "description" (jGetD spec "name" .null)
  let url := match jGet? spec "resources" with
    | some (.arr resources) =>
      match resources.find? (fun r => r.getField "type" == some (.str "url")) with
      | some r => jGetD r "ref" (.str "")
      | none => .str ""
    | _ => .str ""
  .obj [("protocolVersion", .str "0.3.0"),
        ("name", jGetD spec "name" .null),
        ("description", descriptionOrName),
        ("url", url),
        ("preferredTransport", .str "JSONRPC"),
        ("version", .str "0.1.0"),
        ("capabilities", .obj [("streaming", .bool false),
                               ("pushNotifications", .bool false),
                               ("stateTransitionHistory", .bool false)]),
        ("defaultInputModes", .arr [.str "application/json"]),
        ("defaultOutputModes", .arr [.str "application/json"]),
        ("skills", .arr [.obj [("id", jGetD spec "slug" .null),
                               ("name", jGetD spec "name" .null),
                               ("description", descriptionOrName),
                               ("tags", skillTags)]])]

def originOf (run : RunDoc) : Json :=
  .obj [("parentRunId", .num (run._id : Int)),
        ("rootRunId", .num ((run.rootRunId.getD run._id : Nat) : Int)),
        ("createdByAgentId",
          match run.agentId with
          | some a => .num (a : Int)
          | none => .null),
        ("userMessage", .str run.userMessage)]

/-- `mergedMetadata = {...specMetadata, origin, tags, card}` plus the
conditional role/domain inference of `spawnAgentsFromPlan`. -/
def buildMergedMetadata (specMetadata originJson : Json)
    (mergedTags inferredDomains : List String) (card : Json) : Json :=
  let m0 := jSetKey (Json.obj (jsFieldsOf specMetadata)) "origin" originJson
  let m1 := jSetKey m0 "tags" (.arr (mergedTags.map Json.str))
  let m2 := jSetKey m1 "card" card
  let inferredRole := inferRoleFromTags mergedTags
  let m3 :=
    if !(jGetD m2 "role" .null).truthy then
      match inferredRole with
      | some r => jSetKey m2 "role" (.str r)
      | none => m2
    else m2
  if (normalizeStringArray (jGetD m3 "domains" .null)).length = 0 &&
      inferredDomains.length > 0 then
    jSetKey m3 "domains" (.arr (inferredDomains.map Json.str))
  else m3

/-- `nextMetadata = {...existingMetadata, ...specMetadata, tags, card}`
plus role/domain back-fill; this block appears verbatim in both the reuse
and the new-version branches of `spawnAgentsFromPlan`. -/
def mergeExistingMetadata (existingMetadata specMetadata : Json)
    (mergedTags inferredDomains : List String) (card : Json) : Json :=
  let existingTags := normalizeStringArray (jGetD existingMetadata "tags" .null)
  let mergedExistingTags := mergeStringArrays existingTags mergedTags
  let n0 := Json.obj (jsSpread (jsFieldsOf existingMetadata)
    (jsFieldsOf specMetadata))
  let n1 := jSetKey n0 "tags" (.arr (mergedExistingTags.map Json.str))
  let n2 := jSetKey n1 "card" card
  let existingRole := (normalizeAgentRole (some n2)).orElse
    (fun _ => inferRoleFromTags mergedExistingTags)
  let n3 :=
    if !(jGetD n2 "role" .null).truthy then
      match existingRole with
      | some r => jSetKey n2 "role" (.str r)
      | none => n2
    else n2
  let existingDomains := normalizeStringArray (jGetD n3 "domains" .null)
  if existingDomains.length = 0 && inferredDomains.length > 0 then
    jSetKey n3 "domains" (.arr (inferredDomains.map Json.str))
  else n3

/-- `description: spec.description ?? similar.agent.description ??
spec.name`. -/
def updatedDescription (spec : Json) (agent : AgentDoc) : Json :=
  match jGet? spec "description" with
  | some d => d
  | none =>
    match agent.description with
    | some d => d
    | none => jGetD spec "name" .null

/-- The new-version branch shared by a matched agent whose prompt differs
(or whose active version is missing). -/
def createVersionOnMatched (_run : RunDoc) (spec : Json) (agent : AgentDoc)
    (matchedOn specKey : String) (specMetadata : Json)
    (mergedTags inferredDomains : List String) (card : Json) :
    M (String × AgentResolution) := do
  let s ← getStore
  let latest := latestVersionFor s agent._id
  let nextVersion := (match latest with
    | some l => l.version
    | none => 0) + 1
  let versionId ← freshId
  insertVersion
    { _id := versionId, agentId := agent._id, version := nextVersion,
      systemPrompt := jGetD spec "systemPrompt" .null,
      resources := jGetD spec "resources" (.arr []),
      ioSchema := jGetD spec "ioSchema" (.obj [("output", .obj [])]),
      routingHints := jGetD spec "routingHints" (.obj []) }
  let nextMetadata := mergeExistingMetadata (agent.metadata.getD (.obj []))
    specMetadata mergedTags inferredDomains card
  updateAgentById agent._id (fun a =>
    { a with activeVersionId := versionId, metadata := some nextMetadata,
             description := some (updatedDescription spec agent) })
  pure (specKey,
    { requestedSlug := specKey, slug := agent.slug, agentId := agent._id,
      agentVersionId := versionId, reused := false,
      matchedOn := matchedOn ++ "-updated", createdNewVersion := some true })

/-- One iteration of the `spawnAgentsFromPlan` loop. -/
def spawnSpec (run : RunDoc) (spec : Json) : M (String × AgentResolution) := do
  if !(jGetD spec "slug" .null).truthy || !(jGetD spec "name" .null).truthy ||
      !(jGetD spec "systemPrompt" .null).truthy then
    throwM "agentsToCreate entries require slug, name, systemPrompt"
  else do
  let specKey := jsKeyString (jGetD spec "slug" .null)
  let originMetadataTags := normalizeStringArray
    (((jGet? spec "routingHints").bind (fun rh => rh.getField "tags")).getD .null)
  let specMetadata := (jGet? spec "metadata").getD (.obj [])
  let mergedTags := mergeStringArrays
    (normalizeStringList originMetadataTags)
    (normalizeStringArray (jGetD specMetadata "tags" .null))
  let card := buildCard spec (.arr (mergedTags.map Json.str))
  let inferredDomains := extractDomainsFromTags mergedTags
  let mergedMetadata := buildMergedMetadata specMetadata (originOf run)
    mergedTags inferredDomains card
  let s ← getStore
  match findSimilarAgent s spec with
  | some (agent, matchedOn, _latestVersionId) =>
    (match findVersionById s agent.activeVersionId with
     | some latestVersion => do
        let lvTrim ← liftEx (jsTrimJ latestVersion.systemPrompt)
        let spTrim ← liftEx (jsTrimJ (jGetD spec "systemPrompt" .null))
        if lvTrim == spTrim then do
          if mergedTags.length > 0 || (jsFieldsOf specMetadata).length > 0 then
            let nextMetadata := mergeExistingMetadata
              (agent.metadata.getD (.obj [])) specMetadata mergedTags
              inferredDomains card
            updateAgentById agent._id (fun a =>
              { a with metadata := some nextMetadata,
                       description := some (updatedDescription spec agent) })
          else pure ()
          pure (specKey,
            { requestedSlug := specKey, slug := agent.slug,
              agentId := agent._id,
              agentVersionId := agent.activeVersionId, reused := true,
              matchedOn := matchedOn })
        else
          createVersionOnMatched run spec agent matchedOn specKey specMetadata
            mergedTags inferredDomains card
     | none =>
        createVersionOnMatched run spec agent matchedOn specKey specMetadata
          mergedTags inferredDomains card)
  | none => do
    let agentId ← freshId
    let versionId ← freshId
    let agent : AgentDoc :=
      { _id := agentId, slug := jsKeyString (jGetD spec "slug" .null),
        name := jsKeyString (jGetD spec "name" .null),
        description := some (jGetD spec "description" (jGetD spec "name" .null)),
        activeVersionId := versionId, metadata := some mergedMetadata }
    insertAgent agent
    insertVersion
      { _id := versionId, agentId := agentId, version := 1,
        systemPrompt := jGetD spec "systemPrompt" .null,
        resources := jGetD spec "resources" (.arr []),
        ioSchema := jGetD spec "ioSchema" (.obj [("output", .obj [])]),
        routingHints := jGetD spec "routingHints" (.obj []) }
    pure (specKey,
      { requestedSlug := specKey, slug := specKey, agentId := agentId,
        agentVersionId := versionId, reused := false, matchedOn := "new",
        createdNewAgent := some true })

/-- `resolutions[spec.slug] = resolution` (JS object assignment). -/
def setResolution (rs : List (String × AgentResolution)) (k : String)
    (r : AgentResolution) : List (String × AgentResolution) :=
  if rs.any (fun p => p.1 == k) then
    rs.map (fun p => if p.1 == k then (k, r) else p)
  else rs ++ [(k, r)]

def spawnSpecsLoop (run : RunDoc) :
    List Json → List (String × AgentResolution) →
    M (List (String × AgentResolution))
  | [], acc => pure acc
  | spec :: rest, acc => do
    let (k, r) ← spawnSpec run spec
    spawnSpecsLoop run rest (setResolution acc k r)

/-- `spawnAgentsFromPlan`. -/
def spawnAgentsFromPlan (plan : Json) (run : RunDoc) :
    M (List (String × AgentResolution)) := do
  match (jGet? plan "agentsToCreate").getD (.arr []) with
  | .arr agentSpecs => spawnSpecsLoop run agentSpecs []
  | _ => throwM "TypeError: agentsToCreate is not iterable"

/-! ## `runEngine.ts`: child runs and policy checks -/

def lookupResolution (rs : List (String × AgentResolution)) (slug : String) :
    Option AgentResolution :=
  (rs.find? (fun p => p.1 == slug)).map Prod.snd

/-- `createChildRun`; `userMessage` is the raw plan value (stored as
`userMessage ?? ""`, coerced to a string like the template literals that
later consume it). -/
def createChildRun (parentRun : RunDoc) (agentSlug : String)
    (userMessage : Option Json) (contextData : Option Json)
    (resolutions : List (String × AgentResolution)) : M Nat := do
  let resolved := lookupResolution resolutions agentSlug
  let s ← getStore
  let agent := match resolved with
    | some r => findAgentById s r.agentId
    | none => findAgentBySlugStr s agentSlug
  let userMessageStr := match userMessage with
    | some v => jsKeyString v
    | none => ""
  match agent with
  | none => do
    let (bootstrapAgent, bootstrapVersion) ← ensureBootstrapAgent
    let runId ← freshId
    insertRun
      { _id := runId, sessionId := parentRun.sessionId,
        agentId := some bootstrapAgent._id,
        agentVersionId := some ((resolved.map
          (fun r => r.agentVersionId)).getD bootstrapVersion._id),
        status := .running, parentRunId := some parentRun._id,
        rootRunId := some (parentRun.rootRunId.getD parentRun._id),
        userMessage := userMessageStr, context := contextData,
        output := none, error := none }
    pure runId
  | some agent => do
    let versionIdToUse := (resolved.map
      (fun r => r.agentVersionId)).getD agent.activeVersionId
    match findVersionById s versionIdToUse with
    | none => throwM "Child agent active version missing"
    | some activeVersion => do
      let runId ← freshId
      insertRun
        { _id := runId, sessionId := parentRun.sessionId,
          agentId := some agent._id, agentVersionId := some activeVersion._id,
          status := .running, parentRunId := some parentRun._id,
          rootRunId := some (parentRun.rootRunId.getD parentRun._id),
          userMessage := userMessageStr, context := contextData,
          output := none, error := none }
      pure runId

/-- `enforceSpawnCap`: `Math.max(0, existing - 1)` is truncated
subtraction. -/
def enforceSpawnCap (run : RunDoc) (requestedChildren : Nat) : M Unit := do
  let s ← getStore
  let rootId := run.rootRunId.getD run._id
  let existing := countRunsByRootId s rootId
  let alreadySpawned := existing - 1
  let limit := 10
  if alreadySpawned + requestedChildren > limit then
    throwM s!"Spawn cap exceeded (current: {alreadySpawned}, requested: {requestedChildren}, limit: {limit})"
  else
    pure ()

/-- `x.length > n` on a dynamic value (`undefined > n` is false for
non-arrays). -/
def jsLenGt (j : Json) (n : Nat) : Bool :=
  match j with
  | .arr xs => xs.length > n
  | _ => false

/-- The role-discipline block of the plan branch. -/
def checkSpecialistPolicy (agentRole : Option String)
    (availableAgents : List AgentSummaryItem)
    (agentsToCreate runsToExecute : Json) : Except String Unit :=
  if agentRole == some "specialist" then
    if jsLenGt agentsToCreate 0 then
      .error "Specialist agents cannot create new agents; return type final instead"
    else if jsLenGt runsToExecute 0 then
      if jsLenGt runsToExecute 1 then
        .error "Specialist agents may delegate to at most one router"
      else
        let routerSlugs := (availableAgents.filter
          (fun agent => agent.role == some "router")).map
          (fun agent => agent.slug)
        let invalid := (runsToExecute.asArray.getD []).filter fun runSpec =>
          !(match jGet? runSpec "slug" with
            | some (.str s) => routerSlugs.contains s
            | _ => false)
        if invalid.length > 0 then
          .error ("Specialist agents may only delegate to routers; invalid slugs: " ++
            String.intercalate ", " (invalid.map (fun runSpec =>
              match jGet? runSpec "slug" with
              | some v => jsKeyString v
              | none => "")))
        else .ok ()
    else .ok ()
  else .ok ()

/-- The per-entry validation loop over `runsToExecute`: slug present and a
non-empty string, no duplicate within the plan (checked first), and not
already visited. -/
def checkRunSpecs (visitedSlugs : List String) :
    List Json → List String → Except String Unit
  | [], _ => .ok ()
  | runSpec :: rest, requestedSlugs =>
    match jGet? runSpec "slug" with
    | some (.str slug) =>
      if slug == "" then .error "runsToExecute entries require slug"
      else if requestedSlugs.contains slug then
        .error s!"Duplicate slug in runsToExecute: {slug}"
      else if visitedSlugs.contains slug then
        .error s!"Slug already executed in this run tree: {slug}"
      else checkRunSpecs visitedSlugs rest (requestedSlugs ++ [slug])
    | _ => .error "runsToExecute entries require slug"

/-- `child.slug` read back after validation (always a non-empty string on
every reachable path). -/
def childSlugStr (child : Json) : String :=
  match jGet? child "slug" with
  | some (.str s) => s
  | _ => ""

/-! ## `runEngine.ts`: context assembly -/

def AgentSummaryItem.toJson (x : AgentSummaryItem) : Json :=
  .obj ([("slug", .str x.slug), ("name", .str x.name),
         ("description", x.description),
         ("tags", .arr (x.tags.map Json.str)),
         ("domains", .arr (x.domains.map Json.str)),
         ("capabilities", .arr (x.capabilities.map Json.str))] ++
        (match x.role with
         | some r => [("role", Json.str r)]
         | none => []) ++
        [("system", .bool x.system), ("hidden", .bool x.hidden)])

def RouterIndexItem.toJson (x : RouterIndexItem) : Json :=
  .obj [("slug", .str x.slug), ("name", .str x.name),
        ("description", x.description),
        ("domains", .arr (x.domains.map Json.str)),
        ("tags", .arr (x.tags.map Json.str))]

def routingStateToJson (rs : RoutingState) : Json :=
  .obj [("visitedSlugs", .arr (rs.visitedSlugs.map Json.str)),
        ("routingDepth", .num rs.routingDepth)]

/-- The context object assembled for the model call; pure in the agents
list, the run document and the resolved agent (the source interleaves this
with awaits that do not write). -/
def buildContextData (availableAgents : List AgentSummaryItem) (run : RunDoc)
    (resolvedAgent : AgentDoc) (routingStateForModel : RoutingState) : Json :=
  let availableAgentsSummary := summarizeAvailableAgents availableAgents
  let availableRouters := buildRouterIndex availableAgents ROUTER_INDEX_LIMIT
  let baseContext := run.context.getD (.obj [])
  let c0 := jsObjDelete (jsFieldsOf baseContext) "availableAgents"
  let c1 := jsObjSet c0 "availableAgentsSummary" availableAgentsSummary
  let c2 := jsObjSet c1 "availableRouters"
    (.arr (availableRouters.map RouterIndexItem.toJson))
  let c3 := jsObjSet c2 "routingPolicy" routingPolicyJson
  let c4 := jsObjSet c3 "routingState" (routingStateToJson routingStateForModel)
  let selfSummary := buildAgentSummaryItem resolvedAgent.slug
    resolvedAgent.name resolvedAgent.description resolvedAgent.metadata
  let c5 := jsObjSet c4 "self" selfSummary.toJson
  let a2aBase := jsFieldsOf (jGetD baseContext "a2a" (.obj []))
  let c6 := jsObjSet c5 "a2a" (.obj (jsObjSet a2aBase "directoryAgent"
    (.obj [("slug", .str DIRECTORY_AGENT_SLUG),
           ("purpose", .str "Returns the current agent roster.")])))
  let c7 :=
    if normalizeAgentRole resolvedAgent.metadata == some "router" then
      let agentSummary := selfSummary
      let routerCaps := normalizeStringArray
        ((resolvedAgent.metadata.bind
          (fun m => m.getField "capabilities")).getD (.arr []))
      let routerTags := normalizeStringArray
        ((resolvedAgent.metadata.bind
          (fun m => m.getField "tags")).getD (.arr []))
      let isCrossDomain := routerCaps.contains "cross-domain" ||
        routerTags.contains "cross-domain"
      let domainFilter := if isCrossDomain then [] else agentSummary.domains
      jsObjSet c6 "availableSpecialists"
        (.arr ((buildSpecialistIndex availableAgents SPECIALIST_INDEX_LIMIT
          domainFilter).map RouterIndexItem.toJson))
    else c6
  let c8 :=
    if resolvedAgent.slug == DIRECTORY_AGENT_SLUG then
      jsObjSet c7 "availableAgents"
        (.arr (availableAgents.map AgentSummaryItem.toJson))
    else c7
  .obj c8

/-- `systemPrompt = (resolved.systemPrompt + "\n" + instruction).trim()`;
stored prompts are strings, other values coerce as in template literals
(modelled by `jsKeyString`). -/
def buildSystemPromptStr (resolvedSlug : String) (resolvedPrompt : Json) :
    String :=
  let instruction :=
    if resolvedSlug == BOOTSTRAP_AGENT_SLUG then a2aInstruction
    else a2aInstruction ++
      "\nPrefer \x7b\"type\":\"final\",\"result\":\x7b...\x7d\x7d unless delegation is essential."
  jsTrim (jsKeyString resolvedPrompt ++ "\n" ++ instruction)

/-! ## `runEngine.ts`: the executor -/

/-- `childOutputs[child.slug] = value`. -/
def setChildOutput (outs : List (String × Json)) (k : String) (v : Json) :
    List (String × Json) :=
  if outs.any (fun p => p.1 == k) then
    outs.map (fun p => if p.1 == k then (k, v) else p)
  else outs ++ [(k, v)]

def emitResolutions (runId : Nat) : List (String × AgentResolution) → M Unit
  | [] => pure ()
  | (_, r) :: rest => do
    let _ ← emit runId .SPAWN_AGENT_CREATED r.toJson
    emitResolutions runId rest

/-- The per-child `contextData` object built at the top of the child
loop (parent plan, summarized previous results, explicit context,
routing policy and the child's routing state). -/
def childContextData (parsed : Json) (routingStateForModel : RoutingState)
    (parentPlanSlugs : List String) (child : Json)
    (visitedForChildren : List String)
    (childOutputs : List (String × Json)) : Json :=
  let childVisited := jsSetAdd (jsSetOfList
    (visitedForChildren ++ parentPlanSlugs)) (childSlugStr child)
  .obj [("parentPlan", parsed),
        ("previousResults", .obj (summarizePreviousResults childOutputs)),
        ("explicitContext", jGetD child "context" .null),
        ("routingPolicy", routingPolicyJson),
        ("routingState",
          .obj [("visitedSlugs", .arr (childVisited.map Json.str)),
                ("routingDepth",
                  .num (routingStateForModel.routingDepth + 1))])]

/-- The sequential child loop of the plan branch; `execChild` is the
recursive `executeRun` at the next fuel level.  The `try`/`catch` wraps
exactly the recursive execution, the output read-back and the
`CHILD_RUN_FINISHED` emission, as in the source. -/
def runChildren (execChild : Nat → M Unit) (run : RunDoc) (parsed : Json)
    (routingStateForModel : RoutingState)
    (resolutions : List (String × AgentResolution))
    (parentPlanSlugs : List String) :
    List Json → List String → List (String × Json) →
    M (List (String × Json))
  | [], _, childOutputs => pure childOutputs
  | child :: rest, visitedForChildren, childOutputs => do
    let slug := childSlugStr child
    let contextData := childContextData parsed routingStateForModel
      parentPlanSlugs child visitedForChildren childOutputs
    let childRunId ← createChildRun run slug (jGet? child "userMessage")
      (some contextData) resolutions
    let visitedForChildren' := jsSetAdd visitedForChildren slug
    let _ ← emit run._id .CHILD_RUN_STARTED
      (.obj [("childRunId", .str (toString childRunId)), ("slug", .str slug)])
    let childOutputs' ← tryCatchM
      (do
        execChild childRunId
        let s ← getStore
        let childRun := findRunById s childRunId
        let value := (childRun.bind (fun c => c.output)).getD .null
        let outs := setChildOutput childOutputs slug value
        let _ ← emit run._id .CHILD_RUN_FINISHED
          (.obj [("childRunId", .str (toString childRunId)),
                 ("status", match childRun with
                   | some c => .str c.status.toStr
                   | none => .null)])
        pure outs)
      (fun err => do
        let outs := setChildOutput childOutputs slug
          (.obj [("error", .str (if err == "" then "child failed" else err))])
        let _ ← emit run._id .CHILD_RUN_FINISHED
          (.obj [("childRunId", .str (toString childRunId)),
                 ("status", .str "failed")])
        pure outs)
    runChildren execChild run parsed routingStateForModel resolutions
      parentPlanSlugs rest visitedForChildren' childOutputs'

/-- The tail of the plan branch: compose the merged result, mark the run
succeeded and emit `RUN_FINISHED`.  The source wraps the merge in
`{type: "final", result}` and immediately projects `.result` into
`output`; the projection is composed here. -/
def mergeAndFinish (runId : Nat)
    (resolutions : List (String × AgentResolution)) (runsList : List Json)
    (childOutputs : List (String × Json)) : M Unit := do
  let mergedResult := Json.obj
    [("childResultsBySlug", .obj childOutputs),
     ("planSummary", .obj
       [("createdAgents", .arr (resolutions.map (fun p => Json.str p.2.slug))),
        ("executedAgents",
          .arr (runsList.map (fun r => jGetD r "slug" .null)))])]
  updateRunById runId (fun r =>
    { r with status := .succeeded, output := some mergedResult })
  let _ ← emit runId .RUN_FINISHED (.obj [("status", .str "succeeded")])
  pure ()

/-- The catch-all at the run boundary (`executeRun`'s `catch`):
`lastEventSeq` is the max `seq` present before the `ERROR` event. -/
def runFailureHandler (runId : Nat) (err : String) : M Unit := do
  let message := err
  let lastSeq ← nextSeq runId
  updateRunById runId (fun r =>
    { r with status := .failed,
             error := some { message := message, lastEventSeq := lastSeq - 1 } })
  let _ ← emit runId .ERROR (.obj [("message", .str message)])
  let _ ← emit runId .RUN_FINISHED (.obj [("status", .str "failed")])
  pure ()

/-- The `try` body of `executeRun`, in source order.  The merged plan
result is stored as its `result` component directly (the source wraps it
in `{type: "final", result}` and immediately projects `.result`). -/
def executeRunBody (o : Oracle) (execChild : Nat → M Unit) (runId : Nat)
    (run : RunDoc) : M Unit := do
  let _ ← emit runId .RUN_STARTED
    (.obj [("agentId", match run.agentId with
      | some a => .str (toString a)
      | none => .null)])
  let resolved ← resolveAgentVersion run
  let _ ← emit runId .PROMPT_LOADED
    (.obj [("agentVersionId", .str (toString resolved.versionId)),
           ("agentId", .str (toString resolved.agent._id)),
           ("slug", .str resolved.agent.slug)])
  let systemPrompt := buildSystemPromptStr resolved.agent.slug
    resolved.systemPrompt
  let promptHash := o.hash systemPrompt run.userMessage
  let _ ← emit runId .MODEL_REQUEST
    (.obj [("model", .str DEFAULT_MODEL), ("promptHash", .str promptHash)])
  let availableAgents ← listAvailableAgents
  let routingState := readRoutingState run.context
  let routingStateForModel : RoutingState :=
    { visitedSlugs := mergeStringArrays routingState.visitedSlugs
        [resolved.agent.slug],
      routingDepth := routingState.routingDepth }
  let contextData := buildContextData availableAgents run resolved.agent
    routingStateForModel
  let response := o.respond
    { model := DEFAULT_MODEL, systemPrompt := systemPrompt,
      userMessage := run.userMessage, context := contextData }
  let parsed ← parseJsonStrict response
  let _ ← emit runId .MODEL_RESPONSE parsed
  if parsed.getField "type" == some (.str "final") then do
    updateRunById runId (fun r =>
      { r with status := .succeeded, output := some (jGetD parsed "result" .null) })
    let _ ← emit runId .RUN_FINISHED (.obj [("status", .str "succeeded")])
    pure ()
  else do
    let agentsToCreate := ((jGet? parsed "agentsToCreate").orElse
      (fun _ => jGet? parsed "agents")).getD (.arr [])
    let runsToExecute := ((jGet? parsed "runsToExecute").orElse
      (fun _ => jGet? parsed "runs")).getD (.arr [])
    if !agentsToCreate.isArray && !runsToExecute.isArray then
      throwM "Plan response missing agentsToCreate/runsToExecute arrays"
    else do
    let resolvedSummary := buildAgentSummaryItem resolved.agent.slug
      resolved.agent.name resolved.agent.description resolved.agent.metadata
    let agentRole := resolvedSummary.role
    liftEx (checkSpecialistPolicy agentRole availableAgents agentsToCreate
      runsToExecute)
    if routingStateForModel.routingDepth ≥ ROUTING_POLICY.maxDepth &&
        jsLenGt runsToExecute 0 then
      throwM s!"Routing depth exceeded (depth: {routingStateForModel.routingDepth}, max: {ROUTING_POLICY.maxDepth})"
    else do
    if jsLenGt runsToExecute ROUTING_POLICY.maxChildren then
      throwM ("Too many child runs requested (requested: " ++
        toString (runsToExecute.asArray.getD []).length ++
        s!", max: {ROUTING_POLICY.maxChildren})")
    else do
    let runsList ← match runsToExecute.asArray with
      | some xs => pure xs
      | none => throwM "TypeError: runsToExecute is not iterable"
    liftEx (checkRunSpecs routingStateForModel.visitedSlugs runsList [])
    enforceSpawnCap run runsList.length
    let agentsList ← match agentsToCreate.asArray with
      | some xs => pure xs
      | none => throwM "TypeError: agentsToCreate.map is not a function"
    let _ ← emit runId .SPAWN_AGENT_REQUEST
      (.obj [("agentsToCreate",
                .arr (agentsList.map (fun a => jGetD a "slug" .null))),
             ("runsToExecute",
                .arr (runsList.map (fun r => jGetD r "slug" .null)))])
    let normalizedPlan := Json.obj (jsObjSet
      (jsObjSet (jsFieldsOf parsed) "agentsToCreate" (.arr agentsList))
      "runsToExecute" (.arr runsList))
    let resolutions ← spawnAgentsFromPlan normalizedPlan run
    emitResolutions runId resolutions
    let parentPlanSlugs := runsList.filterMap fun child =>
      match jGet? child "slug" with
      | some (.str s) => if s.length > 0 then some s else none
      | _ => none
    let visitedForChildren := jsSetOfList routingStateForModel.visitedSlugs
    let childOutputs ← runChildren execChild run parsed routingStateForModel
      resolutions parentPlanSlugs runsList visitedForChildren []
    mergeAndFinish runId resolutions runsList childOutputs

/-- The tail of `executeRunBody` after its initial `RUN_STARTED` event,
split off so the log lemmas can treat the first event exactly; the
`rfl`-equation `executeRunBody_eq` below checks the split against the
definition. -/
def restBody (o : Oracle) (execChild : Nat → M Unit) (runId : Nat)
    (run : RunDoc) : M Unit := do
  let resolved ← resolveAgentVersion run
  let _ ← emit runId .PROMPT_LOADED
    (.obj [("agentVersionId", .str (toString resolved.versionId)),
           ("agentId", .str (toString resolved.agent._id)),
           ("slug", .str resolved.agent.slug)])
  let systemPrompt := buildSystemPromptStr resolved.agent.slug
    resolved.systemPrompt
  let promptHash := o.hash systemPrompt run.userMessage
  let _ ← emit runId .MODEL_REQUEST
    (.obj [("model", .str DEFAULT_MODEL), ("promptHash", .str promptHash)])
  let availableAgents ← listAvailableAgents
  let routingState := readRoutingState run.context
  let routingStateForModel : RoutingState :=
    { visitedSlugs := mergeStringArrays routingState.visitedSlugs
        [resolved.agent.slug],
      routingDepth := routingState.routingDepth }
  let contextData := buildContextData availableAgents run resolved.agent
    routingStateForModel
  let response := o.respond
    { model := DEFAULT_MODEL, systemPrompt := systemPrompt,
      userMessage := run.userMessage, context := contextData }
  let parsed ← parseJsonStrict response
  let _ ← emit runId .MODEL_RESPONSE parsed
  if parsed.getField "type" == some (.str "final") then do
    updateRunById runId (fun r =>
      { r with status := .succeeded, output := some (jGetD parsed "result" .null) })
    let _ ← emit runId .RUN_FINISHED (.obj [("status", .str "succeeded")])
    pure ()
  else do
    let agentsToCreate := ((jGet? parsed "agentsToCreate").orElse
      (fun _ => jGet? parsed "agents")).getD (.arr [])
    let runsToExecute := ((jGet? parsed "runsToExecute").orElse
      (fun _ => jGet? parsed "runs")).getD (.arr [])
    if !agentsToCreate.isArray && !runsToExecute.isArray then
      throwM "Plan response missing agentsToCreate/runsToExecute arrays"
    else do
    let resolvedSummary := buildAgentSummaryItem resolved.agent.slug
      resolved.agent.name resolved.agent.description resolved.agent.metadata
    let agentRole := resolvedSummary.role
    liftEx (checkSpecialistPolicy agentRole availableAgents agentsToCreate
      runsToExecute)
    if routingStateForModel.routingDepth ≥ ROUTING_POLICY.maxDepth &&
        jsLenGt runsToExecute 0 then
      throwM s!"Routing depth exceeded (depth: {routingStateForModel.routingDepth}, max: {ROUTING_POLICY.maxDepth})"
    else do
    if jsLenGt runsToExecute ROUTING_POLICY.maxChildren then
      throwM ("Too many child runs requested (requested: " ++
        toString (runsToExecute.asArray.getD []).length ++
        s!", max: {ROUTING_POLICY.maxChildren})")
    else do
    let runsList ← match runsToExecute.asArray with
      | some xs => pure xs
      | none => throwM "TypeError: runsToExecute is not iterable"
    liftEx (checkRunSpecs routingStateForModel.visitedSlugs runsList [])
    enforceSpawnCap run runsList.length
    let agentsList ← match agentsToCreate.asArray with
      | some xs => pure xs
      | none => throwM "TypeError: agentsToCreate.map is not a function"
    let _ ← emit runId .SPAWN_AGENT_REQUEST
      (.obj [("agentsToCreate",
                .arr (agentsList.map (fun a => jGetD a "slug" .null))),
             ("runsToExecute",
                .arr (runsList.map (fun r => jGetD r "slug" .null)))])
    let normalizedPlan := Json.obj (jsObjSet
      (jsObjSet (jsFieldsOf parsed) "agentsToCreate" (.arr agentsList))
      "runsToExecute" (.arr runsList))
    let resolutions ← spawnAgentsFromPlan normalizedPlan run
    emitResolutions runId resolutions
    let parentPlanSlugs := runsList.filterMap fun child =>
      match jGet? child "slug" with
      | some (.str s) => if s.length > 0 then some s else none
      | _ => none
    let visitedForChildren := jsSetOfList routingStateForModel.visitedSlugs
    let childOutputs ← runChildren execChild run parsed routingStateForModel
      resolutions parentPlanSlugs runsList visitedForChildren []
    mergeAndFinish runId resolutions runsList childOutputs

/-- `executeRun`, fuelled: the source's unbounded recursion is run at any
fuel; fuel 0 aborts like an exception, which a parent's child `catch`
treats as a child failure, and every theorem below supplies positive
fuel. -/
def executeRun (o : Oracle) : Nat → Nat → M Unit
  | 0, _ => throwM "execution fuel exhausted"
  | fuel + 1, runId => do
    let run ← loadRun runId
    tryCatchM
      (executeRunBody o (fun childId => executeRun o fuel childId) runId run)
      (runFailureHandler runId)

/-! ## `rpc.ts`: `session.create`, `run.start` and reachable states -/

structure RunStartParams where
  sessionId : Nat
  userMessage : String
  agentId : Option Nat := none
  agentSlug : Option String := none
  parentRunId : Option Nat := none
  context : Option Json := none

/-- `resolveAgent` of the RPC layer. -/
def resolveAgent (params : RunStartParams) : M (AgentDoc × AgentVersionDoc) := do
  let s ← getStore
  let agent := match params.agentId with
    | some id => findAgentById s id
    | none =>
      match params.agentSlug with
      | some slug => findAgentBySlugStr s slug
      | none => none
  match agent with
  | some agent =>
    match findVersionById s agent.activeVersionId with
    | none => throwM "Active agent version missing"
    | some version => pure (agent, version)
  | none => ensureBootstrapAgent

/-- `handleRunStart` (`run.start`): inserts the run document (root or
child of `parentRunId`) and executes it inline before returning. -/
def handleRunStart (o : Oracle) (fuel : Nat) (params : RunStartParams) :
    M Nat := do
  if params.userMessage == "" then
    throwM "sessionId and userMessage are required"
  else do
  let s ← getStore
  if !(s.sessions.contains params.sessionId) then
    throwM "Session not found"
  else do
  let (agent, version) ← resolveAgent params
  let runId ← freshId
  let rootRunId ← match params.parentRunId with
    | some pid => do
      let s ← getStore
      match findRunById s pid with
      | none => throwM "parentRunId not found"
      | some parent => pure (parent.rootRunId.getD parent._id)
    | none => pure runId
  insertRun
    { _id := runId, sessionId := params.sessionId,
      agentId := some agent._id, agentVersionId := some version._id,
      status := .running, parentRunId := params.parentRunId,
      rootRunId := some rootRunId, userMessage := params.userMessage,
      context := params.context, output := none, error := none }
  executeRun o fuel runId
  pure runId

/-- `session.create` (only the session id is read back anywhere). -/
def handleSessionCreate : M Nat := do
  let id ← freshId
  modifyStore (fun s => { s with sessions := s.sessions ++ [id] })
  pure id

/-- Store states produced by executing runs through the API surface:
sessions are created and runs started (executing inline, possibly
recursively), under an arbitrary model oracle at every step. -/
inductive Reachable : Store → Prop
  | init : Reachable emptyStore
  | sessionCreate {s : Store} : Reachable s →
      Reachable (handleSessionCreate s).2
  | runStart {s : Store} (o : Oracle) (fuel : Nat) (p : RunStartParams) :
      Reachable s → Reachable (handleRunStart o fuel p s).2

/-! ## Concrete fixtures for the instantiated theorems below -/

/-- A model that always returns unparseable content. -/
def oracleNone : Oracle := ⟨fun _ => none, fun _ _ => ""⟩

def c6version : AgentVersionDoc :=
  ⟨2, 1, 1, .str "p", .arr [], .obj [("output", .obj [])], .obj []⟩

def c6agent : AgentDoc := ⟨1, "a", "A", some (.str "d"), 2, none⟩

def c6run : RunDoc :=
  ⟨3, 0, some 1, some 2, .running, none, some 3, "m", none, none, none⟩

def c6seed : Store :=
  { agents := [c6agent], agentVersions := [c6version], runs := [c6run],
    events := [], sessions := [0], nextId := 4 }

def c6json : Json :=
  .obj [("type", .str "final"), ("result", .obj [("ok", .bool true)])]

def c6oracle : Oracle := ⟨fun _ => some c6json, fun _ _ => ""⟩

/-- Context putting slug `a` in `visitedSlugs` at depth 0. -/
def c3ctx : Json :=
  .obj [("routingState", .obj
    [("visitedSlugs", .arr [.str "a"]), ("routingDepth", .num 0)])]

def c3run : RunDoc :=
  ⟨3, 0, some 1, some 2, .running, none, some 3, "m", some c3ctx, none, none⟩

def c3seed : Store :=
  { agents := [c6agent], agentVersions := [c6version], runs := [c3run],
    events := [], sessions := [0], nextId := 4 }

/-- A plan whose `runsToExecute` repeats slug `b` and also lists the
already-visited slug `a`. -/
def c3plan : Json :=
  .obj [("type", .str "plan"),
        ("runsToExecute", .arr
          [.obj [("slug", .str "b")], .obj [("slug", .str "b")],
           .obj [("slug", .str "a")]])]

def c3oracle : Oracle := ⟨fun _ => some c3plan, fun _ _ => ""⟩

/-- A specialist agent (tagged `specialist`) at the depth limit. -/
def c5agent : AgentDoc :=
  ⟨1, "spec_agent", "Spec Agent", some (.str "d"), 2,
   some (.obj [("tags", .arr [.str "specialist"])])⟩

def c5ctx : Json :=
  .obj [("routingState", .obj
    [("visitedSlugs", .arr []), ("routingDepth", .num 3)])]

def c5run : RunDoc :=
  ⟨3, 0, some 1, some 2, .running, none, some 3, "m", some c5ctx, none, none⟩

def c5seed : Store :=
  { agents := [c5agent], agentVersions := [c6version], runs := [c5run],
    events := [], sessions := [0], nextId := 4 }

def c5plan : Json :=
  .obj [("type", .str "plan"),
        ("runsToExecute", .arr [.obj [("slug", .str "x")]])]

def c5oracle : Oracle := ⟨fun _ => some c5plan, fun _ _ => ""⟩

/-- A run succeeding at the depth limit: empty plan at depth 3. -/
def c5okRun : RunDoc :=
  ⟨3, 0, some 1, some 2, .running, none, some 3, "m",
   some (.obj [("routingState", .obj
     [("visitedSlugs", .arr []), ("routingDepth", .num 3)])]), none, none⟩

def c5okSeed : Store :=
  { agents := [c6agent], agentVersions := [c6version], runs := [c5okRun],
    events := [], sessions := [0], nextId := 4 }

def c5okPlan : Json :=
  .obj [("type", .str "plan"), ("runsToExecute", .arr []),
        ("agentsToCreate", .arr [])]

def c5okOracle : Oracle := ⟨fun _ => some c5okPlan, fun _ _ => ""⟩

/-- Two versions of agent `a`: the *active* one (id 2) has prompt `old`,
the *latest* one by version number (id 5, version 2) has prompt `new`. -/
def c7v2 : AgentVersionDoc :=
  ⟨2, 1, 1, .str "old", .arr [], .obj [], .obj []⟩

def c7v5 : AgentVersionDoc :=
  ⟨5, 1, 2, .str "new", .arr [], .obj [], .obj []⟩

def c7store : Store :=
  { agents := [c6agent], agentVersions := [c7v2, c7v5], runs := [],
    events := [], sessions := [], nextId := 6 }

/-- A spec whose trimmed prompt equals the latest version's prompt. -/
def c7spec : Json :=
  .obj [("slug", .str "a"), ("name", .str "A"),
        ("systemPrompt", .str "new")]

/-- A spec whose trimmed prompt equals the *active* version's prompt. -/
def c7okSpec : Json :=
  .obj [("slug", .str "a"), ("name", .str "A"),
        ("systemPrompt", .str " p ")]

/-- `run.start` params for a root run resolved to the bootstrap agent. -/
def c2root : RunStartParams := ⟨0, "m", none, none, none, none⟩

/-- `run.start` params for a child of run 3 on agent 1. -/
def c2params : RunStartParams := ⟨0, "x", some 1, none, some 3, none⟩

/-- The store after `session.create` and a root `run.start` on the empty
store (fuel 0: the inserted run fails, but the documents persist). -/
def c2base : Store :=
  (handleRunStart oracleNone 0 c2root (handleSessionCreate emptyStore).2).2

/-- Parent run 7 (agent 5) with one plan child on agent `alpha`. -/
def c1parent : RunDoc :=
  ⟨7, 0, some 5, some 6, .running, none, some 7, "p", none, none, none⟩

def c1seed : Store :=
  { agents := [⟨1, "alpha", "Alpha", some (.str "Alpha"), 2, none⟩,
               ⟨5, "parent", "Parent", some (.str "Parent"), 6, none⟩],
    agentVersions := [⟨2, 1, 1, .str "pa", .arr [],
      .obj [("output", .obj [])], .obj []⟩,
      ⟨6, 5, 1, .str "pp", .arr [], .obj [("output", .obj [])], .obj []⟩],
    runs := [c1parent],
    events := [], sessions := [0], nextId := 8 }

def c1child : Json :=
  .obj [("slug", .str "alpha"), ("userMessage", .str "c")]

def c1plan : Json :=
  .obj [("type", .str "plan"), ("runsToExecute", .arr [c1child])]

/-- A model that never returns parseable content: the child run fails. -/
def c1oracle : Oracle := ⟨fun _ => none, fun _ _ => ""⟩

/-- A model that gives the parent run (userMessage `p`) the one-child
plan and returns unparseable content to every other call. -/
def c1oracle2 : Oracle :=
  ⟨fun mc => if mc.userMessage == "p" then some c1plan else none,
   fun _ _ => ""⟩

/-- The store after the child run document is created. -/
def c1s1 : Store :=
  (createChildRun c1parent "alpha" (jGet? c1child "userMessage")
    (some (childContextData c1plan ⟨["parent"], 0⟩ ["alpha"] c1child [] []))
    [] c1seed).2

/-- … after `CHILD_RUN_STARTED` is emitted. -/
def c1s2 : Store :=
  (emit 7 .CHILD_RUN_STARTED
    (.obj [("childRunId", .str (toString (8 : Nat))),
           ("slug", .str "alpha")]) c1s1).2

/-- … after the child run 8 is executed (it fails and is marked so). -/
def c1s3 : Store :=
  (executeRun c1oracle 1 8 c1s2).2

/-- A duplicate-free plan whose second slug `a` is already visited. -/
def c3bPlan : Json :=
  .obj [("type", .str "plan"),
        ("runsToExecute", .arr
          [.obj [("slug", .str "b")], .obj [("slug", .str "a")]])]

def c3bOracle : Oracle := ⟨fun _ => some c3bPlan, fun _ _ => ""⟩

/-! ## Verification infrastructure: stepping the effect monad -/

theorem throwM_apply {α : Type} (msg : String) (s : Store) :
    (throwM msg : M α) s = (.error msg, s) := rfl

theorem getStore_apply (s : Store) : getStore s = (.ok s, s) := rfl

theorem modifyStore_apply (f : Store → Store) (s : Store) :
    modifyStore f s = (.ok (), f s) := rfl

theorem freshId_apply (s : Store) :
    freshId s = (.ok s.nextId, { s with nextId := s.nextId + 1 }) := rfl

theorem liftEx_ok {α : Type} (a : α) (s : Store) :
    liftEx (.ok a) s = (.ok a, s) := rfl

theorem liftEx_error {α : Type} (e : String) (s : Store) :
    (liftEx (.error e) : M α) s = (.error e, s) := rfl

theorem tryCatchM_apply {α : Type} (m : M α) (h : String → M α) (s : Store) :
    tryCatchM m h s = match m s with
      | (.ok a, s') => (.ok a, s')
      | (.error e, s') => h e s' := rfl

theorem nextSeq_apply (runId : Nat) (s : Store) :
    nextSeq runId s = (.ok (maxSeq (eventsForRun s runId) + 1), s) := rfl

theorem insertEvent_apply (e : EventDoc) (s : Store) :
    insertEvent e s = (.ok (), { s with events := s.events ++ [e] }) := rfl

theorem insertRun_apply (r : RunDoc) (s : Store) :
    insertRun r s = (.ok (), { s with runs := s.runs ++ [r] }) := rfl

theorem insertAgent_apply (a : AgentDoc) (s : Store) :
    insertAgent a s = (.ok (), { s with agents := s.agents ++ [a] }) := rfl

theorem insertVersion_apply (v : AgentVersionDoc) (s : Store) :
    insertVersion v s =
      (.ok (), { s with agentVersions := s.agentVersions ++ [v] }) := rfl

theorem updateRunById_apply (id : Nat) (f : RunDoc → RunDoc) (s : Store) :
    updateRunById id f s =
      (.ok (), { s with runs := updateFirstRun s.runs id f }) := rfl

theorem updateAgentById_apply (id : Nat) (f : AgentDoc → AgentDoc) (s : Store) :
    updateAgentById id f s =
      (.ok (), { s with agents := updateFirstAgent s.agents id f }) := rfl

theorem emit_apply (runId : Nat) (t : EventType) (p : Json) (s : Store) :
    emit runId t p s =
      (.ok (maxSeq (eventsForRun s runId) + 1),
       { s with
         events := s.events ++
           [{ _id := s.nextId, runId := runId,
              seq := maxSeq (eventsForRun s runId) + 1, type := t,
              payload := p }],
         nextId := s.nextId + 1 }) := rfl

theorem loadRun_apply (runId : Nat) (s : Store) :
    loadRun runId s = match findRunById s runId with
      | some run => (.ok run, s)
      | none => (.error "Run not found", s) := rfl

theorem executeRun_zero (o : Oracle) (runId : Nat) (s : Store) :
    executeRun o 0 runId s = (.error "execution fuel exhausted", s) := rfl

theorem executeRun_succ (o : Oracle) (fuel runId : Nat) (s : Store) :
    executeRun o (fuel + 1) runId s =
      (match findRunById s runId with
       | some run =>
         tryCatchM
           (executeRunBody o (fun childId => executeRun o fuel childId) runId
             run)
           (runFailureHandler runId) s
       | none => (.error "Run not found", s)) := by
  show (loadRun runId >>= fun run => tryCatchM _ _) s = _
  rw [M.bind_apply, loadRun_apply]
  cases findRunById s runId <;> rfl

/-! ## Verification infrastructure: event-log bookkeeping -/

theorem eventsForRun_set_events (es : List EventDoc) (rid : Nat)
    (agents : List AgentDoc) (versions : List AgentVersionDoc)
    (runs : List RunDoc) (sessions : List Nat) (n : Nat) :
    eventsForRun
      { agents := agents, agentVersions := versions, runs := runs,
        events := es, sessions := sessions, nextId := n } rid =
      es.filter (fun e => e.runId == rid) := rfl

theorem eventsForRun_append (s : Store) (rid : Nat) (Δ : List EventDoc) :
    eventsForRun { s with events := s.events ++ Δ } rid =
      eventsForRun s rid ++ Δ.filter (fun e => e.runId == rid) := by
  simp [eventsForRun, List.filter_append]

theorem eventsForRun_events_eq {s s' : Store} (h : s'.events = s.events)
    (rid : Nat) : eventsForRun s' rid = eventsForRun s rid := by
  simp [eventsForRun, h]

theorem maxSeq_append (es Δ : List EventDoc) :
    maxSeq (es ++ Δ) = Δ.foldl (fun m e => max m e.seq) (maxSeq es) := by
  simp [maxSeq, List.foldl_append]

theorem maxSeq_append_one (es : List EventDoc) (e : EventDoc) :
    maxSeq (es ++ [e]) = max (maxSeq es) e.seq := by
  simp [maxSeq, List.foldl_append]

/-- The event log of one run has gapless 1-based sequence numbers. -/
def SeqOk (es : List EventDoc) : Prop :=
  es.map (fun e => e.seq) = List.range' 1 es.length

theorem SeqOk_nil : SeqOk [] := rfl

theorem maxSeq_of_SeqOk {es : List EventDoc} (h : SeqOk es) :
    maxSeq es = es.length := by
  induction es using List.reverseRecOn with
  | nil => rfl
  | append_singleton es e ih =>
    unfold SeqOk at h
    rw [List.map_append, List.length_append] at h
    simp only [List.map_cons, List.map_nil, List.length_cons,
      List.length_nil, Nat.add_zero] at h
    rw [List.range'_1_concat] at h
    obtain ⟨hl, hr⟩ := List.append_inj' h (by simp)
    have he : e.seq = 1 + es.length := by
      simpa using congrArg (fun l => l.headI) hr
    rw [maxSeq_append_one, ih hl, he]
    simp
    omega

theorem SeqOk_append_one {es : List EventDoc} {e : EventDoc} (h : SeqOk es)
    (he : e.seq = es.length + 1) : SeqOk (es ++ [e]) := by
  unfold SeqOk at h ⊢
  rw [List.map_append, List.length_append]
  simp only [List.map_cons, List.map_nil, List.length_cons,
    List.length_nil, Nat.add_zero]
  rw [List.range'_1_concat, h, he]
  congr 2
  omega

/-! ## Verification infrastructure: store effects

`IdsBound` is the id discipline every reachable store satisfies: all
document ids and event `runId`s are below the ObjectId counter.
`StoreFx rid s s'` summarizes the store effect of one engine operation
performed on behalf of run `rid`: the counter grows, the id discipline is
preserved, events are append-only with every new event belonging to `rid`
or to a freshly allocated run, and run documents other than `rid`'s are
untouched. -/

def IdsBound (s : Store) : Prop :=
  (∀ r ∈ s.runs, r._id < s.nextId) ∧
  (∀ e ∈ s.events, e.runId < s.nextId)

/-- The store effect of one engine operation performed on behalf of run
`rid`, relative to the id watermark `bound` (the ObjectId counter at the
start of the enclosing `executeRun`): the counter grows, the id
discipline is preserved, events are append-only and every new event
belongs to `rid` or to a run allocated after the watermark, and run
documents with ids below the watermark other than `rid`'s are left
untouched. -/
def StoreFx (rid bound : Nat) (s s' : Store) : Prop :=
  s.nextId ≤ s'.nextId ∧
  (IdsBound s → rid < s.nextId → IdsBound s') ∧
  (∃ Δ, s'.events = s.events ++ Δ ∧
    ∀ e ∈ Δ, e.runId = rid ∨ bound ≤ e.runId) ∧
  (∀ id, id < bound → id ≠ rid → findRunById s' id = findRunById s id)

theorem StoreFx.reflStore {rid bound : Nat} {s : Store} : StoreFx rid bound s s :=
  ⟨Nat.le_refl _, fun h _ => h, ⟨[], by simp, by simp⟩,
   fun _ _ _ => Eq.refl _⟩

theorem StoreFx.ofEqStore {rid bound : Nat} {s s' : Store} (h : s' = s) :
    StoreFx rid bound s s' := h ▸ StoreFx.reflStore

theorem StoreFx.transStore {rid bound : Nat} {s s' s'' : Store}
    (h1 : StoreFx rid bound s s') (h2 : StoreFx rid bound s' s'') :
    StoreFx rid bound s s'' := by
  obtain ⟨m1, i1, ⟨d1, e1, f1⟩, r1⟩ := h1
  obtain ⟨m2, i2, ⟨d2, e2, f2⟩, r2⟩ := h2
  refine ⟨Nat.le_trans m1 m2,
    fun h hrid => i2 (i1 h hrid) (Nat.lt_of_lt_of_le hrid m1),
    ⟨d1 ++ d2, ?_, ?_⟩, ?_⟩
  · rw [e2, e1, List.append_assoc]
  · intro e he
    rcases List.mem_append.mp he with h | h
    · exact f1 e h
    · exact f2 e h
  · intro id hid hne
    rw [r2 id hid hne, r1 id hid hne]

/-- Operations that only read or write agents and versions: events, runs
and sessions untouched. -/
def AgentsOnly (s s' : Store) : Prop :=
  s'.events = s.events ∧ s'.runs = s.runs ∧ s.nextId ≤ s'.nextId

theorem AgentsOnly.reflAgents {s : Store} : AgentsOnly s s :=
  ⟨rfl, rfl, Nat.le_refl _⟩

theorem AgentsOnly.transAgents {s s' s'' : Store} (h1 : AgentsOnly s s')
    (h2 : AgentsOnly s' s'') : AgentsOnly s s'' :=
  ⟨h2.1.trans h1.1, h2.2.1.trans h1.2.1, h1.2.2.trans h2.2.2⟩

theorem AgentsOnly.toStoreFx {rid bound : Nat} {s s' : Store}
    (h : AgentsOnly s s') : StoreFx rid bound s s' := by
  obtain ⟨he, hr, hm⟩ := h
  refine ⟨hm, ?_, ⟨[], by simp [he], by simp⟩, ?_⟩
  · rintro ⟨br, be⟩ _
    constructor
    · intro r hrr
      rw [hr] at hrr
      exact Nat.lt_of_lt_of_le (br r hrr) hm
    · intro e hee
      rw [he] at hee
      exact Nat.lt_of_lt_of_le (be e hee) hm
  · intro id _ _
    simp [findRunById, hr]

theorem agentsOnly_bind {α β : Type} {m : M α} {k : α → M β}
    (h1 : ∀ s, AgentsOnly s (m s).2)
    (h2 : ∀ a s, AgentsOnly s (k a s).2) :
    ∀ s, AgentsOnly s ((m >>= k) s).2 := by
  intro s
  have h1s := h1 s
  rw [M.bind_apply]
  rcases hm : m s with ⟨r, s'⟩
  rw [hm] at h1s
  cases r with
  | ok a => exact h1s.transAgents (h2 a s')
  | error e => exact h1s

theorem agentsOnly_pure {α : Type} (a : α) :
    ∀ s, AgentsOnly s ((pure a : M α) s).2 := fun _ => AgentsOnly.reflAgents

theorem agentsOnly_throw {α : Type} (msg : String) :
    ∀ s, AgentsOnly s ((throwM msg : M α) s).2 := fun _ => AgentsOnly.reflAgents

theorem agentsOnly_liftEx {α : Type} (x : Except String α) :
    ∀ s, AgentsOnly s ((liftEx x) s).2 := by
  intro s; cases x <;> exact AgentsOnly.reflAgents

theorem agentsOnly_getStore : ∀ s, AgentsOnly s (getStore s).2 :=
  fun _ => AgentsOnly.reflAgents

theorem agentsOnly_freshId : ∀ s, AgentsOnly s (freshId s).2 :=
  fun _ => ⟨rfl, rfl, Nat.le_succ _⟩

theorem agentsOnly_insertAgent (a : AgentDoc) :
    ∀ s, AgentsOnly s (insertAgent a s).2 :=
  fun _ => ⟨rfl, rfl, Nat.le_refl _⟩

theorem agentsOnly_insertVersion (v : AgentVersionDoc) :
    ∀ s, AgentsOnly s (insertVersion v s).2 :=
  fun _ => ⟨rfl, rfl, Nat.le_refl _⟩

theorem agentsOnly_updateAgentById (id : Nat) (f : AgentDoc → AgentDoc) :
    ∀ s, AgentsOnly s (updateAgentById id f s).2 :=
  fun _ => ⟨rfl, rfl, Nat.le_refl _⟩

theorem agentsOnly_createSystemVersion (aid : Nat) (sp : String)
    (tags : List String) :
    ∀ s, AgentsOnly s (createSystemVersion aid sp tags s).2 := by
  unfold createSystemVersion
  refine agentsOnly_bind agentsOnly_getStore (fun a => ?_)
  refine agentsOnly_bind agentsOnly_freshId (fun b => ?_)
  refine agentsOnly_bind (agentsOnly_insertVersion _) (fun c => ?_)
  exact agentsOnly_bind (agentsOnly_updateAgentById _ _)
    (fun d => agentsOnly_pure _)

theorem agentsOnly_ensureBootstrapAgent :
    ∀ s, AgentsOnly s (ensureBootstrapAgent s).2 := by
  unfold ensureBootstrapAgent
  refine agentsOnly_bind agentsOnly_getStore (fun s0 => ?_)
  intro s
  cases hfind : findAgentBySlugStr s0 BOOTSTRAP_AGENT_SLUG with
  | none =>
    dsimp only
    refine agentsOnly_bind agentsOnly_freshId (fun a => ?_) s
    refine agentsOnly_bind agentsOnly_freshId (fun b => ?_)
    refine agentsOnly_bind (agentsOnly_insertAgent _) (fun c => ?_)
    exact agentsOnly_bind (agentsOnly_insertVersion _) (fun d => agentsOnly_pure _)
  | some existing =>
    dsimp only
    refine agentsOnly_bind (agentsOnly_updateAgentById _ _) (fun a => ?_) s
    refine agentsOnly_bind agentsOnly_getStore (fun s1 => ?_)
    intro s'
    cases hv : findVersionById s1 existing.activeVersionId with
    | none =>
      dsimp only
      exact agentsOnly_bind (agentsOnly_createSystemVersion _ _ _)
        (fun v => agentsOnly_pure _) s'
    | some version =>
      dsimp only
      refine agentsOnly_bind (agentsOnly_liftEx _) (fun p => ?_) s'
      intro s''
      by_cases hp : p ≠ jsTrim BOOTSTRAP_PROMPT
      · rw [if_pos hp]
        exact agentsOnly_bind (agentsOnly_createSystemVersion _ _ _)
          (fun v => agentsOnly_pure _) s''
      · rw [if_neg hp]
        exact agentsOnly_pure _ s''

theorem agentsOnly_resolveAgentVersion (run : RunDoc) :
    ∀ s, AgentsOnly s (resolveAgentVersion run s).2 := by
  unfold resolveAgentVersion
  cases run.agentId with
  | none =>
    exact agentsOnly_bind agentsOnly_ensureBootstrapAgent
      (fun a => agentsOnly_pure _)
  | some aid =>
    refine agentsOnly_bind agentsOnly_getStore (fun s0 => ?_)
    intro s
    cases hfa : findAgentById s0 aid with
    | none => dsimp only; exact agentsOnly_throw _ s
    | some agent =>
      dsimp only
      cases hv : findVersionById s0 (run.agentVersionId.getD agent.activeVersionId) with
      | none => dsimp only; exact agentsOnly_throw _ s
      | some version => dsimp only; exact agentsOnly_pure _ s

theorem agentsOnly_createVersionOnMatched (run : RunDoc) (spec : Json)
    (agent : AgentDoc) (matchedOn specKey : String) (specMetadata : Json)
    (mergedTags inferredDomains : List String) (card : Json) :
    ∀ s, AgentsOnly s
      (createVersionOnMatched run spec agent matchedOn specKey specMetadata
        mergedTags inferredDomains card s).2 := by
  unfold createVersionOnMatched
  refine agentsOnly_bind agentsOnly_getStore (fun s0 => ?_)
  refine agentsOnly_bind agentsOnly_freshId (fun a => ?_)
  refine agentsOnly_bind (agentsOnly_insertVersion _) (fun b => ?_)
  exact agentsOnly_bind (agentsOnly_updateAgentById _ _)
    (fun c => agentsOnly_pure _)
theorem agentsOnly_ite {α : Type} (c : Bool) (t e : M α)
    (ht : ∀ s, AgentsOnly s (t s).2) (he : ∀ s, AgentsOnly s (e s).2) :
    ∀ s, AgentsOnly s ((if c then t else e) s).2 := by
  cases c with
  | true => exact ht
  | false => exact he

theorem agentsOnly_spawnSpec (run : RunDoc) (spec : Json) :
    ∀ s, AgentsOnly s (spawnSpec run spec s).2 := by
  unfold spawnSpec
  refine agentsOnly_ite _ _ _ (agentsOnly_throw _) ?_
  refine agentsOnly_bind agentsOnly_getStore (fun s0 => ?_)
  intro s
  cases hsim : findSimilarAgent s0 spec with
  | none =>
    dsimp only
    refine agentsOnly_bind agentsOnly_freshId (fun a => ?_) s
    refine agentsOnly_bind agentsOnly_freshId (fun b => ?_)
    refine agentsOnly_bind (agentsOnly_insertAgent _) (fun c => ?_)
    exact agentsOnly_bind (agentsOnly_insertVersion _) (fun d => agentsOnly_pure _)
  | some triple =>
    obtain ⟨agent, matchedOn, lvid⟩ := triple
    dsimp only
    cases hv : findVersionById s0 agent.activeVersionId with
    | none =>
      dsimp only
      exact agentsOnly_createVersionOnMatched run spec agent matchedOn _ _ _ _ _ s
    | some latestVersion =>
      dsimp only
      refine agentsOnly_bind (agentsOnly_liftEx _) (fun lv => ?_) s
      refine agentsOnly_bind (agentsOnly_liftEx _) (fun sp => ?_)
      refine agentsOnly_ite _ _ _ ?_
        (agentsOnly_createVersionOnMatched run spec agent matchedOn _ _ _ _ _)
      refine agentsOnly_ite _ _ _ ?_ ?_
      · exact agentsOnly_bind (agentsOnly_updateAgentById _ _)
          (fun u => agentsOnly_pure _)
      · exact agentsOnly_pure _

theorem agentsOnly_spawnSpecsLoop (run : RunDoc) :
    ∀ specs acc s, AgentsOnly s (spawnSpecsLoop run specs acc s).2 := by
  intro specs
  induction specs with
  | nil => intro acc; exact agentsOnly_pure _
  | cons spec rest ih =>
    intro acc
    exact agentsOnly_bind (agentsOnly_spawnSpec run spec)
      (fun p => ih (setResolution acc p.1 p.2))

theorem agentsOnly_spawnAgentsFromPlan (plan : Json) (run : RunDoc) :
    ∀ s, AgentsOnly s (spawnAgentsFromPlan plan run s).2 := by
  unfold spawnAgentsFromPlan
  cases h : (jGet? plan "agentsToCreate").getD (.arr []) with
  | arr agentSpecs => exact agentsOnly_spawnSpecsLoop run agentSpecs []
  | null => exact agentsOnly_throw _
  | bool b => exact agentsOnly_throw _
  | num n => exact agentsOnly_throw _
  | str t => exact agentsOnly_throw _
  | obj fs => exact agentsOnly_throw _
/-- Bound weakening: an effect bounded by a later watermark is bounded by
any earlier one. -/
theorem StoreFx.mono_bound {rid bound bound' : Nat} {s s' : Store}
    (hb : bound ≤ bound') (h : StoreFx rid bound' s s') :
    StoreFx rid bound s s' := by
  obtain ⟨hm, hi, ⟨Δ, he, hΔ⟩, hr⟩ := h
  refine ⟨hm, hi, ⟨Δ, he, ?_⟩, ?_⟩
  · intro e hin
    rcases hΔ e hin with h | h
    · exact Or.inl h
    · exact Or.inr (Nat.le_trans hb h)
  · intro id hid hne
    exact hr id (Nat.lt_of_lt_of_le hid hb) hne

/-- The effect of one engine operation performed on behalf of run `rid`:
a `StoreFx` together with append-only bookkeeping of `rid`'s own event
log and preservation of its gapless numbering. -/
def EngineFx (rid bound : Nat) (s s' : Store) : Prop :=
  StoreFx rid bound s s' ∧
  (∃ Δ, eventsForRun s' rid = eventsForRun s rid ++ Δ) ∧
  (SeqOk (eventsForRun s rid) → SeqOk (eventsForRun s' rid))

theorem EngineFx.reflEngine {rid bound : Nat} {s : Store} : EngineFx rid bound s s :=
  ⟨StoreFx.reflStore, ⟨[], (List.append_nil _).symm⟩, fun h => h⟩

theorem EngineFx.ofEqEngine {rid bound : Nat} {s s' : Store} (h : s' = s) :
    EngineFx rid bound s s' := h ▸ EngineFx.reflEngine

theorem EngineFx.transEngine {rid bound : Nat} {s s' s'' : Store}
    (h1 : EngineFx rid bound s s') (h2 : EngineFx rid bound s' s'') :
    EngineFx rid bound s s'' := by
  obtain ⟨f1, ⟨d1, e1⟩, q1⟩ := h1
  obtain ⟨f2, ⟨d2, e2⟩, q2⟩ := h2
  exact ⟨f1.transStore f2, ⟨d1 ++ d2, by rw [e2, e1, List.append_assoc]⟩,
    fun h => q2 (q1 h)⟩

theorem EngineFx.nextId_le {rid bound : Nat} {s s' : Store}
    (h : EngineFx rid bound s s') : s.nextId ≤ s'.nextId := h.1.1

theorem engineFx_of_agentsOnly {rid bound : Nat} {s s' : Store}
    (h : AgentsOnly s s') : EngineFx rid bound s s' :=
  ⟨h.toStoreFx, ⟨[], by rw [eventsForRun_events_eq h.1, List.append_nil]⟩,
   fun hs => by rwa [eventsForRun_events_eq h.1]⟩

theorem engineFx_of_store_eq {rid bound : Nat} {s s' : Store} (h : s' = s) :
    EngineFx rid bound s s' := EngineFx.ofEqEngine h

/-- Effect composition for sequenced operations, threading the watermark
and the executing run id through the intermediate stores. -/
theorem engineFx_bind {rid bound : Nat} {α β : Type} {m : M α} {k : α → M β}
    (h1 : ∀ s, bound ≤ s.nextId → rid < s.nextId →
      EngineFx rid bound s (m s).2)
    (h2 : ∀ a s, bound ≤ s.nextId → rid < s.nextId →
      EngineFx rid bound s (k a s).2) :
    ∀ s, bound ≤ s.nextId → rid < s.nextId →
      EngineFx rid bound s ((m >>= k) s).2 := by
  intro s hb hr
  have hm := h1 s hb hr
  rw [M.bind_apply]
  rcases hms : m s with ⟨r, s1⟩
  rw [hms] at hm
  cases r with
  | error e => exact hm
  | ok a =>
    exact hm.transEngine (h2 a s1 (Nat.le_trans hb hm.nextId_le)
      (Nat.lt_of_lt_of_le hr hm.nextId_le))

theorem engineFx_tryCatch {rid bound : Nat} {α : Type} {m : M α}
    {h : String → M α}
    (h1 : ∀ s, bound ≤ s.nextId → rid < s.nextId →
      EngineFx rid bound s (m s).2)
    (h2 : ∀ e s, bound ≤ s.nextId → rid < s.nextId →
      EngineFx rid bound s (h e s).2) :
    ∀ s, bound ≤ s.nextId → rid < s.nextId →
      EngineFx rid bound s (tryCatchM m h s).2 := by
  intro s hb hr
  have hm := h1 s hb hr
  rw [tryCatchM_apply]
  rcases hms : m s with ⟨r, s1⟩
  rw [hms] at hm
  cases r with
  | ok a => exact hm
  | error e =>
    exact hm.transEngine (h2 e s1 (Nat.le_trans hb hm.nextId_le)
      (Nat.lt_of_lt_of_le hr hm.nextId_le))

theorem engineFx_ite {rid bound : Nat} {α : Type} (c : Bool) (t e : M α)
    (ht : ∀ s, bound ≤ s.nextId → rid < s.nextId →
      EngineFx rid bound s (t s).2)
    (he : ∀ s, bound ≤ s.nextId → rid < s.nextId →
      EngineFx rid bound s (e s).2) :
    ∀ s, bound ≤ s.nextId → rid < s.nextId →
      EngineFx rid bound s ((if c then t else e) s).2 := by
  cases c with
  | true => exact ht
  | false => exact he

theorem engineFx_pure {rid bound : Nat} {α : Type} (a : α) :
    ∀ s, bound ≤ s.nextId → rid < s.nextId →
      EngineFx rid bound s ((pure a : M α) s).2 :=
  fun _ _ _ => EngineFx.reflEngine

theorem engineFx_throw {rid bound : Nat} {α : Type} (msg : String) :
    ∀ s, bound ≤ s.nextId → rid < s.nextId →
      EngineFx rid bound s ((throwM msg : M α) s).2 :=
  fun _ _ _ => EngineFx.reflEngine

theorem engineFx_liftEx {rid bound : Nat} {α : Type} (x : Except String α) :
    ∀ s, bound ≤ s.nextId → rid < s.nextId →
      EngineFx rid bound s ((liftEx x) s).2 := by
  intro s _ _; cases x <;> exact EngineFx.reflEngine

theorem engineFx_getStore {rid bound : Nat} :
    ∀ s, bound ≤ s.nextId → rid < s.nextId →
      EngineFx rid bound s (getStore s).2 :=
  fun _ _ _ => EngineFx.reflEngine
theorem find_updateFirstRun_ne (runs : List RunDoc) (rid id : Nat)
    (f : RunDoc → RunDoc) (hf : ∀ r, (f r)._id = r._id) (hne : id ≠ rid) :
    (updateFirstRun runs rid f).find? (fun r => r._id == id) =
      runs.find? (fun r => r._id == id) := by
  induction runs with
  | nil => rfl
  | cons r rest ih =>
    by_cases h : r._id = rid
    · rw [updateFirstRun, if_pos (by simpa using h)]
      have h1 : ((f r)._id == id) = false := by
        simp [hf r, h]; omega
      have h2 : (r._id == id) = false := by simp [h]; omega
      rw [List.find?, h1, List.find?, h2]
    · rw [updateFirstRun, if_neg (by simpa using h)]
      rw [List.find?, List.find?]
      cases hc : (r._id == id) with
      | true => rfl
      | false => exact ih

theorem find_updateFirstRun_self (runs : List RunDoc) (rid : Nat)
    (f : RunDoc → RunDoc) (hf : ∀ r, (f r)._id = r._id) :
    (updateFirstRun runs rid f).find? (fun r => r._id == rid) =
      (runs.find? (fun r => r._id == rid)).map f := by
  induction runs with
  | nil => rfl
  | cons r rest ih =>
    by_cases h : r._id = rid
    · rw [updateFirstRun, if_pos (by simpa using h)]
      rw [List.find?, List.find?]
      have h1 : ((f r)._id == rid) = true := by simp [hf r, h]
      have h2 : (r._id == rid) = true := by simp [h]
      rw [h1, h2]
      rfl
    · rw [updateFirstRun, if_neg (by simpa using h)]
      rw [List.find?, List.find?]
      have h2 : (r._id == rid) = false := by simp [h]
      rw [h2]
      exact ih

theorem updateFirstRun_ids (runs : List RunDoc) (rid : Nat)
    (f : RunDoc → RunDoc) (hf : ∀ r, (f r)._id = r._id) :
    ∀ r' ∈ updateFirstRun runs rid f, ∃ r ∈ runs, r'._id = r._id := by
  induction runs with
  | nil => intro r' h; cases h
  | cons r rest ih =>
    intro r' h
    rw [updateFirstRun] at h
    by_cases hc : (r._id == rid) = true
    · rw [if_pos hc] at h
      rcases List.mem_cons.mp h with h | h
      · exact ⟨r, List.mem_cons_self r rest, h ▸ hf r⟩
      · exact ⟨r', List.mem_cons_of_mem r h, rfl⟩
    · rw [if_neg hc] at h
      rcases List.mem_cons.mp h with h | h
      · exact ⟨r, List.mem_cons_self r rest, h ▸ rfl⟩
      · obtain ⟨r0, hr0, he⟩ := ih r' h
        exact ⟨r0, List.mem_cons_of_mem r hr0, he⟩

theorem findRunById_updateRunById {s : Store} {rid id : Nat}
    {f : RunDoc → RunDoc} (hf : ∀ r, (f r)._id = r._id) (hne : id ≠ rid) :
    findRunById (updateRunById rid f s).2 id = findRunById s id := by
  show ((updateFirstRun s.runs rid f).find? _) = _
  exact find_updateFirstRun_ne s.runs rid id f hf hne

theorem eventsForRun_append_of {s s' : Store} {Δ : List EventDoc}
    (h : s'.events = s.events ++ Δ) (rid : Nat) :
    eventsForRun s' rid =
      eventsForRun s rid ++ Δ.filter (fun e => e.runId == rid) := by
  simp [eventsForRun, h, List.filter_append]

/-- `emit` on behalf of `rid` itself: appends one event with the next
gapless sequence number. -/
theorem engineFx_emit {rid bound : Nat} (t : EventType) (p : Json) :
    ∀ s, bound ≤ s.nextId → rid < s.nextId →
      EngineFx rid bound s (emit rid t p s).2 := by
  intro s _ _
  rw [emit_apply]
  dsimp only
  refine ⟨⟨Nat.le_succ _, ?_, ⟨[_], rfl, ?_⟩, ?_⟩, ⟨_, eventsForRun_append s rid _⟩, ?_⟩
  · rintro ⟨br, be⟩ hrid
    refine ⟨fun r hr => Nat.lt_succ_of_lt (br r hr), fun e he => ?_⟩
    rcases List.mem_append.mp he with h | h
    · exact Nat.lt_succ_of_lt (be e h)
    · rcases List.mem_singleton.mp h with rfl
      exact Nat.lt_succ_of_lt hrid
  · intro e he
    rcases List.mem_singleton.mp he with rfl
    exact Or.inl rfl
  · intro id _ _; rfl
  · intro hs
    rw [eventsForRun_append_of (s := s) rfl]
    simp only [List.filter]
    rw [show ((⟨s.nextId, rid, maxSeq (eventsForRun s rid) + 1, t, p⟩ :
      EventDoc).runId == rid) = true by simp]
    exact SeqOk_append_one hs (by rw [maxSeq_of_SeqOk hs])

theorem engineFx_updateRunById {rid bound : Nat} (f : RunDoc → RunDoc)
    (hf : ∀ r, (f r)._id = r._id) :
    ∀ s, bound ≤ s.nextId → rid < s.nextId →
      EngineFx rid bound s (updateRunById rid f s).2 := by
  intro s _ _
  rw [updateRunById_apply]
  refine ⟨⟨Nat.le_refl _, ?_, ⟨[], by simp, by simp⟩, ?_⟩,
    ⟨[], by simp [eventsForRun]⟩, fun h => by simpa [eventsForRun] using h⟩
  · rintro ⟨br, be⟩ _
    refine ⟨fun r' hr' => ?_, be⟩
    obtain ⟨r0, hr0, he⟩ := updateFirstRun_ids s.runs rid f hf r' hr'
    exact he ▸ br r0 hr0
  · intro id _ hne
    show ((updateFirstRun s.runs rid f).find? _) = _
    exact find_updateFirstRun_ne s.runs rid id f hf hne

theorem engineFx_freshId {rid bound : Nat} :
    ∀ s, bound ≤ s.nextId → rid < s.nextId →
      EngineFx rid bound s (freshId s).2 := by
  intro s _ _
  rw [freshId_apply]
  refine ⟨⟨Nat.le_succ _, ?_, ⟨[], by simp, by simp⟩, fun id _ _ => rfl⟩,
    ⟨[], by simp [eventsForRun]⟩, fun h => by simpa [eventsForRun] using h⟩
  rintro ⟨br, be⟩ _
  exact ⟨fun r hr => Nat.lt_succ_of_lt (br r hr),
    fun e he => Nat.lt_succ_of_lt (be e he)⟩
theorem listAvailableAgents_store (s : Store) :
    (listAvailableAgents s).2 = s := rfl

theorem parseJsonStrict_store (content : Option Json) (s : Store) :
    (parseJsonStrict content s).2 = s := by
  unfold parseJsonStrict
  cases content with
  | none => rfl
  | some parsed =>
    dsimp only
    by_cases h : (!parsed.truthy ||
        (parsed.getField "type" != some (.str "plan") &&
         parsed.getField "type" != some (.str "final"))) = true
    · rw [if_pos h]; rfl
    · rw [if_neg h]; rfl

theorem enforceSpawnCap_store (run : RunDoc) (n : Nat) (s : Store) :
    (enforceSpawnCap run n s).2 = s := by
  unfold enforceSpawnCap
  rw [M.bind_apply, getStore_apply]
  dsimp only
  by_cases h : (countRunsByRootId s (run.rootRunId.getD run._id) - 1 + n >
      10)
  · rw [if_pos h]; rfl
  · rw [if_neg h]; rfl

theorem nextSeq_store (rid : Nat) (s : Store) : (nextSeq rid s).2 = s := rfl
theorem find_append_one_ne {l : List RunDoc} {r : RunDoc} {id : Nat}
    (h : r._id ≠ id) :
    (l ++ [r]).find? (fun x => x._id == id) =
      l.find? (fun x => x._id == id) := by
  induction l with
  | nil =>
    rw [List.nil_append, List.find?_cons_of_neg _ (by simp [h])]
  | cons x rest ih =>
    rw [List.cons_append, List.find?, List.find?]
    cases hx : (x._id == id) with
    | true => rfl
    | false => exact ih

/-- Allocating a fresh id and inserting a run document under it: the
returned id is the pre-state counter. -/
theorem engineFx_insertFresh (g : Nat → RunDoc) (hg : ∀ n, (g n)._id = n)
    {rid bound : Nat} :
    ∀ s, bound ≤ s.nextId → rid < s.nextId →
      EngineFx rid bound s
        ((freshId >>= fun i => insertRun (g i) >>= fun _ => pure i) s).2 ∧
      ((freshId >>= fun i => insertRun (g i) >>= fun _ => pure i) s).1 =
        .ok s.nextId ∧
      ((freshId >>= fun i => insertRun (g i) >>= fun _ => pure i) s).2.nextId
        = s.nextId + 1 := by
  intro s hb hr
  rw [M.bind_apply, freshId_apply]
  dsimp only
  rw [M.bind_apply, insertRun_apply]
  dsimp only
  rw [M.pure_apply]
  refine ⟨⟨⟨Nat.le_succ _, ?_, ⟨[], by simp, by simp⟩, ?_⟩,
    ⟨[], by simp [eventsForRun]⟩, fun h => by simpa [eventsForRun] using h⟩,
    rfl, rfl⟩
  · rintro ⟨br, be⟩ _
    refine ⟨fun r hrr => ?_, fun e he => Nat.lt_succ_of_lt (be e he)⟩
    rcases List.mem_append.mp hrr with h | h
    · exact Nat.lt_succ_of_lt (br r h)
    · rcases List.mem_singleton.mp h with rfl
      rw [hg]
      exact Nat.lt_succ_self _
  · intro id hid hne
    show ((s.runs ++ [g s.nextId]).find? _) = _
    exact find_append_one_ne (by rw [hg]; omega)

theorem createChildRun_fx (pr : RunDoc) (slug : String) (um : Option Json)
    (ctx : Option Json) (res : List (String × AgentResolution))
    {rid bound : Nat} :
    ∀ s, bound ≤ s.nextId → rid < s.nextId →
      EngineFx rid bound s (createChildRun pr slug um ctx res s).2 ∧
      ∀ cid, (createChildRun pr slug um ctx res s).1 = .ok cid →
        s.nextId ≤ cid ∧ cid < (createChildRun pr slug um ctx res s).2.nextId := by
  intro s hb hr
  unfold createChildRun
  rw [M.bind_apply, getStore_apply]
  dsimp only
  cases hag : (match lookupResolution res slug with
    | some r => findAgentById s r.agentId
    | none => findAgentBySlugStr s slug) with
  | none =>
    dsimp only
    rw [M.bind_apply]
    rcases hboot : ensureBootstrapAgent s with ⟨rb, s1⟩
    have hAO : AgentsOnly s s1 := by
      have := agentsOnly_ensureBootstrapAgent s
      rwa [hboot] at this
    cases rb with
    | error e =>
      exact ⟨engineFx_of_agentsOnly hAO, fun cid h => by cases h⟩
    | ok bp =>
      have hb1 : bound ≤ s1.nextId := Nat.le_trans hb hAO.2.2
      have hr1 : rid < s1.nextId := Nat.lt_of_lt_of_le hr hAO.2.2
      have hf := @engineFx_insertFresh
        (fun i =>
          { _id := i, sessionId := pr.sessionId,
            agentId := some bp.1._id,
            agentVersionId := some ((lookupResolution res slug).map
              (fun r => r.agentVersionId) |>.getD bp.2._id),
            status := .running, parentRunId := some pr._id,
            rootRunId := some (pr.rootRunId.getD pr._id),
            userMessage := (match um with
              | some v => jsKeyString v
              | none => ""),
            context := ctx, output := none, error := none })
        (fun _ => rfl) rid bound s1 hb1 hr1
      refine ⟨(engineFx_of_agentsOnly hAO).transEngine hf.1, ?_⟩
      intro cid h
      rw [hf.2.1] at h
      cases h
      rw [hf.2.2]
      exact ⟨Nat.le_trans hAO.2.2 (Nat.le_refl _), Nat.lt_succ_self _⟩
  | some agent =>
    dsimp only
    cases hv : findVersionById s ((lookupResolution res slug).map
        (fun r => r.agentVersionId) |>.getD agent.activeVersionId) with
    | none =>
      dsimp only
      exact ⟨EngineFx.reflEngine, fun cid h => by cases h⟩
    | some av =>
      dsimp only
      have hf := @engineFx_insertFresh
        (fun i =>
          { _id := i, sessionId := pr.sessionId,
            agentId := some agent._id, agentVersionId := some av._id,
            status := .running, parentRunId := some pr._id,
            rootRunId := some (pr.rootRunId.getD pr._id),
            userMessage := (match um with
              | some v => jsKeyString v
              | none => ""),
            context := ctx, output := none, error := none })
        (fun _ => rfl) rid bound s hb hr
      refine ⟨hf.1, ?_⟩
      intro cid h
      rw [hf.2.1] at h
      cases h
      rw [hf.2.2]
      exact ⟨Nat.le_refl _, Nat.lt_succ_self _⟩
theorem engineFx_emitResolutions {rid bound : Nat}
    (rs : List (String × AgentResolution)) :
    ∀ s, bound ≤ s.nextId → rid < s.nextId →
      EngineFx rid bound s (emitResolutions rid rs s).2 := by
  induction rs with
  | nil => exact fun s _ _ => EngineFx.reflEngine
  | cons p rest ih =>
    exact engineFx_bind (engineFx_emit _ _) (fun _ => ih)

theorem List.filter_eq_nil_of_none {α : Type} {p : α → Bool} {l : List α}
    (h : ∀ a ∈ l, p a = false) : l.filter p = [] := by
  induction l with
  | nil => rfl
  | cons a rest ih =>
    rw [List.filter, h a (List.mem_cons_self a rest)]
    exact ih (fun x hx => h x (List.mem_cons_of_mem a hx))

/-- A recursive child execution, seen from the parent: the child only
touches its own (freshly allocated) documents, so the parent's log and
pre-existing runs are untouched. -/
theorem engineFx_of_child {rid bound cid : Nat} {s s' : Store}
    (h : StoreFx cid s.nextId s s') (hcid : cid < s.nextId)
    (hrid : rid < s.nextId) (hlt : rid < cid) (hcb : bound ≤ cid) :
    EngineFx rid bound s s' := by
  obtain ⟨hm, hi, ⟨Δ, he, hΔ⟩, hrp⟩ := h
  have hnone : ∀ e ∈ Δ, (e.runId == rid) = false := by
    intro e hin
    rcases hΔ e hin with h | h <;> simp [h] <;> omega
  have hlog : eventsForRun s' rid = eventsForRun s rid := by
    rw [eventsForRun_append_of he, List.filter_eq_nil_of_none hnone,
      List.append_nil]
  refine ⟨⟨hm, fun hib _ => hi hib hcid, ⟨Δ, he, ?_⟩, ?_⟩,
    ⟨[], by rw [hlog, List.append_nil]⟩, fun hs => hlog ▸ hs⟩
  · intro e hin
    rcases hΔ e hin with h | h
    · exact Or.inr (h ▸ hcb)
    · exact Or.inr (Nat.le_trans (Nat.le_trans hcb (Nat.le_of_lt hcid)) h)
  · intro id hid hne
    exact hrp id (Nat.lt_of_lt_of_le hid (Nat.le_trans hcb (Nat.le_of_lt hcid)))
      (by omega)

/-- `engineFx_bind`, additionally threading the freshness of a previously
allocated id `c` through the intermediate stores. -/
theorem engineFx_bind_c {rid bound c : Nat} {α β : Type} {m : M α}
    {k : α → M β}
    (h1 : ∀ s, bound ≤ s.nextId → rid < s.nextId → c < s.nextId →
      EngineFx rid bound s (m s).2)
    (h2 : ∀ a s, bound ≤ s.nextId → rid < s.nextId → c < s.nextId →
      EngineFx rid bound s (k a s).2) :
    ∀ s, bound ≤ s.nextId → rid < s.nextId → c < s.nextId →
      EngineFx rid bound s ((m >>= k) s).2 := by
  intro s hb hr hc
  have hm := h1 s hb hr hc
  rw [M.bind_apply]
  rcases hms : m s with ⟨r, s1⟩
  rw [hms] at hm
  cases r with
  | error e => exact hm
  | ok a =>
    exact hm.transEngine (h2 a s1 (Nat.le_trans hb hm.nextId_le)
      (Nat.lt_of_lt_of_le hr hm.nextId_le)
      (Nat.lt_of_lt_of_le hc hm.nextId_le))

theorem engineFx_tryCatch_c {rid bound c : Nat} {α : Type} {m : M α}
    {h : String → M α}
    (h1 : ∀ s, bound ≤ s.nextId → rid < s.nextId → c < s.nextId →
      EngineFx rid bound s (m s).2)
    (h2 : ∀ e s, bound ≤ s.nextId → rid < s.nextId → c < s.nextId →
      EngineFx rid bound s (h e s).2) :
    ∀ s, bound ≤ s.nextId → rid < s.nextId → c < s.nextId →
      EngineFx rid bound s (tryCatchM m h s).2 := by
  intro s hb hr hc
  have hm := h1 s hb hr hc
  rw [tryCatchM_apply]
  rcases hms : m s with ⟨r, s1⟩
  rw [hms] at hm
  cases r with
  | ok a => exact hm
  | error e =>
    exact hm.transEngine (h2 e s1 (Nat.le_trans hb hm.nextId_le)
      (Nat.lt_of_lt_of_le hr hm.nextId_le)
      (Nat.lt_of_lt_of_le hc hm.nextId_le))

theorem engineFx_drop_c {rid bound c : Nat} {α : Type} {m : M α}
    (h : ∀ s, bound ≤ s.nextId → rid < s.nextId →
      EngineFx rid bound s (m s).2) :
    ∀ s, bound ≤ s.nextId → rid < s.nextId → c < s.nextId →
      EngineFx rid bound s (m s).2 :=
  fun s hb hr _ => h s hb hr

/-- Composition through `createChildRun`: the continuation receives a
child id fresh relative to the calling store. -/
theorem engineFx_bind_createChild {rid bound : Nat} {β : Type}
    (pr : RunDoc) (slug : String) (um ctx : Option Json)
    (res : List (String × AgentResolution)) {k : Nat → M β}
    (hk : ∀ cid s, bound ≤ s.nextId → rid < s.nextId → cid < s.nextId →
      rid < cid → bound ≤ cid → EngineFx rid bound s (k cid s).2) :
    ∀ s, bound ≤ s.nextId → rid < s.nextId →
      EngineFx rid bound s ((createChildRun pr slug um ctx res >>= k) s).2 := by
  intro s hb hr
  rw [M.bind_apply]
  rcases hcc : createChildRun pr slug um ctx res s with ⟨rc, s1⟩
  have hccfx := @createChildRun_fx pr slug um ctx res rid bound s hb hr
  rw [hcc] at hccfx
  cases rc with
  | error e => exact hccfx.1
  | ok cid =>
    dsimp only
    obtain ⟨hge, hlt1⟩ := hccfx.2 cid rfl
    exact hccfx.1.transEngine (hk cid s1 (Nat.le_trans hb hccfx.1.nextId_le)
      (Nat.lt_of_lt_of_le hr hccfx.1.nextId_le) hlt1
      (Nat.lt_of_lt_of_le hr hge) (Nat.le_trans hb hge))

/-- The sequential child loop of the plan branch: each iteration creates
a child run, emits the bracketing events, executes the child under its
own `try`/`catch`, and folds the child's output into the accumulator. -/
theorem engineFx_runChildren {bound : Nat} {o_exec : Nat → M Unit}
    (hchild : ∀ cid s, cid < s.nextId →
      StoreFx cid s.nextId s ((o_exec cid) s).2)
    (run : RunDoc) (parsed : Json) (rsm : RoutingState)
    (res : List (String × AgentResolution)) (pps : List String) :
    ∀ children visited outs s, bound ≤ s.nextId → run._id < s.nextId →
      EngineFx run._id bound s
        ((runChildren o_exec run parsed rsm res pps children visited outs)
          s).2 := by
  intro children
  induction children with
  | nil => exact fun visited outs s _ _ => EngineFx.reflEngine
  | cons child rest ih =>
    intro visited outs s hb hr
    rw [runChildren]
    refine engineFx_bind_createChild _ _ _ _ _
      (fun cid s1 hb1 hr1 hc1 hrc hbc => ?_) s hb hr
    refine engineFx_bind_c
      (engineFx_drop_c (engineFx_emit _ _)) (fun _ => ?_) s1 hb1 hr1 hc1
    refine engineFx_bind_c (engineFx_tryCatch_c ?_ ?_) (fun outs' => ?_)
    · -- try: execute the child, read its output back, emit the bracket
      refine engineFx_bind_c (fun s2 hb2 hr2 hc2 => ?_) (fun _ => ?_)
      · exact engineFx_of_child (hchild cid s2 hc2) hc2 hr2 hrc hbc
      · exact engineFx_drop_c (engineFx_bind engineFx_getStore (fun s3 =>
          engineFx_bind (engineFx_emit _ _) (fun _ => engineFx_pure _)))
    · intro e
      exact engineFx_drop_c (engineFx_bind (engineFx_emit _ _)
        (fun _ => engineFx_pure _))
    · exact fun s4 hb4 hr4 _ => ih _ outs' s4 hb4 hr4
theorem runFailureHandler_apply (rid : Nat) (err : String) (s : Store) :
    runFailureHandler rid err s =
      (.ok (),
       { s with
         runs := updateFirstRun s.runs rid (fun r =>
           { r with status := .failed,
                    error := some ⟨err, maxSeq (eventsForRun s rid)⟩ }),
         events := s.events ++
           [{ _id := s.nextId, runId := rid,
              seq := maxSeq (eventsForRun s rid) + 1, type := .ERROR,
              payload := .obj [("message", .str err)] },
            { _id := s.nextId + 1, runId := rid,
              seq := maxSeq (eventsForRun s rid) + 2, type := .RUN_FINISHED,
              payload := .obj [("status", .str "failed")] }],
         nextId := s.nextId + 2 }) := by
  unfold runFailureHandler
  rw [M.bind_apply, nextSeq_apply]
  dsimp only
  rw [M.bind_apply, updateRunById_apply]
  dsimp only
  rw [M.bind_apply, emit_apply]
  dsimp only
  rw [M.bind_apply, emit_apply]
  dsimp only
  rw [M.pure_apply]
  simp only [Nat.add_sub_cancel, eventsForRun_set_events]
  simp only [List.filter_append, maxSeq_append_one]
  simp [eventsForRun, List.filter, Nat.max_eq_right (Nat.le_succ _)]
  rw [maxSeq_append_one]
  simp

theorem runFailureHandler_log (rid : Nat) (err : String) (s : Store) :
    eventsForRun (runFailureHandler rid err s).2 rid =
      eventsForRun s rid ++
        [{ _id := s.nextId, runId := rid,
           seq := maxSeq (eventsForRun s rid) + 1, type := .ERROR,
           payload := .obj [("message", .str err)] },
         { _id := s.nextId + 1, runId := rid,
           seq := maxSeq (eventsForRun s rid) + 2, type := .RUN_FINISHED,
           payload := .obj [("status", .str "failed")] }] := by
  rw [runFailureHandler_apply]
  rw [eventsForRun_append_of (s := { s with
    runs := updateFirstRun s.runs rid (fun r =>
      { r with status := .failed,
               error := some ⟨err, maxSeq (eventsForRun s rid)⟩ }) }) rfl]
  rw [eventsForRun_events_eq (s := s) rfl]
  simp [List.filter]
  exact eventsForRun_events_eq rfl rid

theorem runFailureHandler_result (rid : Nat) (err : String) (s : Store) :
    (runFailureHandler rid err s).1 = .ok () := by
  rw [runFailureHandler_apply]

theorem runFailureHandler_doc (rid : Nat) (err : String) (s : Store) :
    findRunById (runFailureHandler rid err s).2 rid =
      (findRunById s rid).map (fun r =>
        { r with status := .failed,
                 error := some ⟨err, maxSeq (eventsForRun s rid)⟩ }) := by
  rw [runFailureHandler_apply]
  show ((updateFirstRun s.runs rid _).find? _) = _
  exact find_updateFirstRun_self s.runs rid _ (fun r => rfl)

theorem engineFx_runFailureHandler {rid bound : Nat} (err : String) :
    ∀ s, bound ≤ s.nextId → rid < s.nextId →
      EngineFx rid bound s (runFailureHandler rid err s).2 := by
  intro s hb hr
  have hlog := runFailureHandler_log rid err s
  rw [runFailureHandler_apply]
  rw [runFailureHandler_apply] at hlog
  dsimp only
  dsimp only at hlog
  refine ⟨⟨Nat.le_add_right _ 2, ?_, ⟨_, rfl, ?_⟩, ?_⟩, ⟨_, hlog⟩, ?_⟩
  · rintro ⟨br, be⟩ hrid
    constructor
    · intro r' hr'
      obtain ⟨r0, hr0, he⟩ := updateFirstRun_ids s.runs rid
        (fun r =>
          { r with status := .failed,
                   error := some ⟨err, maxSeq (eventsForRun s rid)⟩ })
        (fun r => rfl) r' hr'
      have := br r0 hr0
      show r'._id < s.nextId + 2
      omega
    · intro e he
      rcases List.mem_append.mp he with h | h
      · have := be e h
        show e.runId < s.nextId + 2
        omega
      · rcases List.mem_cons.mp h with rfl | h
        · show rid < s.nextId + 2
          omega
        · rcases List.mem_singleton.mp h with rfl
          show rid < s.nextId + 2
          omega
  · intro e he
    rcases List.mem_cons.mp he with rfl | h
    · exact Or.inl rfl
    · rcases List.mem_singleton.mp h with rfl
      exact Or.inl rfl
  · intro id hid hne
    show ((updateFirstRun s.runs rid
      (fun r =>
        { r with status := .failed,
                 error := some ⟨err, maxSeq (eventsForRun s rid)⟩ })).find?
      (fun r => r._id == id)) = _
    exact find_updateFirstRun_ne s.runs rid id _ (fun r => rfl) hne
  · intro hs
    rw [hlog, ← List.singleton_append, ← List.append_assoc]
    have h1 : SeqOk (eventsForRun s rid ++
        [{ _id := s.nextId, runId := rid,
           seq := maxSeq (eventsForRun s rid) + 1, type := .ERROR,
           payload := .obj [("message", .str err)] }]) :=
      SeqOk_append_one hs (by rw [maxSeq_of_SeqOk hs])
    refine SeqOk_append_one h1 ?_
    rw [List.length_append, maxSeq_of_SeqOk hs]
    simp

/-- A computation that, when it returns normally, leaves `RUN_FINISHED`
as the last event of `rid`'s log. -/
def FinishTail (rid : Nat) (out : Except String Unit × Store) : Prop :=
  out.1 = .ok () → ∃ l e, eventsForRun out.2 rid = l ++ [e] ∧
    e.type = .RUN_FINISHED

theorem bodyTail_bind {rid bound : Nat} {α : Type} {m : M α}
    {k : α → M Unit}
    (hm : ∀ s, bound ≤ s.nextId → rid < s.nextId →
      EngineFx rid bound s (m s).2)
    (hk : ∀ a s, bound ≤ s.nextId → rid < s.nextId →
      EngineFx rid bound s (k a s).2 ∧ FinishTail rid (k a s)) :
    ∀ s, bound ≤ s.nextId → rid < s.nextId →
      EngineFx rid bound s ((m >>= k) s).2 ∧ FinishTail rid ((m >>= k) s) := by
  intro s hb hr
  have hms := hm s hb hr
  rw [M.bind_apply]
  rcases hm1 : m s with ⟨r, s1⟩
  rw [hm1] at hms
  cases r with
  | error e =>
    exact ⟨hms, fun h => by cases h⟩
  | ok a =>
    have hks := hk a s1 (Nat.le_trans hb hms.nextId_le)
      (Nat.lt_of_lt_of_le hr hms.nextId_le)
    exact ⟨hms.transEngine hks.1, hks.2⟩

theorem bodyTail_throw {rid bound : Nat} (msg : String) :
    ∀ s, bound ≤ s.nextId → rid < s.nextId →
      EngineFx rid bound s ((throwM msg : M Unit) s).2 ∧
      FinishTail rid ((throwM msg : M Unit) s) :=
  fun _ _ _ => ⟨EngineFx.reflEngine, fun h => by cases h⟩

theorem bodyTail_ite {rid bound : Nat} (c : Bool) (t e : M Unit)
    (ht : ∀ s, bound ≤ s.nextId → rid < s.nextId →
      EngineFx rid bound s (t s).2 ∧ FinishTail rid (t s))
    (he : ∀ s, bound ≤ s.nextId → rid < s.nextId →
      EngineFx rid bound s (e s).2 ∧ FinishTail rid (e s)) :
    ∀ s, bound ≤ s.nextId → rid < s.nextId →
      EngineFx rid bound s ((if c then t else e) s).2 ∧
      FinishTail rid ((if c then t else e) s) := by
  cases c with
  | true => exact ht
  | false => exact he

/-- The common success tail: mark the run document and emit
`RUN_FINISHED` as the final event. -/
theorem bodyTail_updateEmitFinish {rid bound : Nat} (f : RunDoc → RunDoc)
    (hf : ∀ r, (f r)._id = r._id) (p : Json) :
    ∀ s, bound ≤ s.nextId → rid < s.nextId →
      EngineFx rid bound s
        ((updateRunById rid f >>= fun _ =>
          emit rid .RUN_FINISHED p >>= fun _ => pure ()) s).2 ∧
      FinishTail rid
        ((updateRunById rid f >>= fun _ =>
          emit rid .RUN_FINISHED p >>= fun _ => pure ()) s) := by
  intro s hb hr
  constructor
  · exact engineFx_bind (engineFx_updateRunById f hf)
      (fun _ => engineFx_bind (engineFx_emit _ _) (fun _ => engineFx_pure _))
      s hb hr
  · intro _
    rw [M.bind_apply, updateRunById_apply]
    dsimp only
    rw [M.bind_apply, emit_apply]
    dsimp only
    rw [M.pure_apply]
    dsimp only
    have hev : eventsForRun
        { s with runs := updateFirstRun s.runs rid f } rid =
        eventsForRun s rid := eventsForRun_events_eq rfl rid
    rw [eventsForRun_append_of
      (s := { s with runs := updateFirstRun s.runs rid f }) rfl]
    rw [hev]
    simp only [List.filter, beq_self_eq_true]
    exact ⟨eventsForRun s rid, _, rfl, rfl⟩

theorem findRunById_id {s : Store} {i : Nat} {r : RunDoc}
    (h : findRunById s i = some r) : r._id = i := by
  have := List.find?_some h
  simpa using this

theorem bodyTail_mergeAndFinish {bound rid : Nat}
    (res : List (String × AgentResolution)) (runsList : List Json)
    (outs : List (String × Json)) :
    ∀ s, bound ≤ s.nextId → rid < s.nextId →
      EngineFx rid bound s ((mergeAndFinish rid res runsList outs) s).2 ∧
      FinishTail rid (mergeAndFinish rid res runsList outs s) := by
  unfold mergeAndFinish
  refine bodyTail_updateEmitFinish _ ?_ _
  exact fun r => rfl

theorem bodyTail_throwBind {rid bound : Nat} {α : Type} (msg : String)
    (k : α → M Unit) :
    ∀ s, bound ≤ s.nextId → rid < s.nextId →
      EngineFx rid bound s ((throwM msg >>= k) s).2 ∧
      FinishTail rid ((throwM msg >>= k) s) := by
  intro s _ _
  rw [M.bind_apply, throwM_apply]
  exact ⟨EngineFx.reflEngine, fun h => nomatch h⟩

/-- `executeRunBody` is its initial `RUN_STARTED` event followed by
`restBody`, definitionally. -/
theorem executeRunBody_eq (o : Oracle) (execChild : Nat → M Unit)
    (runId : Nat) (run : RunDoc) :
    executeRunBody o execChild runId run =
      emit runId .RUN_STARTED
        (.obj [("agentId", match run.agentId with
          | some a => .str (toString a)
          | none => .null)]) >>= fun _ =>
        restBody o execChild runId run := rfl

/-- The tail of the executor body, walked over every branch: its store
effect is an `EngineFx` for the executing run, and whenever it returns
normally the run's log ends with `RUN_FINISHED`. -/
theorem restFx (o : Oracle) {bound : Nat} {execChild : Nat → M Unit}
    (hchild : ∀ cid s, cid < s.nextId →
      StoreFx cid s.nextId s ((execChild cid) s).2)
    (run : RunDoc) :
    ∀ s, bound ≤ s.nextId → run._id < s.nextId →
      EngineFx run._id bound s
        ((restBody o execChild run._id run) s).2 ∧
      FinishTail run._id (restBody o execChild run._id run s) := by
  unfold restBody
  refine bodyTail_bind
    (fun s hb hr => engineFx_of_agentsOnly
      (agentsOnly_resolveAgentVersion run s)) (fun resolved => ?_)
  refine bodyTail_bind (engineFx_emit _ _) (fun _ => ?_)
  refine bodyTail_bind (engineFx_emit _ _) (fun _ => ?_)
  refine bodyTail_bind
    (fun s _ _ => engineFx_of_store_eq (listAvailableAgents_store s))
    (fun avail => ?_)
  refine bodyTail_bind
    (fun s _ _ => engineFx_of_store_eq (parseJsonStrict_store _ s))
    (fun parsed => ?_)
  refine bodyTail_bind (engineFx_emit _ _) (fun _ => ?_)
  refine bodyTail_ite _ _ _ ?_ ?_
  · refine bodyTail_updateEmitFinish _ ?_ _
    exact fun r => rfl
  · refine bodyTail_ite _ _ _ (bodyTail_throw _) ?_
    refine bodyTail_bind (engineFx_liftEx _) (fun _ => ?_)
    refine bodyTail_ite _ _ _ (bodyTail_throw _) ?_
    refine bodyTail_ite _ _ _ (bodyTail_throw _) ?_
    intro s hb hr
    cases hX : (((jGet? parsed "runsToExecute").orElse
        fun x => jGet? parsed "runs").getD (Json.arr [])).asArray with
    | none =>
      dsimp only
      exact (bodyTail_throwBind _ _) s hb hr
    | some xs =>
      dsimp only
      refine (bodyTail_bind (engineFx_pure _) (fun runsList => ?_)) s hb hr
      refine bodyTail_bind (engineFx_liftEx _) (fun _ => ?_)
      refine bodyTail_bind
        (fun sA _ _ => engineFx_of_store_eq (enforceSpawnCap_store _ _ sA))
        (fun _ => ?_)
      intro s2 hb2 hr2
      cases hY : (((jGet? parsed "agentsToCreate").orElse
          fun x => jGet? parsed "agents").getD (Json.arr [])).asArray with
      | none =>
        dsimp only
        exact (bodyTail_throwBind _ _) s2 hb2 hr2
      | some ys =>
        dsimp only
        refine (bodyTail_bind (engineFx_pure _) (fun agentsList => ?_))
          s2 hb2 hr2
        refine bodyTail_bind (engineFx_emit _ _) (fun _ => ?_)
        refine bodyTail_bind
          (fun sB hbB hrB => engineFx_of_agentsOnly
            (agentsOnly_spawnAgentsFromPlan _ run sB)) (fun resolutions => ?_)
        refine bodyTail_bind (engineFx_emitResolutions _) (fun _ => ?_)
        refine bodyTail_bind
          (engineFx_runChildren hchild run _ _ _ _ _ _ _) (fun outs => ?_)
        exact bodyTail_mergeAndFinish _ _ _


/-- The `try` body of the executor: `RUN_STARTED` followed by the walked
tail. -/
theorem bodyFx (o : Oracle) {bound : Nat} {execChild : Nat → M Unit}
    (hchild : ∀ cid s, cid < s.nextId →
      StoreFx cid s.nextId s ((execChild cid) s).2)
    (run : RunDoc) :
    ∀ s, bound ≤ s.nextId → run._id < s.nextId →
      EngineFx run._id bound s
        ((executeRunBody o execChild run._id run) s).2 ∧
      FinishTail run._id (executeRunBody o execChild run._id run s) := by
  rw [executeRunBody_eq]
  exact bodyTail_bind (engineFx_emit _ _) (fun _ => restFx o hchild run)

/-- Master effect lemma: executing any run, at any fuel, under any
oracle, is an `EngineFx` for that run relative to any watermark at or
below the starting counter. -/
theorem exec_fx (o : Oracle) :
    ∀ fuel rid bound s, bound ≤ s.nextId → rid < s.nextId →
      EngineFx rid bound s ((executeRun o fuel rid) s).2 := by
  intro fuel
  induction fuel with
  | zero => intro rid bound s _ _; exact EngineFx.reflEngine
  | succ n ih =>
    intro rid bound s hb hr
    rw [executeRun_succ]
    cases hfr : findRunById s rid with
    | none => exact EngineFx.reflEngine
    | some run =>
      dsimp only
      have hid : run._id = rid := findRunById_id hfr
      have hchild : ∀ cid s', cid < s'.nextId →
          StoreFx cid s'.nextId s' ((executeRun o n cid) s').2 :=
        fun cid s' hc => (ih cid s'.nextId s' (Nat.le_refl _) hc).1
      have hbody := @bodyFx o bound (fun childId => executeRun o n childId)
        hchild run
      rw [hid] at hbody
      exact engineFx_tryCatch (fun s1 hb1 hr1 => (hbody s1 hb1 hr1).1)
        (fun e => engineFx_runFailureHandler e) s hb hr

theorem tryCatchM_shift_emit {α : Type} (rid' : Nat) (t : EventType)
    (p : Json) (k : M α) (h : String → M α) (s : Store) :
    tryCatchM ((emit rid' t p) >>= fun _ => k) h s =
      tryCatchM k h (emit rid' t p s).2 := by
  rw [tryCatchM_apply, M.bind_apply, emit_apply]
  dsimp only
  rw [tryCatchM_apply]

/-- Facts about a run-boundary `try`/`catch` whose body satisfies the
walked effect, started from a log holding exactly the `RUN_STARTED`
event. -/
theorem tryFacts {rid bound : Nat} {m : M Unit}
    (hm : ∀ s, bound ≤ s.nextId → rid < s.nextId →
      EngineFx rid bound s (m s).2 ∧ FinishTail rid (m s))
    (s1 : Store) (ev0 : EventDoc) (hb1 : bound ≤ s1.nextId)
    (hr1 : rid < s1.nextId) (hlog1 : eventsForRun s1 rid = [ev0])
    (hseq : SeqOk [ev0]) (ht : ev0.type = .RUN_STARTED) :
    (tryCatchM m (runFailureHandler rid) s1).1 = .ok () ∧
    SeqOk (eventsForRun (tryCatchM m (runFailureHandler rid) s1).2 rid) ∧
    (eventsForRun (tryCatchM m (runFailureHandler rid) s1).2 rid).head?.map
      (fun e => e.type) = some .RUN_STARTED ∧
    ∃ l e, eventsForRun (tryCatchM m (runFailureHandler rid) s1).2 rid =
      l ++ [e] ∧ e.type = .RUN_FINISHED := by
  rw [tryCatchM_apply]
  rcases hm1 : m s1 with ⟨r, s2⟩
  have hfx := hm s1 hb1 hr1
  rw [hm1] at hfx
  obtain ⟨hE, htail⟩ := hfx
  obtain ⟨⟨hmono, _, _, _⟩, ⟨Δ, hΔ⟩, hSpres⟩ := hE
  have hS1 : SeqOk (eventsForRun s1 rid) := by rw [hlog1]; exact hseq
  have hS2 : SeqOk (eventsForRun s2 rid) := hSpres hS1
  rw [hlog1] at hΔ
  cases r with
  | ok a =>
    cases a
    refine ⟨rfl, hS2, ?_, htail rfl⟩
    rw [hΔ]
    simp [ht]
  | error msg =>
    have hb2 : bound ≤ s2.nextId := Nat.le_trans hb1 hmono
    have hr2 : rid < s2.nextId := Nat.lt_of_lt_of_le hr1 hmono
    have hlog3 := runFailureHandler_log rid msg s2
    refine ⟨runFailureHandler_result rid msg s2, ?_, ?_, ?_⟩
    · exact (engineFx_runFailureHandler msg s2 hb2 hr2).2.2 hS2
    · rw [hlog3, hΔ]
      simp [ht]
    · refine ⟨eventsForRun s2 rid ++
        [{ _id := s2.nextId, runId := rid,
           seq := maxSeq (eventsForRun s2 rid) + 1, type := .ERROR,
           payload := .obj [("message", .str msg)] }],
        { _id := s2.nextId + 1, runId := rid,
          seq := maxSeq (eventsForRun s2 rid) + 2, type := .RUN_FINISHED,
          payload := .obj [("status", .str "failed")] }, ?_, rfl⟩
      rw [hlog3, List.append_assoc]
      rfl

/-- Master run lemma: executing an existing run with an empty log and
positive fuel always returns normally (failures are trapped at the run
boundary), and leaves a gapless event log that starts with
`RUN_STARTED` and ends with `RUN_FINISHED`. -/
theorem exec_log (o : Oracle) (fuel rid : Nat) (run : RunDoc) (s : Store)
    (hfr : findRunById s rid = some run)
    (hes : eventsForRun s rid = [])
    (hr : rid < s.nextId) :
    (executeRun o (fuel + 1) rid s).1 = .ok () ∧
    SeqOk (eventsForRun (executeRun o (fuel + 1) rid s).2 rid) ∧
    (eventsForRun (executeRun o (fuel + 1) rid s).2 rid).head?.map
      (fun e => e.type) = some .RUN_STARTED ∧
    ∃ l e, eventsForRun (executeRun o (fuel + 1) rid s).2 rid = l ++ [e] ∧
      e.type = .RUN_FINISHED := by
  have hid : run._id = rid := findRunById_id hfr
  have hchild : ∀ cid s', cid < s'.nextId →
      StoreFx cid s'.nextId s' ((executeRun o fuel cid) s').2 :=
    fun cid s' hc => (exec_fx o fuel cid s'.nextId s' (Nat.le_refl _) hc).1
  have hrest0 := @restFx o s.nextId (fun childId => executeRun o fuel childId)
    hchild run
  rw [hid] at hrest0
  rw [executeRun_succ, hfr]
  dsimp only
  rw [executeRunBody_eq, tryCatchM_shift_emit]
  refine tryFacts hrest0 _
    { _id := s.nextId, runId := rid,
      seq := maxSeq (eventsForRun s rid) + 1, type := .RUN_STARTED,
      payload := .obj [("agentId", match run.agentId with
        | some a => .str (toString a)
        | none => .null)] } ?_ ?_ ?_ ?_ ?_
  · rw [emit_apply]
    exact Nat.le_succ _
  · rw [emit_apply]
    exact Nat.lt_succ_of_lt hr
  · rw [emit_apply]
    dsimp only
    rw [eventsForRun_append_of (s := s) rfl, hes]
    simp only [List.nil_append, List.filter, beq_self_eq_true]
  · simp [SeqOk, hes, maxSeq]
  · rfl

theorem summarize_str_truncates {s : String} (h : 200 < s.length) :
    summarizeResultForContext (.str s) =
      .str (jsSlice s 200 ++ "...(truncated)") := by
  unfold summarizeResultForContext
  dsimp only
  rw [if_neg (by omega)]

/-- C9 (amended): double summarization is the identity on truncated
strings: re-truncating `s.take 200 ++ "...(truncated)"` reproduces it. -/
theorem c9_summarize_truncated_idempotent (s : String) (h : 200 < s.length) :
    summarizeResultForContext (summarizeResultForContext (.str s)) =
      summarizeResultForContext (.str s) := by
  rw [summarize_str_truncates h]
  have hlen : (jsSlice s 200).length = 200 := by
    show (s.data.take 200).length = 200
    rw [List.length_take]
    have : 200 < s.data.length := h
    omega
  have hlen2 : 200 < (jsSlice s 200 ++ "...(truncated)").length := by
    rw [String.length_append, hlen]
    have h14 : "...(truncated)".length = 14 := rfl
    omega
  rw [summarize_str_truncates hlen2]
  congr 1
  congr 1
  show String.mk ((jsSlice s 200 ++ "...(truncated)").data.take 200) =
    jsSlice s 200
  rw [show (jsSlice s 200 ++ "...(truncated)").data =
    (jsSlice s 200).data ++ "...(truncated)".data from rfl]
  rw [List.take_append_of_le_length (by rw [show (jsSlice s 200).data.length =
    (jsSlice s 200).length from rfl, hlen])]
  rw [show (jsSlice s 200).data = s.data.take 200 from rfl]
  rw [List.take_take]
  rfl

theorem c9_summarize_truncated_idempotent_witness :
    200 < (String.mk (List.replicate 201 'a')).length ∧
    summarizeResultForContext (summarizeResultForContext
      (.str (String.mk (List.replicate 201 'a')))) =
      summarizeResultForContext (.str (String.mk (List.replicate 201 'a'))) :=
  have hl : 200 < (String.mk (List.replicate 201 'a')).length := by
    show 200 < (List.replicate 201 'a').length
    rw [List.length_replicate]
    omega
  ⟨hl, c9_summarize_truncated_idempotent _ hl⟩

/-- C9 (counterexample): summarization is not idempotent on arrays: an
array summarizes to an object, which then summarizes to an object
description of that object. -/
theorem c9_array_not_idempotent :
    summarizeResultForContext (summarizeResultForContext (.arr [])) ≠
      summarizeResultForContext (.arr []) ∧
    summarizeResultForContext (summarizeResultForContext
      (.obj [("x", .num 1)])) ≠
      summarizeResultForContext (.obj [("x", .num 1)]) := by
  constructor <;> decide

/-- C7 (amended): when the resolver matches an existing agent and the
*active* version's trimmed prompt equals the spec's trimmed prompt, the
spec resolves to a reuse and no agent-version document is written. -/
theorem c7_reuse_on_matching_active_prompt (run : RunDoc) (spec : Json)
    (s : Store) (agent : AgentDoc) (matchedOn : String) (lvid : Nat)
    (latestVersion : AgentVersionDoc) (t : String)
    (hok : (!(jGetD spec "slug" .null).truthy ||
      !(jGetD spec "name" .null).truthy ||
      !(jGetD spec "systemPrompt" .null).truthy) = false)
    (hsim : findSimilarAgent s spec = some (agent, matchedOn, lvid))
    (hv : findVersionById s agent.activeVersionId = some latestVersion)
    (hlv : jsTrimJ latestVersion.systemPrompt = .ok t)
    (hsp : jsTrimJ (jGetD spec "systemPrompt" .null) = .ok t) :
    (spawnSpec run spec s).2.agentVersions = s.agentVersions ∧
    (spawnSpec run spec s).1 = .ok (jsKeyString (jGetD spec "slug" .null),
      { requestedSlug := jsKeyString (jGetD spec "slug" .null),
        slug := agent.slug, agentId := agent._id,
        agentVersionId := agent.activeVersionId, reused := true,
        matchedOn := matchedOn }) := by
  unfold spawnSpec
  rw [hok, if_neg (by decide)]
  rw [M.bind_apply, getStore_apply]
  dsimp only
  rw [hsim]
  dsimp only
  rw [hv]
  dsimp only
  rw [M.bind_apply, hlv, liftEx_ok]
  dsimp only
  rw [M.bind_apply, hsp, liftEx_ok]
  dsimp only
  simp only [beq_self_eq_true]
  rw [if_pos (by trivial)]
  by_cases hc : ((decide ((mergeStringArrays
      (normalizeStringList (normalizeStringArray
        (((jGet? spec "routingHints").bind
          (fun rh => rh.getField "tags")).getD .null)))
      (normalizeStringArray (jGetD ((jGet? spec "metadata").getD (.obj []))
        "tags" .null))).length > 0)) ||
      (decide ((jsFieldsOf ((jGet? spec "metadata").getD
        (.obj []))).length > 0))) = true
  · rw [if_pos hc]
    rw [M.bind_apply, updateAgentById_apply]
    dsimp only
    rw [M.pure_apply]
    exact ⟨rfl, rfl⟩
  · rw [if_neg hc]
    rw [M.bind_apply, M.pure_apply]
    dsimp only
    rw [M.pure_apply]
    exact ⟨rfl, rfl⟩

/-- C10: a reuse resolution whose spec carries no routing hints and no
metadata writes nothing at all: the store is returned unchanged and only
the reuse resolution is produced. -/
theorem c10_reuse_writes_nothing (run : RunDoc) (spec : Json)
    (s : Store) (agent : AgentDoc) (matchedOn : String) (lvid : Nat)
    (latestVersion : AgentVersionDoc) (t : String)
    (hok : (!(jGetD spec "slug" .null).truthy ||
      !(jGetD spec "name" .null).truthy ||
      !(jGetD spec "systemPrompt" .null).truthy) = false)
    (hsim : findSimilarAgent s spec = some (agent, matchedOn, lvid))
    (hv : findVersionById s agent.activeVersionId = some latestVersion)
    (hlv : jsTrimJ latestVersion.systemPrompt = .ok t)
    (hsp : jsTrimJ (jGetD spec "systemPrompt" .null) = .ok t)
    (hrh : jGet? spec "routingHints" = none)
    (hmd : jGet? spec "metadata" = none) :
    (spawnSpec run spec s).2 = s ∧
    (spawnSpec run spec s).1 = .ok (jsKeyString (jGetD spec "slug" .null),
      { requestedSlug := jsKeyString (jGetD spec "slug" .null),
        slug := agent.slug, agentId := agent._id,
        agentVersionId := agent.activeVersionId, reused := true,
        matchedOn := matchedOn }) := by
  unfold spawnSpec
  rw [hok, if_neg (by decide)]
  rw [hrh, hmd]
  rw [M.bind_apply, getStore_apply]
  dsimp only
  rw [hsim]
  dsimp only
  rw [hv]
  dsimp only
  rw [M.bind_apply, hlv, liftEx_ok]
  dsimp only
  rw [M.bind_apply, hsp, liftEx_ok]
  dsimp only
  simp only [beq_self_eq_true]
  rw [if_pos (by trivial)]
  rw [if_neg (by decide)]
  rw [M.bind_apply, M.pure_apply]
  dsimp only
  rw [M.pure_apply]
  exact ⟨rfl, rfl⟩

theorem truthy_of_getField {j : Json} {k : String} {v : Json}
    (h : j.getField k = some v) : j.truthy = true := by
  cases j <;> first
    | rfl
    | exact absurd h (by simp [Json.getField])

theorem parseJsonStrict_typed {j : Json} {t : String}
    (hj : j.getField "type" = some (.str t))
    (ht : t = "plan" ∨ t = "final") (s : Store) :
    parseJsonStrict (some j) s = (.ok j, s) := by
  unfold parseJsonStrict
  dsimp only
  rw [if_neg ?_]
  · rfl
  · rw [truthy_of_getField hj, hj]
    rcases ht with rfl | rfl <;> simp

theorem resolveAgentVersion_found {run : RunDoc} {aid : Nat}
    {agent : AgentDoc} {version : AgentVersionDoc} {s : Store}
    (h1 : run.agentId = some aid) (h2 : findAgentById s aid = some agent)
    (h3 : findVersionById s (run.agentVersionId.getD agent.activeVersionId) =
      some version) :
    resolveAgentVersion run s =
      (.ok ⟨agent, version._id, version.systemPrompt⟩, s) := by
  unfold resolveAgentVersion
  rw [h1]
  dsimp only
  rw [M.bind_apply, getStore_apply]
  dsimp only
  rw [h2]
  dsimp only
  rw [h3]
  rfl

theorem eventsForRun_of_events {s' : Store} {l : List EventDoc}
    (h : s'.events = l) (rid : Nat) :
    eventsForRun s' rid = l.filter (fun e => e.runId == rid) := by
  simp [eventsForRun, h]

/-- C6: a run whose model response parses to `{type: "final", result: R}`
succeeds with `output = R` stored bit-identically, and its event log is
exactly `RUN_STARTED, PROMPT_LOADED, MODEL_REQUEST, MODEL_RESPONSE,
RUN_FINISHED` with sequence numbers 1 to 5. -/
theorem c6_final_run (o : Oracle) (fuel rid aid : Nat) (run : RunDoc)
    (agent : AgentDoc) (version : AgentVersionDoc) (j : Json) (s : Store)
    (hfr : findRunById s rid = some run)
    (hes : eventsForRun s rid = [])
    (h1 : run.agentId = some aid)
    (h2 : findAgentById s aid = some agent)
    (h3 : findVersionById s (run.agentVersionId.getD agent.activeVersionId) =
      some version)
    (ho : ∀ mc, o.respond mc = some j)
    (hj : j.getField "type" = some (.str "final")) :
    (executeRun o (fuel + 1) rid s).1 = .ok () ∧
    findRunById (executeRun o (fuel + 1) rid s).2 rid = some
      { run with status := .succeeded,
                 output := some (jGetD j "result" .null) } ∧
    (eventsForRun (executeRun o (fuel + 1) rid s).2 rid).map
      (fun e => (e.seq, e.type)) =
      [(1, .RUN_STARTED), (2, .PROMPT_LOADED), (3, .MODEL_REQUEST),
       (4, .MODEL_RESPONSE), (5, .RUN_FINISHED)] := by
  have hes' : s.events.filter (fun e => e.runId == rid) = [] := hes
  rw [executeRun_succ, hfr]
  dsimp only
  rw [executeRunBody_eq, tryCatchM_shift_emit, tryCatchM_apply]
  unfold restBody
  rw [M.bind_apply, resolveAgentVersion_found h1 ?hh2 ?hh3]
  case hh2 => exact h2
  case hh3 => exact h3
  dsimp only
  rw [M.bind_apply, emit_apply]
  dsimp only
  rw [M.bind_apply, emit_apply]
  dsimp only
  rw [M.bind_apply, show ∀ sx, listAvailableAgents sx =
    (.ok (sx.agents.map (fun a =>
      buildAgentSummaryItem a.slug a.name a.description a.metadata)), sx)
    from fun _ => rfl]
  dsimp only
  rw [M.bind_apply, ho, parseJsonStrict_typed hj (Or.inr rfl)]
  dsimp only
  rw [M.bind_apply, emit_apply]
  dsimp only
  rw [hj]
  rw [if_pos (by simp)]
  rw [M.bind_apply, updateRunById_apply]
  dsimp only
  rw [M.bind_apply, emit_apply]
  dsimp only
  rw [emit_apply]
  dsimp only
  refine ⟨rfl, ?_, ?_⟩
  · show ((updateFirstRun s.runs rid _).find? _) = _
    rw [find_updateFirstRun_self s.runs rid (fun r =>
      { r with status := .succeeded,
               output := some (jGetD j "result" .null) })
      (fun r => rfl)]
    rw [show List.find? (fun r => r._id == rid) s.runs = some run from hfr]
    rfl
  · rw [eventsForRun_of_events rfl]
    simp only [List.filter_append, hes']
    simp [eventsForRun, List.filter_append, hes', List.filter, maxSeq,
      maxSeq_append_one]

theorem c6_final_run_witness :
    (findRunById c6seed 3 = some c6run ∧ eventsForRun c6seed 3 = [] ∧
     c6json.getField "type" = some (.str "final")) ∧
    ((executeRun c6oracle 1 3 c6seed).1 = .ok () ∧
     findRunById (executeRun c6oracle 1 3 c6seed).2 3 = some
       { c6run with status := .succeeded,
                    output := some (jGetD c6json "result" .null) } ∧
     (eventsForRun (executeRun c6oracle 1 3 c6seed).2 3).map
       (fun e => (e.seq, e.type)) =
       [(1, .RUN_STARTED), (2, .PROMPT_LOADED), (3, .MODEL_REQUEST),
        (4, .MODEL_RESPONSE), (5, .RUN_FINISHED)]) :=
  ⟨⟨rfl, rfl, rfl⟩,
   c6_final_run c6oracle 0 3 1 c6run c6agent c6version c6json c6seed rfl rfl
     rfl rfl rfl (fun _ => rfl) rfl⟩

/-- C8: every run executed with positive fuel from an empty log returns
normally, and its event log is gapless `1..N`, starting with
`RUN_STARTED` and ending with `RUN_FINISHED`, in the success and the
failure branch alike. -/
theorem c8_event_log_wellformed (o : Oracle) (fuel rid : Nat) (run : RunDoc)
    (s : Store) (hfr : findRunById s rid = some run)
    (hes : eventsForRun s rid = []) (hr : rid < s.nextId) :
    (executeRun o (fuel + 1) rid s).1 = .ok () ∧
    SeqOk (eventsForRun (executeRun o (fuel + 1) rid s).2 rid) ∧
    (eventsForRun (executeRun o (fuel + 1) rid s).2 rid).head?.map
      (fun e => e.type) = some .RUN_STARTED ∧
    ∃ l e, eventsForRun (executeRun o (fuel + 1) rid s).2 rid = l ++ [e] ∧
      e.type = .RUN_FINISHED :=
  exec_log o fuel rid run s hfr hes hr

theorem c8_event_log_wellformed_witness :
    (findRunById c6seed 3 = some c6run ∧ eventsForRun c6seed 3 = [] ∧
     3 < c6seed.nextId) ∧
    ((executeRun oracleNone 1 3 c6seed).1 = .ok () ∧
     SeqOk (eventsForRun (executeRun oracleNone 1 3 c6seed).2 3) ∧
     (eventsForRun (executeRun oracleNone 1 3 c6seed).2 3).head?.map
       (fun e => e.type) = some .RUN_STARTED ∧
     ∃ l e, eventsForRun (executeRun oracleNone 1 3 c6seed).2 3 = l ++ [e] ∧
       e.type = .RUN_FINISHED) :=
  ⟨⟨rfl, rfl, by decide⟩,
   c8_event_log_wellformed oracleNone 0 3 c6run c6seed rfl rfl (by decide)⟩

/-- C4 (amended): a failure raised inside the executor body is trapped at
the run boundary: the run document is marked failed with
`error = (message, current max seq)`, an `ERROR` and a `RUN_FINISHED`
event are appended, and no exception reaches the caller. -/
theorem c4_body_failures_trapped (o : Oracle) (fuel rid : Nat) (run : RunDoc)
    (msg : String) (s s1 : Store)
    (hfr : findRunById s rid = some run)
    (hbody : executeRunBody o (fun c => executeRun o fuel c) rid run s =
      (.error msg, s1)) :
    (executeRun o (fuel + 1) rid s).1 = .ok () ∧
    findRunById (executeRun o (fuel + 1) rid s).2 rid =
      (findRunById s1 rid).map (fun r =>
        { r with status := .failed,
                 error := some ⟨msg, maxSeq (eventsForRun s1 rid)⟩ }) ∧
    eventsForRun (executeRun o (fuel + 1) rid s).2 rid =
      eventsForRun s1 rid ++
        [⟨s1.nextId, rid, maxSeq (eventsForRun s1 rid) + 1, .ERROR,
          .obj [("message", .str msg)]⟩,
         ⟨s1.nextId + 1, rid, maxSeq (eventsForRun s1 rid) + 2,
          .RUN_FINISHED, .obj [("status", .str "failed")]⟩] := by
  rw [executeRun_succ, hfr]
  dsimp only
  rw [tryCatchM_apply, hbody]
  dsimp only
  exact ⟨runFailureHandler_result rid msg s1, runFailureHandler_doc rid msg s1,
    runFailureHandler_log rid msg s1⟩

theorem c4_body_failures_trapped_witness :
    (findRunById c6seed 3 = some c6run ∧
     executeRunBody oracleNone (fun c => executeRun oracleNone 0 c) 3 c6run
       c6seed = (.error "Unexpected token in JSON",
         (executeRunBody oracleNone (fun c => executeRun oracleNone 0 c) 3
           c6run c6seed).2)) ∧
    ((executeRun oracleNone 1 3 c6seed).1 = .ok () ∧
     findRunById (executeRun oracleNone 1 3 c6seed).2 3 =
       (findRunById (executeRunBody oracleNone
           (fun c => executeRun oracleNone 0 c) 3 c6run c6seed).2 3).map
         (fun r =>
           { r with
             status := .failed,
             error := some ⟨"Unexpected token in JSON",
                            maxSeq (eventsForRun (executeRunBody oracleNone
                              (fun c => executeRun oracleNone 0 c) 3 c6run
                              c6seed).2 3)⟩ }) ∧
     eventsForRun (executeRun oracleNone 1 3 c6seed).2 3 =
       eventsForRun (executeRunBody oracleNone
         (fun c => executeRun oracleNone 0 c) 3 c6run c6seed).2 3 ++
         [⟨(executeRunBody oracleNone (fun c => executeRun oracleNone 0 c) 3
             c6run c6seed).2.nextId, 3,
           maxSeq (eventsForRun (executeRunBody oracleNone
             (fun c => executeRun oracleNone 0 c) 3 c6run c6seed).2 3) + 1,
           .ERROR, .obj [("message", .str "Unexpected token in JSON")]⟩,
          ⟨(executeRunBody oracleNone (fun c => executeRun oracleNone 0 c) 3
             c6run c6seed).2.nextId + 1, 3,
           maxSeq (eventsForRun (executeRunBody oracleNone
             (fun c => executeRun oracleNone 0 c) 3 c6run c6seed).2 3) + 2,
           .RUN_FINISHED, .obj [("status", .str "failed")]⟩]) :=
  ⟨⟨rfl, rfl⟩,
   c4_body_failures_trapped oracleNone 0 3 c6run "Unexpected token in JSON"
     c6seed _ rfl rfl⟩

/-- C4 (counterexample): a failure in step §4.5.1 — the run id not
resolving to a run document — is *not* trapped: `execute` rethrows
`Run not found` to its caller, updates no document and emits nothing. -/
theorem c4_missing_run_rethrown :
    findRunById c6seed 5 = none ∧
    executeRun oracleNone 1 5 c6seed = (.error "Run not found", c6seed) :=
  ⟨rfl, rfl⟩

/-- C3 (counterexample): with `a` already visited and a plan listing
`b, b, a`, validation fails on the duplicate `b` first — not with the
claimed `Slug already executed in this run tree: a` — even though a
planned slug is in `visitedSlugs`. -/
theorem c3_duplicate_fires_before_antiloop :
    (readRoutingState c3run.context).visitedSlugs = ["a"] ∧
    ((findRunById (executeRun c3oracle 1 3 c3seed).2 3).map
      (fun r => r.status)) = some .failed ∧
    ((findRunById (executeRun c3oracle 1 3 c3seed).2 3).bind
      (fun r => r.error)).map (fun e => e.message) =
      some "Duplicate slug in runsToExecute: b" :=
  ⟨rfl, rfl, rfl⟩

theorem checkRunSpecs_visited_error (visited : List String) :
    ∀ (specs : List Json) (sls : List String) (acc : List String),
      specs.map (fun spec => jGet? spec "slug") =
        sls.map (fun sl => some (.str sl)) →
      (∀ sl ∈ sls, sl ≠ "") →
      sls.Nodup →
      (∀ sl ∈ sls, sl ∉ acc) →
      (∃ sl ∈ sls, sl ∈ visited) →
      ∃ sl ∈ visited, checkRunSpecs visited specs acc =
        .error ("Slug already executed in this run tree: " ++ sl) := by
  intro specs
  induction specs with
  | nil =>
    intro sls acc hm hne hnd hacc hex
    cases sls with
    | nil =>
      obtain ⟨sl, h, _⟩ := hex
      cases h
    | cons a t => cases hm
  | cons spec rest ih =>
    intro sls acc hm hne hnd hacc hex
    cases sls with
    | nil => cases hm
    | cons sl0 tl =>
      rw [List.map_cons, List.map_cons] at hm
      injection hm with hm1 hm2
      rw [checkRunSpecs, hm1]
      dsimp only
      rw [show (sl0 == "") = false by
        simp [hne sl0 (List.mem_cons_self _ _)]]
      rw [if_neg (by decide)]
      rw [show acc.contains sl0 = false by
        simpa using hacc sl0 (List.mem_cons_self _ _)]
      rw [if_neg (by decide)]
      cases hv : visited.contains sl0 with
      | true =>
        refine ⟨sl0, by simpa using hv, ?_⟩
        rw [if_pos (by simp [hv])]
        simp [toString]
      | false =>
        rw [if_neg (by simp [hv])]
        have hsl0nv : sl0 ∉ visited := by simpa using hv
        refine ih tl (acc ++ [sl0]) hm2
          (fun sl h => hne sl (List.mem_cons_of_mem _ h))
          (List.Nodup.of_cons hnd) ?_ ?_
        · intro sl h
          rw [List.mem_append]
          rintro (hc | hc)
          · exact hacc sl (List.mem_cons_of_mem _ h) hc
          · rcases List.mem_singleton.mp hc with rfl
            exact (List.nodup_cons.mp hnd).1 h
        · obtain ⟨sl, hmem, hvis⟩ := hex
          rcases List.mem_cons.mp hmem with rfl | hmem
          · exact absurd hvis hsl0nv
          · exact ⟨sl, hmem, hvis⟩

/-- C3 (amended): among plan entries with valid, pairwise-distinct slugs
none of which was already requested, a visited slug makes validation
fail with `Slug already executed in this run tree` naming the first such
slug; end to end, such a run is marked failed with exactly that message,
no child run is created, and its event log is the four prefix events
followed by a single `ERROR` and then `RUN_FINISHED`. -/
theorem c3_anti_loop_after_dedup :
    (∀ (visited : List String) (specs : List Json) (sls acc : List String),
       specs.map (fun spec => jGet? spec "slug") =
         sls.map (fun sl => some (.str sl)) →
       (∀ sl ∈ sls, sl ≠ "") →
       sls.Nodup →
       (∀ sl ∈ sls, sl ∉ acc) →
       (∃ sl ∈ sls, sl ∈ visited) →
       ∃ sl ∈ visited, checkRunSpecs visited specs acc =
         .error ("Slug already executed in this run tree: " ++ sl)) ∧
    ((executeRun c3bOracle 1 3 c3seed).1 = .ok () ∧
     (findRunById (executeRun c3bOracle 1 3 c3seed).2 3).map
       (fun r => r.status) = some .failed ∧
     ((findRunById (executeRun c3bOracle 1 3 c3seed).2 3).bind
       (fun r => r.error)).map (fun e => e.message) =
       some "Slug already executed in this run tree: a" ∧
     (executeRun c3bOracle 1 3 c3seed).2.runs.map (fun r => r._id) = [3] ∧
     (eventsForRun (executeRun c3bOracle 1 3 c3seed).2 3).map
       (fun e => (e.seq, e.type)) =
       [(1, .RUN_STARTED), (2, .PROMPT_LOADED), (3, .MODEL_REQUEST),
        (4, .MODEL_RESPONSE), (5, .ERROR), (6, .RUN_FINISHED)]) :=
  ⟨fun visited specs sls acc h1 h2 h3 h4 h5 =>
     checkRunSpecs_visited_error visited specs sls acc h1 h2 h3 h4 h5,
   rfl, rfl, rfl, rfl, rfl⟩

theorem c3_anti_loop_after_dedup_witness :
    ([.obj [("slug", .str "b")], .obj [("slug", .str "a")]] :
        List Json).map (fun spec => jGet? spec "slug") =
      (["b", "a"].map (fun sl => some (.str sl))) ∧
    (∃ sl ∈ ["b", "a"], sl ∈ ["a"]) ∧
    ∃ sl ∈ ["a"], checkRunSpecs ["a"]
      [.obj [("slug", .str "b")], .obj [("slug", .str "a")]] [] =
      .error ("Slug already executed in this run tree: " ++ sl) :=
  ⟨by decide, ⟨"a", by decide, by decide⟩,
   c3_anti_loop_after_dedup.1 ["a"]
     [.obj [("slug", .str "b")], .obj [("slug", .str "a")]] ["b", "a"] []
     (by decide) (by decide) (by decide) (by decide)
     ⟨"a", by decide, by decide⟩⟩

theorem checkSpecialistPolicy_nonspec {agentRole : Option String}
    (h : agentRole ≠ some "specialist") (av : List AgentSummaryItem)
    (a r : Json) : checkSpecialistPolicy agentRole av a r = .ok () := by
  unfold checkSpecialistPolicy
  rw [if_neg (by simpa using h)]

theorem failedRunFacts {rid : Nat} {msg : String} {s4 : Store}
    {run : RunDoc} (h : findRunById s4 rid = some run) :
    (runFailureHandler rid msg s4).1 = .ok () ∧
    (findRunById (runFailureHandler rid msg s4).2 rid).map
      (fun r => r.status) = some .failed ∧
    ((findRunById (runFailureHandler rid msg s4).2 rid).bind
      (fun r => r.error)).map (fun e => e.message) = some msg := by
  refine ⟨runFailureHandler_result rid msg s4, ?_, ?_⟩ <;>
    rw [runFailureHandler_doc, h] <;> rfl

theorem c5_depth_throw (o : Oracle) (fuel rid aid : Nat) (run : RunDoc)
    (agent : AgentDoc) (version : AgentVersionDoc) (j : Json)
    (rteList : List Json) (s : Store)
    (hfr : findRunById s rid = some run)
    (h1 : run.agentId = some aid)
    (h2 : findAgentById s aid = some agent)
    (h3 : findVersionById s (run.agentVersionId.getD agent.activeVersionId) =
      some version)
    (ho : ∀ mc, o.respond mc = some j)
    (hj : j.getField "type" = some (.str "plan"))
    (hrole : (buildAgentSummaryItem agent.slug agent.name agent.description
      agent.metadata).role ≠ some "specialist")
    (hrte : ((jGet? j "runsToExecute").orElse
      (fun _ => jGet? j "runs")).getD (.arr []) = .arr rteList)
    (hlen : 0 < rteList.length)
    (hdepth : (readRoutingState run.context).routingDepth ≥
      ROUTING_POLICY.maxDepth) :
    (executeRun o (fuel + 1) rid s).1 = .ok () ∧
    (findRunById (executeRun o (fuel + 1) rid s).2 rid).map
      (fun r => r.status) = some .failed ∧
    ((findRunById (executeRun o (fuel + 1) rid s).2 rid).bind
      (fun r => r.error)).map (fun e => e.message) =
      some s!"Routing depth exceeded (depth: {(readRoutingState run.context).routingDepth}, max: {ROUTING_POLICY.maxDepth})" := by
  rw [executeRun_succ, hfr]
  dsimp only
  rw [executeRunBody_eq, tryCatchM_shift_emit, tryCatchM_apply]
  unfold restBody
  rw [M.bind_apply, resolveAgentVersion_found h1 ?hh2 ?hh3]
  case hh2 => exact h2
  case hh3 => exact h3
  dsimp only
  rw [M.bind_apply, emit_apply]
  dsimp only
  rw [M.bind_apply, emit_apply]
  dsimp only
  rw [M.bind_apply, show ∀ sx, listAvailableAgents sx =
    (.ok (sx.agents.map (fun a =>
      buildAgentSummaryItem a.slug a.name a.description a.metadata)), sx)
    from fun _ => rfl]
  dsimp only
  rw [M.bind_apply, ho, parseJsonStrict_typed hj (Or.inl rfl)]
  dsimp only
  rw [M.bind_apply, emit_apply]
  dsimp only
  rw [hj]
  rw [if_neg (by decide)]
  rw [hrte]
  rw [if_neg (by simp [Json.isArray])]
  rw [M.bind_apply, checkSpecialistPolicy_nonspec hrole, liftEx_ok]
  dsimp only
  rw [if_pos (by simp [jsLenGt, hdepth, hlen])]
  rw [throwM_apply]
  dsimp only
  exact failedRunFacts hfr

/-- C5 (amended): a plan-branch run of a *non-specialist* agent at or
beyond the depth limit with a non-empty `runsToExecute` fails with
`Routing depth exceeded` (a specialist is stopped by role discipline
first, see counterexample); and a run at the depth limit whose plan
lists no child runs still succeeds. -/
theorem c5_depth_limit :
    (∀ (o : Oracle) (fuel rid aid : Nat) (run : RunDoc) (agent : AgentDoc)
       (version : AgentVersionDoc) (j : Json) (rteList : List Json)
       (s : Store),
       findRunById s rid = some run →
       run.agentId = some aid →
       findAgentById s aid = some agent →
       findVersionById s (run.agentVersionId.getD agent.activeVersionId) =
         some version →
       (∀ mc, o.respond mc = some j) →
       j.getField "type" = some (.str "plan") →
       (buildAgentSummaryItem agent.slug agent.name agent.description
         agent.metadata).role ≠ some "specialist" →
       ((jGet? j "runsToExecute").orElse
         (fun _ => jGet? j "runs")).getD (.arr []) = .arr rteList →
       0 < rteList.length →
       (readRoutingState run.context).routingDepth ≥
         ROUTING_POLICY.maxDepth →
       (executeRun o (fuel + 1) rid s).1 = .ok () ∧
       (findRunById (executeRun o (fuel + 1) rid s).2 rid).map
         (fun r => r.status) = some .failed ∧
       ((findRunById (executeRun o (fuel + 1) rid s).2 rid).bind
         (fun r => r.error)).map (fun e => e.message) =
         some s!"Routing depth exceeded (depth: {(readRoutingState run.context).routingDepth}, max: {ROUTING_POLICY.maxDepth})") ∧
    ((executeRun c5okOracle 1 3 c5okSeed).1 = .ok () ∧
     (findRunById (executeRun c5okOracle 1 3 c5okSeed).2 3).map
       (fun r => r.status) = some .succeeded ∧
     ROUTING_POLICY.maxDepth ≤
       (readRoutingState c5okRun.context).routingDepth) :=
  ⟨fun o fuel rid aid run agent version j rteList s h1 h2 h3 h4 h5 h6 h7
      h8 h9 h10 =>
     c5_depth_throw o fuel rid aid run agent version j rteList s h1 h2 h3
       h4 h5 h6 h7 h8 h9 h10,
   rfl, rfl, by decide⟩

/-- Witness for C5: a non-specialist run at depth 3 with a one-entry plan
fails with the depth message. -/
theorem c5_depth_limit_witness :
    (executeRun c5oracle 1 3 c5okSeed).1 = .ok () ∧
    (findRunById (executeRun c5oracle 1 3 c5okSeed).2 3).map
      (fun r => r.status) = some .failed ∧
    ((findRunById (executeRun c5oracle 1 3 c5okSeed).2 3).bind
      (fun r => r.error)).map (fun e => e.message) =
      some "Routing depth exceeded (depth: 3, max: 2)" := by
  have h := c5_depth_limit.1 c5oracle 0 3 1 c5okRun c6agent c6version c5plan
    [.obj [("slug", .str "x")]] c5okSeed rfl rfl rfl rfl
    (fun _ => rfl) rfl (by decide) rfl (by decide) (by decide)
  refine ⟨h.1, h.2.1, ?_⟩
  rw [h.2.2]
  rfl

/-- C5 counterexample: a *specialist* agent at the depth limit with a
non-empty plan is failed by the specialist-delegation check, not by the
depth check, so the run does not carry the `Routing depth exceeded`
message the claim promises for every run at the limit. -/
theorem c5_specialist_preempts_depth :
    ROUTING_POLICY.maxDepth ≤ (readRoutingState c5run.context).routingDepth ∧
    (executeRun c5oracle 1 3 c5seed).1 = .ok () ∧
    (findRunById (executeRun c5oracle 1 3 c5seed).2 3).map
      (fun r => r.status) = some .failed ∧
    ((findRunById (executeRun c5oracle 1 3 c5seed).2 3).bind
      (fun r => r.error)).map (fun e => e.message) =
      some "Specialist agents may only delegate to routers; invalid slugs: x" := by
  refine ⟨by decide, ?_, ?_, ?_⟩ <;> rfl

/-- Witness for C7: a spec matching agent `a` whose trimmed prompt equals
the active version's prompt is resolved as a reuse with no new version. -/
theorem c7_reuse_on_matching_active_prompt_witness :
    (spawnSpec c6run c7okSpec c6seed).2.agentVersions =
      c6seed.agentVersions ∧
    (spawnSpec c6run c7okSpec c6seed).1 = .ok ("a",
      { requestedSlug := "a", slug := "a", agentId := 1,
        agentVersionId := 2, reused := true, matchedOn := "slug" }) :=
  c7_reuse_on_matching_active_prompt c6run c7okSpec c6seed c6agent "slug" 2
    c6version "p" rfl rfl rfl rfl rfl

/-- C7 counterexample: the matched agent's *latest* version (highest
version number, id 5) carries exactly the spec's trimmed prompt, yet the
resolver compares the prompt of the *active* version (id 2), so it
creates a new version and reports `reused = false`. -/
theorem c7_latest_version_match_not_reused :
    c7store.agentVersions.all (fun v => v.version ≤ c7v5.version) = true ∧
    c7store.agentVersions.contains c7v5 = true ∧
    c7v5.agentId = c6agent._id ∧
    findSimilarAgent c7store c7spec =
      some (c6agent, "slug", c6agent.activeVersionId) ∧
    jsTrimJ c7v5.systemPrompt =
      jsTrimJ (jGetD c7spec "systemPrompt" .null) ∧
    ((spawnSpec c6run c7spec c7store).1.toOption.map
      (fun p => p.2.reused)) = some false ∧
    (spawnSpec c6run c7spec c7store).2.agentVersions.length =
      c7store.agentVersions.length + 1 := by
  refine ⟨rfl, rfl, rfl, rfl, rfl, rfl, rfl⟩

/-- Witness for C10: resolving a tag- and metadata-free matching spec
returns the reuse resolution and leaves the store untouched. -/
theorem c10_reuse_writes_nothing_witness :
    (spawnSpec c6run c7okSpec c6seed).2 = c6seed ∧
    (spawnSpec c6run c7okSpec c6seed).1 = .ok ("a",
      { requestedSlug := "a", slug := "a", agentId := 1,
        agentVersionId := 2, reused := true, matchedOn := "slug" }) :=
  c10_reuse_writes_nothing c6run c7okSpec c6seed c6agent "slug" 2
    c6version "p" rfl rfl rfl rfl rfl rfl rfl

theorem runStart_child_step (s : Store) (agent : AgentDoc)
    (version : AgentVersionDoc) (parent : RunDoc)
    (hsess : s.sessions.contains 0 = true)
    (hagent : findAgentById s 1 = some agent)
    (hver : findVersionById s agent.activeVersionId = some version)
    (hparent : findRunById s 3 = some parent)
    (hroot : parent.rootRunId = some 3) :
    (handleRunStart oracleNone 0 c2params s).2 =
      { s with
          runs := s.runs ++
            [⟨s.nextId, 0, some agent._id, some version._id, .running,
              some 3, some 3, "x", none, none, none⟩],
          nextId := s.nextId + 1 } := by
  unfold handleRunStart
  dsimp only [c2params]
  rw [if_neg (by decide)]
  rw [M.bind_apply, getStore_apply]
  dsimp only
  rw [hsess]
  rw [if_neg (by decide)]
  rw [M.bind_apply]
  unfold resolveAgent
  rw [M.bind_apply, getStore_apply]
  dsimp only
  rw [hagent]
  dsimp only
  rw [hver]
  dsimp only
  rw [M.bind_apply, freshId_apply]
  dsimp only
  rw [M.bind_apply, getStore_apply]
  dsimp only
  rw [show findRunById { s with nextId := s.nextId + 1 } 3 = some parent
    from hparent]
  dsimp only
  rw [hroot]
  rw [M.bind_apply, M.pure_apply]
  dsimp only
  rw [M.bind_apply, insertRun_apply]
  dsimp only
  rw [M.bind_apply, executeRun_zero]
  rfl

theorem c2_grow (n : Nat) : ∃ s : Store, Reachable s ∧
    (s.sessions.contains 0 = true ∧ 3 < s.nextId ∧
     (∃ a, findAgentById s 1 = some a ∧
       ∃ v, findVersionById s a.activeVersionId = some v) ∧
     (∃ p, findRunById s 3 = some p ∧ p.rootRunId = some 3)) ∧
    countRunsByRootId s 3 = 1 + n := by
  induction n with
  | zero =>
    refine ⟨c2base,
      Reachable.runStart oracleNone 0 c2root
        (Reachable.sessionCreate Reachable.init),
      ⟨rfl, by decide, ⟨_, rfl, _, rfl⟩, ⟨_, rfl, rfl⟩⟩, rfl⟩
  | succ n ih =>
    obtain ⟨s, hre, ⟨hsess, hlt, ⟨a, ha, v, hv⟩, ⟨p, hp, hpr⟩⟩, hc⟩ := ih
    refine ⟨(handleRunStart oracleNone 0 c2params s).2,
      Reachable.runStart oracleNone 0 c2params hre, ?_, ?_⟩
    · rw [runStart_child_step s a v p hsess ha hv hp hpr]
      refine ⟨hsess, ?_, ⟨a, ha, v, hv⟩, ⟨p, ?_, hpr⟩⟩
      · show (3 : Nat) < s.nextId + 1
        omega
      show List.find? _ (s.runs ++ _) = _
      rw [find_append_one_ne (show s.nextId ≠ 3 by omega)]
      exact hp
    · rw [runStart_child_step s a v p hsess ha hv hp hpr]
      show ((s.runs ++ _).filter _).length = 1 + (n + 1)
      rw [List.filter_append]
      simp only [List.length_append]
      have : countRunsByRootId s 3 =
          (s.runs.filter (fun r => r.rootRunId == some 3)).length := rfl
      rw [this] at hc
      rw [hc]
      rfl

/-- C2 counterexample: `run.start` with a `parentRunId` inserts another
run under the parent's root without any spawn-cap check, so a reachable
store can hold arbitrarily many runs with one `rootRunId` — here more
than the claimed maximum of 11. -/
theorem c2_root_family_unbounded :
    ∃ s, Reachable s ∧ 11 < countRunsByRootId s 3 := by
  obtain ⟨s, hre, _, hc⟩ := c2_grow 11
  exact ⟨s, hre, by omega⟩

theorem enforceSpawnCap_exceeded (run : RunDoc) (n : Nat) (s : Store)
    (h : countRunsByRootId s (run.rootRunId.getD run._id) - 1 + n > 10) :
    enforceSpawnCap run n s =
      (.error s!"Spawn cap exceeded (current: {countRunsByRootId s (run.rootRunId.getD run._id) - 1}, requested: {n}, limit: {10})", s) := by
  unfold enforceSpawnCap
  rw [M.bind_apply, getStore_apply]
  dsimp only
  rw [if_pos h]
  rfl

theorem enforceSpawnCap_le (run : RunDoc) (n : Nat) (s : Store)
    (h : countRunsByRootId s (run.rootRunId.getD run._id) - 1 + n ≤ 10) :
    enforceSpawnCap run n s = (.ok (), s) := by
  unfold enforceSpawnCap
  rw [M.bind_apply, getStore_apply]
  dsimp only
  rw [if_neg (by omega)]
  rfl

/-- C2 (amended): `enforceSpawnCap` alone behaves as specified — it
throws `Spawn cap exceeded` exactly when `alreadySpawned + requested`
exceeds 10 and is a no-op otherwise; but only plan-spawned children pass
through it (see counterexample for the API path around it). -/
theorem c2_spawn_cap_guard (run : RunDoc) (n : Nat) (s : Store) :
    (countRunsByRootId s (run.rootRunId.getD run._id) - 1 + n > 10 →
      enforceSpawnCap run n s =
        (.error s!"Spawn cap exceeded (current: {countRunsByRootId s (run.rootRunId.getD run._id) - 1}, requested: {n}, limit: {10})", s)) ∧
    (countRunsByRootId s (run.rootRunId.getD run._id) - 1 + n ≤ 10 →
      enforceSpawnCap run n s = (.ok (), s)) :=
  ⟨enforceSpawnCap_exceeded run n s, enforceSpawnCap_le run n s⟩

/-- Witness for C2: a root with no children yet rejects a request for 11
children with the exact cap message. -/
theorem c2_spawn_cap_guard_witness :
    enforceSpawnCap c6run 11 c6seed =
      (.error "Spawn cap exceeded (current: 0, requested: 11, limit: 10)",
       c6seed) := by
  have h := (c2_spawn_cap_guard c6run 11 c6seed).1 (by decide)
  rw [h]
  rfl

theorem runChildren_step_null
    (execChild : Nat → M Unit) (run : RunDoc) (parsed : Json)
    (rsm : RoutingState) (resolutions : List (String × AgentResolution))
    (pps : List String) (child : Json) (rest : List Json)
    (vfc : List String) (couts : List (String × Json))
    (s s1 s3 : Store) (cid : Nat) (cdoc : RunDoc)
    (h1 : createChildRun run (childSlugStr child) (jGet? child "userMessage")
      (some (childContextData parsed rsm pps child vfc couts)) resolutions s
      = (.ok cid, s1))
    (h2 : execChild cid
      ((emit run._id .CHILD_RUN_STARTED
        (.obj [("childRunId", .str (toString cid)),
               ("slug", .str (childSlugStr child))]) s1).2) = (.ok (), s3))
    (hcr : findRunById s3 cid = some cdoc)
    (hout : cdoc.output = none) :
    runChildren execChild run parsed rsm resolutions pps
      (child :: rest) vfc couts s =
    runChildren execChild run parsed rsm resolutions pps rest
      (jsSetAdd vfc (childSlugStr child))
      (setChildOutput couts (childSlugStr child) .null)
      ((emit run._id .CHILD_RUN_FINISHED
        (.obj [("childRunId", .str (toString cid)),
               ("status", .str cdoc.status.toStr)]) s3).2) := by
  simp only [runChildren]
  rw [M.bind_apply, h1]
  dsimp only
  rw [M.bind_apply]
  rw [show emit run._id .CHILD_RUN_STARTED
    (.obj [("childRunId", .str (toString cid)),
           ("slug", .str (childSlugStr child))]) s1 =
    (.ok (maxSeq (eventsForRun s1 run._id) + 1),
     (emit run._id .CHILD_RUN_STARTED
       (.obj [("childRunId", .str (toString cid)),
              ("slug", .str (childSlugStr child))]) s1).2) from rfl]
  dsimp only
  rw [M.bind_apply, tryCatchM_apply]
  rw [M.bind_apply, h2]
  dsimp only
  rw [M.bind_apply, getStore_apply]
  dsimp only
  rw [hcr]
  dsimp only
  rw [show ((some cdoc).bind fun c => c.output) = cdoc.output from rfl]
  rw [hout]
  rw [M.bind_apply]
  rw [show emit run._id .CHILD_RUN_FINISHED
    (.obj [("childRunId", .str (toString cid)),
           ("status", .str cdoc.status.toStr)]) s3 =
    (.ok (maxSeq (eventsForRun s3 run._id) + 1),
     (emit run._id .CHILD_RUN_FINISHED
       (.obj [("childRunId", .str (toString cid)),
              ("status", .str cdoc.status.toStr)]) s3).2) from rfl]
  dsimp only
  rfl

theorem runChildren_step_null_proj
    (execChild : Nat → M Unit) (run : RunDoc) (parsed : Json)
    (rsm : RoutingState) (resolutions : List (String × AgentResolution))
    (pps : List String) (child : Json) (rest : List Json)
    (vfc : List String) (couts : List (String × Json))
    (s : Store) (cid : Nat) (cdoc : RunDoc)
    (h1 : (createChildRun run (childSlugStr child) (jGet? child "userMessage")
      (some (childContextData parsed rsm pps child vfc couts)) resolutions
      s).1 = .ok cid)
    (h2 : (execChild cid
      ((emit run._id .CHILD_RUN_STARTED
        (.obj [("childRunId", .str (toString cid)),
               ("slug", .str (childSlugStr child))])
        ((createChildRun run (childSlugStr child) (jGet? child "userMessage")
          (some (childContextData parsed rsm pps child vfc couts)) resolutions
          s).2)).2)).1 = .ok ())
    (hcr : findRunById (execChild cid
      ((emit run._id .CHILD_RUN_STARTED
        (.obj [("childRunId", .str (toString cid)),
               ("slug", .str (childSlugStr child))])
        ((createChildRun run (childSlugStr child) (jGet? child "userMessage")
          (some (childContextData parsed rsm pps child vfc couts)) resolutions
          s).2)).2)).2 cid = some cdoc)
    (hout : cdoc.output = none) :
    runChildren execChild run parsed rsm resolutions pps
      (child :: rest) vfc couts s =
    runChildren execChild run parsed rsm resolutions pps rest
      (jsSetAdd vfc (childSlugStr child))
      (setChildOutput couts (childSlugStr child) .null)
      ((emit run._id .CHILD_RUN_FINISHED
        (.obj [("childRunId", .str (toString cid)),
               ("status", .str cdoc.status.toStr)])
        ((execChild cid
          ((emit run._id .CHILD_RUN_STARTED
            (.obj [("childRunId", .str (toString cid)),
                   ("slug", .str (childSlugStr child))])
            ((createChildRun run (childSlugStr child)
              (jGet? child "userMessage")
              (some (childContextData parsed rsm pps child vfc couts))
              resolutions s).2)).2)).2)).2) := by
  refine runChildren_step_null execChild run parsed rsm resolutions pps
    child rest vfc couts s
    ((createChildRun run (childSlugStr child) (jGet? child "userMessage")
      (some (childContextData parsed rsm pps child vfc couts)) resolutions
      s).2)
    ((execChild cid
      ((emit run._id .CHILD_RUN_STARTED
        (.obj [("childRunId", .str (toString cid)),
               ("slug", .str (childSlugStr child))])
        ((createChildRun run (childSlugStr child) (jGet? child "userMessage")
          (some (childContextData parsed rsm pps child vfc couts)) resolutions
          s).2)).2)).2)
    cid cdoc ?_ ?_ hcr hout
  · rw [← h1]
  · rw [← h2]

theorem liftEx_ok_of {α : Type} {e : Except String α} {a : α}
    (h : e = .ok a) (s : Store) : liftEx e s = (.ok a, s) := by
  rw [h]
  exact liftEx_ok a s

theorem runChildren_nil (execChild : Nat → M Unit) (run : RunDoc)
    (parsed : Json) (rsm : RoutingState)
    (resolutions : List (String × AgentResolution)) (pps : List String)
    (vfc : List String) (couts : List (String × Json)) :
    runChildren execChild run parsed rsm resolutions pps [] vfc couts =
      pure couts := rfl

theorem spawnAgentsFromPlan_nil {plan : Json}
    (h : (jGet? plan "agentsToCreate").getD (.arr []) = .arr [])
    (run : RunDoc) (s : Store) :
    spawnAgentsFromPlan plan run s = (.ok [], s) := by
  unfold spawnAgentsFromPlan
  rw [h]
  rfl

/-- The end-to-end run of the one-child plan under `c1oracle2`: the
parent returns normally and succeeds, its merged output records `null`
for the failed child `alpha`, and the child run document (id 13) is
marked failed with no output. -/
theorem c1_parent_run :
    (executeRun c1oracle2 2 7 c1seed).1 = .ok () ∧
    (findRunById (executeRun c1oracle2 2 7 c1seed).2 7).map
      (fun r => r.status) = some .succeeded ∧
    ((findRunById (executeRun c1oracle2 2 7 c1seed).2 7).bind
      (fun r => r.output)).bind (fun o => jGet? o "childResultsBySlug") =
      some (.obj [("alpha", .null)]) ∧
    (findRunById (executeRun c1oracle2 2 7 c1seed).2 13).map
      (fun r => (r.status, r.output)) = some (.failed, none) := by
  have h2eq : (2 : Nat) = 1 + 1 := rfl
  rw [h2eq]
  rw [executeRun_succ, show findRunById c1seed 7 = some c1parent from rfl]
  dsimp only
  rw [executeRunBody_eq, tryCatchM_shift_emit, tryCatchM_apply]
  unfold restBody
  rw [M.bind_apply, resolveAgentVersion_found
    (show c1parent.agentId = some 5 from rfl) ?hh2 ?hh3]
  case hh2 => exact rfl
  case hh3 => exact rfl
  dsimp only
  rw [M.bind_apply, emit_apply]
  dsimp only
  rw [M.bind_apply, emit_apply]
  dsimp only
  rw [M.bind_apply, show ∀ sx, listAvailableAgents sx =
    (.ok (sx.agents.map (fun a =>
      buildAgentSummaryItem a.slug a.name a.description a.metadata)), sx)
    from fun _ => rfl]
  dsimp only
  rw [M.bind_apply, show ∀ sp ctx, c1oracle2.respond
      ⟨DEFAULT_MODEL, sp, c1parent.userMessage, ctx⟩ = some c1plan
    from fun _ _ => rfl]
  rw [parseJsonStrict_typed
    (show c1plan.getField "type" = some (.str "plan") from rfl) (Or.inl rfl)]
  dsimp only
  rw [M.bind_apply, emit_apply]
  dsimp only
  rw [if_neg (by decide)]
  rw [show ((jGet? c1plan "agentsToCreate").orElse
    (fun _ => jGet? c1plan "agents")).getD (Json.arr []) = Json.arr []
    from rfl]
  rw [show ((jGet? c1plan "runsToExecute").orElse
    (fun _ => jGet? c1plan "runs")).getD (Json.arr []) = Json.arr [c1child]
    from rfl]
  rw [if_neg (by decide)]
  rw [M.bind_apply, liftEx_ok_of ?hsp]
  case hsp => exact rfl
  dsimp only
  rw [if_neg (by decide)]
  rw [if_neg (by decide)]
  rw [show (Json.arr [c1child]).asArray = some [c1child] from rfl]
  dsimp only
  rw [M.bind_apply, M.pure_apply]
  dsimp only
  rw [M.bind_apply, liftEx_ok_of ?hchk]
  case hchk => exact rfl
  dsimp only
  rw [M.bind_apply, enforceSpawnCap_le _ _ _ ?hcap]
  case hcap => decide
  dsimp only
  rw [show (Json.arr ([] : List Json)).asArray = some [] from rfl]
  dsimp only
  rw [M.bind_apply, M.pure_apply]
  dsimp only
  rw [M.bind_apply, emit_apply]
  dsimp only
  rw [M.bind_apply, spawnAgentsFromPlan_nil ?hpl]
  case hpl => exact rfl
  dsimp only
  rw [M.bind_apply, show ∀ sx, emitResolutions 7 [] sx = (.ok (), sx)
    from fun _ => rfl]
  dsimp only
  rw [M.bind_apply]
  rw [runChildren_step_null_proj _ _ _ _ _ _ _ _ _ _ _ _ _
    ?hc1 ?hc2 ?hc3 ?hc4]
  case hc1 => exact rfl
  case hc2 => exact rfl
  case hc3 => exact rfl
  case hc4 => exact rfl
  rw [runChildren_nil]
  rw [M.pure_apply]
  dsimp only
  unfold mergeAndFinish
  rw [M.bind_apply, updateRunById_apply]
  dsimp only
  rw [M.bind_apply, emit_apply]
  dsimp only
  refine ⟨rfl, ?_, ?_, ?_⟩ <;> rfl

/-- C1 (amended): when a child's recursive execution *returns normally*
(as it does whenever the failure is trapped at the child's run boundary)
and the child run document carries no output, the parent loop records
`null` — not an error object — for that slug, emits `CHILD_RUN_FINISHED`
with the child's final status, and continues with the remaining
siblings; end to end, the one-failed-child plan run leaves the parent
`succeeded` with `childResultsBySlug.alpha = null` in its stored merged
output while the child run document is `failed`. -/
theorem c1_failed_child_recorded_null :
    (∀ (execChild : Nat → M Unit) (run : RunDoc) (parsed : Json)
       (rsm : RoutingState) (resolutions : List (String × AgentResolution))
       (pps : List String) (child : Json) (rest : List Json)
       (vfc : List String) (couts : List (String × Json))
       (s s1 s3 : Store) (cid : Nat) (cdoc : RunDoc),
       createChildRun run (childSlugStr child) (jGet? child "userMessage")
         (some (childContextData parsed rsm pps child vfc couts))
         resolutions s = (.ok cid, s1) →
       execChild cid
         ((emit run._id .CHILD_RUN_STARTED
           (.obj [("childRunId", .str (toString cid)),
                  ("slug", .str (childSlugStr child))]) s1).2) =
         (.ok (), s3) →
       findRunById s3 cid = some cdoc →
       cdoc.output = none →
       runChildren execChild run parsed rsm resolutions pps
         (child :: rest) vfc couts s =
       runChildren execChild run parsed rsm resolutions pps rest
         (jsSetAdd vfc (childSlugStr child))
         (setChildOutput couts (childSlugStr child) .null)
         ((emit run._id .CHILD_RUN_FINISHED
           (.obj [("childRunId", .str (toString cid)),
                  ("status", .str cdoc.status.toStr)]) s3).2)) ∧
    ((executeRun c1oracle2 2 7 c1seed).1 = .ok () ∧
     (findRunById (executeRun c1oracle2 2 7 c1seed).2 7).map
       (fun r => r.status) = some .succeeded ∧
     ((findRunById (executeRun c1oracle2 2 7 c1seed).2 7).bind
       (fun r => r.output)).bind (fun o => jGet? o "childResultsBySlug") =
       some (.obj [("alpha", .null)]) ∧
     (findRunById (executeRun c1oracle2 2 7 c1seed).2 13).map
       (fun r => (r.status, r.output)) = some (.failed, none)) :=
  ⟨fun execChild run parsed rsm resolutions pps child rest vfc couts
      s s1 s3 cid cdoc h1 h2 hcr hout =>
     runChildren_step_null execChild run parsed rsm resolutions pps child
       rest vfc couts s s1 s3 cid cdoc h1 h2 hcr hout,
   c1_parent_run⟩

/-- Witness for C1: the single failed child `alpha` is recorded as
`null` and the loop proceeds to its (empty) tail. -/
theorem c1_failed_child_recorded_null_witness :
    runChildren (executeRun c1oracle 1) c1parent c1plan ⟨["parent"], 0⟩ []
      ["alpha"] [c1child] [] [] c1seed =
    runChildren (executeRun c1oracle 1) c1parent c1plan ⟨["parent"], 0⟩ []
      ["alpha"] [] (jsSetAdd [] "alpha") (setChildOutput [] "alpha" .null)
      ((emit 7 .CHILD_RUN_FINISHED
        (.obj [("childRunId", .str (toString (8 : Nat))),
               ("status", .str "failed")]) c1s3).2) :=
  c1_failed_child_recorded_null.1 (executeRun c1oracle 1) c1parent c1plan
    ⟨["parent"], 0⟩ [] ["alpha"] c1child [] [] [] c1seed c1s1 c1s3 8 _
    rfl rfl rfl rfl

/-- C1 counterexample: child run 8 ends `status = failed` (with no
output), yet the parent records `childResultsBySlug.alpha = null` — not
`{error: message}` as claimed — and the loop returns normally. -/
theorem c1_failed_child_not_error_object :
    (findRunById c1s3 8).map (fun c => (c.status, c.output)) =
      some (.failed, none) ∧
    (runChildren (executeRun c1oracle 1) c1parent c1plan ⟨["parent"], 0⟩ []
      ["alpha"] [c1child] [] [] c1seed).1 = .ok [("alpha", .null)] := by
  constructor
  · rfl
  · rw [runChildren_step_null (executeRun c1oracle 1) c1parent c1plan
      ⟨["parent"], 0⟩ [] ["alpha"] c1child [] [] [] c1seed c1s1 c1s3 8 _
      rfl rfl rfl rfl]
    rfl
